import Mathlib

/-!
Romana core: iptables firewall reconciliation.

A shallow embedding of `pkg/util/firewall/iptables.go`.

* Go's `uint64`/`uint` values are natural numbers; every operation that can
  leave the 64-bit range is reduced modulo `2 ^ 64` explicitly.
* The kernel (`fw.os.Exec`) and the rule ledger (`fw.Store`) are external
  collaborators: they are parameters of the embedding (`Env`), acting on an
  abstract world state, and every call to them is recorded in an event log.
* Where an operation assigns through pointers (`SetDefaultRules`), the objects
  live in an explicit memory and a pointer is the position of its object.
-/

namespace Firewall

/-! ## Machine arithmetic (`uint64`) -/

/-- Go `x << n` on `uint64`: bits shifted past bit 63 are lost. -/
def shl64 (x n : Nat) : Nat := (x <<< n) % 2 ^ 64

/-- Go `x >> n` on `uint64`. -/
def shr64 (x n : Nat) : Nat := x >>> n

/-- Go `a - b` on `uint64` (wraps around below zero). -/
def sub64 (a b : Nat) : Nat := (a % 2 ^ 64 + 2 ^ 64 - b % 2 ^ 64) % 2 ^ 64

/-- Go `a + b` on `uint` (64-bit). -/
def add64 (a b : Nat) : Nat := (a + b) % 2 ^ 64

/-! ## Network configuration -/

/-- The part of `NetConfig` read by the address arithmetic: the results of
`TenantBits()`, `SegmentBits()` and `EndpointBits()` (Go `uint`). -/
structure NetConfig where
  tenantBits : Nat
  segmentBits : Nat
  endpointBits : Nat
  deriving Repr, DecidableEq

/-- `extractSegmentID`:
`sid := (addr >> endpointBits) & ((1 << segmentBits) - 1)`. -/
def extractSegmentID (cfg : NetConfig) (addr : Nat) : Nat :=
  let endpointBits := cfg.endpointBits
  let segmentBits := cfg.segmentBits
  (shr64 addr endpointBits) &&& (sub64 (shl64 1 segmentBits) 1)

/-- `extractTenantID`:
`tid := (addr >> (endpointBits + segmentBits)) & ((1 << tenantBits) - 1)`. -/
def extractTenantID (cfg : NetConfig) (addr : Nat) : Nat :=
  let endpointBits := cfg.endpointBits
  let segmentBits := cfg.segmentBits
  let tenantBits := cfg.tenantBits
  (shr64 addr (add64 endpointBits segmentBits)) &&& (sub64 (shl64 1 tenantBits) 1)

/-- The address carrying the given identifiers: network prefix bits, then the
tenant, segment and endpoint fields from high to low. -/
def embedIDs (cfg : NetConfig) (pfx tenantID segmentID endpointID : Nat) : Nat :=
  pfx ||| (tenantID <<< (cfg.segmentBits + cfg.endpointBits))
    ||| (segmentID <<< cfg.endpointBits) ||| endpointID

/-! ## Rules, chains and the firewall object -/

/-- Modelled from the spec: the persisted state of a rule record,
`state ∈ {Inactive, Active}`. In the source it is the string
`setRuleInactive.String()` / `setRuleActive.String()`; the declaration of
`opSwitchIPtables` and of its `String` method is not among the given files. -/
inductive opSwitchIPtables where
  | setRuleInactive
  | setRuleActive
  deriving Repr, DecidableEq

/-- Modelled from the spec: `IPtablesRule`, a rule record
`{ body: string (identity), state: enum{Inactive, Active} }`; the struct is
declared outside the given files, the source reads `rule.Body` and
`rule.State`. -/
structure IPtablesRule where
  Body : String
  State : opSwitchIPtables
  deriving Repr, DecidableEq

/-- Modelled from the spec: `RuleState`, the desired placement of a rule,
`desiredPlacement ∈ {First, Last, Absent}`; the source names the values
`ensureLast`, `ensureFirst` and `ensureAbsent`, the type is declared outside
the given files. -/
inductive RuleState where
  | ensureLast
  | ensureFirst
  | ensureAbsent
  deriving Repr, DecidableEq

/-- `opDivertTrafficAction` with its two values. -/
inductive opDivertTrafficAction where
  | installDivertRules
  | removeDivertRules
  deriving Repr, DecidableEq

/-- `IPtablesChain` describes the state of one firewall chain. -/
structure IPtablesChain where
  BaseChain : String
  Directions : List String
  Rules : List IPtablesRule
  ChainName : String
  deriving Repr, DecidableEq

/-- The data fields of `IPtables`; the collaborators `Store` and `os` are the
`Env` parameter of every operation. -/
structure IPtables where
  Chains : List IPtablesChain
  U32Filter : String
  ChainPrefix : String
  InterfaceName : String
  networkConfig : NetConfig
  deriving Repr, DecidableEq

/-! ## External collaborators and the event log -/

/-- A Go `error` value: `none` is `nil`. -/
abbrev GoError := Option String

/-- Outcome of an operation that indexes `fw.Chains`: it returns an `error`
value, or the index is out of range and the Go run time panics. -/
inductive Outcome where
  | returned (err : GoError)
  | panicked
  deriving Repr, DecidableEq

/-- One call to an external collaborator. -/
inductive Event where
  | exec (cmd : String) (args : List String)
  | ledgerAdd (rule : IPtablesRule)
  | ledgerSwitch (rule : IPtablesRule) (op : opSwitchIPtables)
  | ledgerDelete (rule : IPtablesRule)
  | ledgerFind (substring : String)
  deriving Repr, DecidableEq

/-- The collaborators, acting on a world state `σ` (kernel tables and ledger):
`fw.os.Exec` (its output bytes are never inspected by the code modelled here)
and the `firewallStore` methods. The store receives the rule by pointer; the
embedding hands it the rule value and keeps using the caller's `Body`. -/
structure Env (σ : Type) where
  exec : σ → String → List String → GoError × σ
  addIPtablesRule : σ → IPtablesRule → GoError × σ
  switchIPtablesRule : σ → IPtablesRule → opSwitchIPtables → GoError × σ
  deleteIPtablesRule : σ → IPtablesRule → GoError × σ
  findIPtablesRules : σ → String → Except String (List IPtablesRule) × σ

/-- World state together with the log of the collaborator calls made so far. -/
structure World (σ : Type) where
  st : σ
  log : List Event

/-- `fw.os.Exec(cmd, args)`, logged. -/
def osExec {σ : Type} (env : Env σ) (w : World σ) (cmd : String) (args : List String) :
    GoError × World σ :=
  let r := env.exec w.st cmd args
  (r.1, ⟨r.2, w.log ++ [Event.exec cmd args]⟩)

/-- `fw.Store.addIPtablesRule(rule)`, logged. -/
def storeAdd {σ : Type} (env : Env σ) (w : World σ) (rule : IPtablesRule) :
    GoError × World σ :=
  let r := env.addIPtablesRule w.st rule
  (r.1, ⟨r.2, w.log ++ [Event.ledgerAdd rule]⟩)

/-- `fw.Store.switchIPtablesRule(rule, op)`, logged. -/
def storeSwitch {σ : Type} (env : Env σ) (w : World σ) (rule : IPtablesRule)
    (op : opSwitchIPtables) : GoError × World σ :=
  let r := env.switchIPtablesRule w.st rule op
  (r.1, ⟨r.2, w.log ++ [Event.ledgerSwitch rule op]⟩)

/-- `fw.Store.deleteIPtablesRule(rule)`, logged. -/
def storeDelete {σ : Type} (env : Env σ) (w : World σ) (rule : IPtablesRule) :
    GoError × World σ :=
  let r := env.deleteIPtablesRule w.st rule
  (r.1, ⟨r.2, w.log ++ [Event.ledgerDelete rule]⟩)

/-- The command every kernel call runs. -/
def iptablesCmd : String := "/sbin/iptables"

/-! ## Reconciliation engine -/

/-- `isRuleExist`: runs `-C <body>`; `true` exactly when no error came back. -/
def isRuleExist {σ : Type} (env : Env σ) (w : World σ) (rule : IPtablesRule) :
    Bool × World σ :=
  let cmd := iptablesCmd
  let args := ["-C", rule.Body]
  let r := osExec env w cmd args
  match r.1 with
  | some _ => (false, r.2)
  | none => (true, r.2)

/-- `EnsureRule`: the existence check, then at most one further command.
The `switch` of the source has cases for `ensureLast` and `ensureFirst` only;
with any other placement `args` stays empty before the body is appended. -/
def EnsureRule {σ : Type} (env : Env σ) (w : World σ) (rule : IPtablesRule)
    (opType : RuleState) : GoError × World σ :=
  let c := isRuleExist env w rule
  let ruleExists := c.1
  let cmd := iptablesCmd
  let args : List String := []
  if ruleExists && opType == RuleState.ensureAbsent then
    let args := args ++ ["-D"]
    let args := args ++ [rule.Body]
    osExec env c.2 cmd args
  else if !ruleExists then
    let args :=
      match opType with
      | RuleState.ensureLast => args ++ ["-A"]
      | RuleState.ensureFirst => args ++ ["-I"]
      | _ => args
    let args := args ++ [rule.Body]
    osExec env c.2 cmd args
  else
    (none, c.2)

/-- `fw.addIPtablesRule`: the store's add, its error passed on. -/
def addIPtablesRule {σ : Type} (env : Env σ) (w : World σ) (rule : IPtablesRule) :
    GoError × World σ :=
  let r := storeAdd env w rule
  match r.1 with
  | some e => (some e, r.2)
  | none => (none, r.2)

/-- The three steps every rule-installing operation performs on one rule:
ledger add, `EnsureRule`, ledger switch to active; the first error is
returned at once. -/
def applyRule {σ : Type} (env : Env σ) (w : World σ) (rule : IPtablesRule)
    (state : RuleState) : GoError × World σ :=
  let r0 := addIPtablesRule env w rule
  match r0.1 with
  | some e0 => (some e0, r0.2)
  | none =>
    let r1 := EnsureRule env r0.2 rule state
    match r1.1 with
    | some e1 => (some e1, r1.2)
    | none =>
      let r2 := storeSwitch env r1.2 rule opSwitchIPtables.setRuleActive
      match r2.1 with
      | some e2 => (some e2, r2.2)
      | none => (none, r2.2)

/-- The jump rule `DivertTrafficToRomanaIPtablesChain` builds for one
direction: body `"%s %s %s %s %s"` of base chain, `-<direction>`, interface
name, `-j`, chain name; state `setRuleInactive`. -/
def divertRule (fw : IPtables) (chain : IPtablesChain) (directionLiteral : String) :
    IPtablesRule :=
  let direction := "-" ++ directionLiteral
  let body := chain.BaseChain ++ " " ++ direction ++ " " ++ fw.InterfaceName ++ " " ++ "-j"
    ++ " " ++ chain.ChainName
  { Body := body, State := opSwitchIPtables.setRuleInactive }

/-- The placement `DivertTrafficToRomanaIPtablesChain` derives from its action. -/
def divertState (opType : opDivertTrafficAction) : RuleState :=
  match opType with
  | opDivertTrafficAction.installDivertRules => RuleState.ensureLast
  | opDivertTrafficAction.removeDivertRules => RuleState.ensureAbsent

/-- The loop of `DivertTrafficToRomanaIPtablesChain` over `chain.Directions`. -/
def divertLoop {σ : Type} (env : Env σ) (fw : IPtables) (chain : IPtablesChain)
    (state : RuleState) : List String → World σ → GoError × World σ
  | [], w => (none, w)
  | directionLiteral :: rest, w =>
    let rule := divertRule fw chain directionLiteral
    let r := applyRule env w rule state
    match r.1 with
    | some e => (some e, r.2)
    | none => divertLoop env fw chain state rest r.2

/-- `DivertTrafficToRomanaIPtablesChain`. -/
def DivertTrafficToRomanaIPtablesChain {σ : Type} (env : Env σ) (fw : IPtables)
    (w : World σ) (chain : IPtablesChain) (opType : opDivertTrafficAction) :
    GoError × World σ :=
  let state := divertState opType
  divertLoop env fw chain state chain.Directions w

/-- The loop of `CreateRules` over the rules attached to the chain. -/
def createRulesLoop {σ : Type} (env : Env σ) : List IPtablesRule → World σ →
    GoError × World σ
  | [], w => (none, w)
  | rule :: rest, w =>
    let r := applyRule env w rule RuleState.ensureFirst
    match r.1 with
    | some e => (some e, r.2)
    | none => createRulesLoop env rest r.2

/-- `CreateRules`: `fw.Chains[chain]` panics when the index is out of range. -/
def CreateRules {σ : Type} (env : Env σ) (fw : IPtables) (w : World σ) (chain : Nat) :
    Outcome × World σ :=
  match fw.Chains[chain]? with
  | none => (Outcome.panicked, w)
  | some c =>
    let r := createRulesLoop env c.Rules w
    (Outcome.returned r.1, r.2)

/-- The rule `CreateDefaultRule` builds: body `"%s %s %s"` of chain name, `-j`
and target; the source sets `State: setRuleActive.String()`. -/
def defaultRule (chainName target : String) : IPtablesRule :=
  let body := chainName ++ " " ++ "-j" ++ " " ++ target
  { Body := body, State := opSwitchIPtables.setRuleActive }

/-- `CreateDefaultRule`. -/
def CreateDefaultRule {σ : Type} (env : Env σ) (fw : IPtables) (w : World σ) (chain : Nat)
    (target : String) : Outcome × World σ :=
  match fw.Chains[chain]? with
  | none => (Outcome.panicked, w)
  | some c =>
    let chainName := c.ChainName
    let rule := defaultRule chainName target
    let r := applyRule env w rule RuleState.ensureLast
    (Outcome.returned r.1, r.2)

/-- The loop of `CreateChains`; `chain` runs over the values of
`for chain := range newChains`. -/
def createChainsLoop {σ : Type} (env : Env σ) (fw : IPtables) : List Nat → World σ →
    Outcome × World σ
  | [], w => (Outcome.returned none, w)
  | chain :: rest, w =>
    match fw.Chains[chain]? with
    | none => (Outcome.panicked, w)
    | some c =>
      let cmd := iptablesCmd
      let args := ["-N", c.ChainName]
      let r := osExec env w cmd args
      match r.1 with
      | some e => (Outcome.returned (some e), r.2)
      | none => createChainsLoop env fw rest r.2

/-- `CreateChains`: a `range` clause with a single iteration variable yields
the positions `0, 1, ..., len(newChains)-1` of the slice, not its elements. -/
def CreateChains {σ : Type} (env : Env σ) (fw : IPtables) (w : World σ)
    (newChains : List Nat) : Outcome × World σ :=
  createChainsLoop env fw (List.range newChains.length) w

/-! ## The trace the three-phase protocol prescribes -/

/-- The sequence of collaborator calls that installing the jump rules of
`chain` prescribes, from world state `st` on, one direction after the other:
ledger add, existence check, append when the check reported the rule absent,
ledger switch to active. -/
def installProtocolTrace {σ : Type} (env : Env σ) (fw : IPtables) (chain : IPtablesChain) :
    List String → σ → List Event
  | [], _ => []
  | directionLiteral :: rest, st =>
    let rule := divertRule fw chain directionLiteral
    let st1 := (env.addIPtablesRule st rule).2
    let chk := env.exec st1 iptablesCmd ["-C", rule.Body]
    let absent := chk.1.isSome
    let st2 := if absent then (env.exec chk.2 iptablesCmd ["-A", rule.Body]).2 else chk.2
    let st3 := (env.switchIPtablesRule st2 rule opSwitchIPtables.setRuleActive).2
    [Event.ledgerAdd rule, Event.exec iptablesCmd ["-C", rule.Body]]
      ++ (if absent then [Event.exec iptablesCmd ["-A", rule.Body]] else [])
      ++ [Event.ledgerSwitch rule opSwitchIPtables.setRuleActive]
      ++ installProtocolTrace env fw chain rest st3

/-- An event is a kernel command. -/
def Event.isExec : Event → Bool
  | Event.exec _ _ => true
  | _ => false

/-! ## A simulated host

A small executable kernel and ledger, used to run the operations on concrete
inputs. -/

/-- State of the simulated host: the user chains and the installed rule bodies
of the kernel, the ledger records, and the changing commands the tool refuses. -/
structure SimState where
  chains : List String
  rules : List String
  ledger : List IPtablesRule
  rejected : List (List String)
  deriving Repr, DecidableEq

/-- The simulated `iptables`: `-L`/`-N` on chains, `-C`/`-A`/`-I`/`-D` on rule
bodies. The two queries always answer; a changing command fails when its
argument list is in `rejected`; any other argument list is an error. -/
def simExec (st : SimState) (_cmd : String) (args : List String) : GoError × SimState :=
  match args with
  | ["-L", name] =>
    if name ∈ st.chains then (none, st) else (some "iptables: No chain by that name.", st)
  | ["-C", body] =>
    if body ∈ st.rules then (none, st) else (some "iptables: Bad rule.", st)
  | ["-N", name] =>
    if args ∈ st.rejected then (some "iptables: command failed", st)
    else if name ∈ st.chains then (some "iptables: Chain already exists.", st)
    else (none, { st with chains := st.chains ++ [name] })
  | ["-A", body] =>
    if args ∈ st.rejected then (some "iptables: command failed", st)
    else (none, { st with rules := st.rules ++ [body] })
  | ["-I", body] =>
    if args ∈ st.rejected then (some "iptables: command failed", st)
    else (none, { st with rules := body :: st.rules })
  | ["-D", body] =>
    if args ∈ st.rejected then (some "iptables: command failed", st)
    else if body ∈ st.rules then (none, { st with rules := st.rules.erase body })
    else (some "iptables: Bad rule.", st)
  | _ => (some "iptables: bad command line", st)

/-- Substring containment on character lists. -/
def containsChars (sub s : List Char) : Bool :=
  s.tails.any (fun t => sub.isPrefixOf t)

/-- Some ledger record has the body of `rule`. -/
def simHas (st : SimState) (rule : IPtablesRule) : Bool :=
  st.ledger.any (fun r => r.Body == rule.Body)

/-- Simulated ledger add: bodies are unique. -/
def simAdd (st : SimState) (rule : IPtablesRule) : GoError × SimState :=
  if simHas st rule then (some "UNIQUE constraint failed", st)
  else (none, { st with ledger := st.ledger ++ [rule] })

/-- Simulated ledger state switch: needs the record. -/
def simSwitch (st : SimState) (rule : IPtablesRule) (op : opSwitchIPtables) :
    GoError × SimState :=
  let upd := fun (r : IPtablesRule) => if r.Body == rule.Body then { r with State := op } else r
  if simHas st rule then (none, { st with ledger := st.ledger.map upd })
  else (some "record not found", st)

/-- Simulated ledger delete: needs the record. -/
def simDelete (st : SimState) (rule : IPtablesRule) : GoError × SimState :=
  let keep := fun (r : IPtablesRule) => r.Body != rule.Body
  if simHas st rule then (none, { st with ledger := st.ledger.filter keep })
  else (some "record not found", st)

/-- Simulated ledger search: containment on the body. -/
def simFind (st : SimState) (substring : String) :
    Except String (List IPtablesRule) × SimState :=
  (Except.ok (st.ledger.filter (fun r => containsChars substring.data r.Body.data)), st)

/-- The simulated collaborators. -/
def simEnv : Env SimState where
  exec := simExec
  addIPtablesRule := simAdd
  switchIPtablesRule := simSwitch
  deleteIPtablesRule := simDelete
  findIPtablesRules := simFind

/-- A simulated host with nothing installed and an empty ledger. -/
def simEmpty : SimState := { chains := [], rules := [], ledger := [], rejected := [] }

/-- A world over the simulated host with an empty log. -/
def simWorld (st : SimState) : World SimState := { st := st, log := [] }

/-- The plan of interface `tap123` with address 10.0.1.4: the four chains in
the order of `InputChainIndex` .. `ForwardOutChainIndex`, no rules attached. -/
def demoFw : IPtables where
  Chains := [
    ⟨"INPUT", ["i"], [], "ROMANA-T0S1-INPUT"⟩,
    ⟨"OUTPUT", ["o"], [], "ROMANA-T0S1-OUTPUT"⟩,
    ⟨"FORWARD", ["i"], [], "ROMANA-T0S1-FORWARD"⟩,
    ⟨"FORWARD", ["o"], [], "ROMANA-T0"⟩]
  U32Filter := "12&0xFF00FF00=0xA000100 && 16&0xFF00FF00=0xA000100"
  ChainPrefix := "ROMANA-T0S1-"
  InterfaceName := "tap123"
  networkConfig := ⟨4, 4, 8⟩

/-- A chain bound to both directions. -/
def demoChain : IPtablesChain := ⟨"FORWARD", ["i", "o"], [], "ROMANA-T0S1-FORWARD"⟩

/-- The create command of a chain, as a log entry. -/
def createEvent (c : IPtablesChain) : Event :=
  Event.exec iptablesCmd ["-N", c.ChainName]

/-- The simulated host on which the chain at index 1 of `demoFw` exists. -/
def simOutputChainExists : SimState := { simEmpty with chains := ["ROMANA-T0S1-OUTPUT"] }

/-- Every event of the list is a kernel command. -/
def OnlyKernelCommands (evs : List Event) : Prop :=
  ∀ ev ∈ evs, ev.isExec = true

/-- Two rules attached to a chain, bodies already prefixed with the chain name. -/
def demoRuleA : IPtablesRule :=
  ⟨"ROMANA-T0S1-INPUT -p icmp -j ACCEPT", opSwitchIPtables.setRuleInactive⟩

/-- The second rule attached to the chain. -/
def demoRuleB : IPtablesRule :=
  ⟨"ROMANA-T0S1-INPUT -p tcp --dport 22 -j ACCEPT", opSwitchIPtables.setRuleInactive⟩

/-- The plan `demoFw` with two rules attached to its first chain. -/
def demoFwRules : IPtables :=
  { demoFw with Chains := [⟨"INPUT", ["i"], [demoRuleA, demoRuleB], "ROMANA-T0S1-INPUT"⟩] }

/-- A simulated host whose ledger already holds three bodies, so that adding
any of them again is a uniqueness conflict. -/
def simLedgerHolds : SimState :=
  { simEmpty with ledger := [
      ⟨"FORWARD -o tap123 -j ROMANA-T0S1-FORWARD", opSwitchIPtables.setRuleActive⟩,
      ⟨"ROMANA-T0S1-INPUT -p tcp --dport 22 -j ACCEPT", opSwitchIPtables.setRuleActive⟩,
      ⟨"ROMANA-T0S1-FORWARD -j DROP", opSwitchIPtables.setRuleActive⟩] }

/-- A simulated host whose tool refuses to install three rules. -/
def simKernelRefuses : SimState :=
  { simEmpty with rejected := [
      ["-A", "FORWARD -o tap123 -j ROMANA-T0S1-FORWARD"],
      ["-I", "ROMANA-T0S1-INPUT -p tcp --dport 22 -j ACCEPT"],
      ["-A", "ROMANA-T0S1-FORWARD -j DROP"]] }

/-- The jump rule of interface `tap123` into its input chain. -/
def demoJump : IPtablesRule :=
  ⟨"INPUT -i tap123 -j ROMANA-T0S1-INPUT", opSwitchIPtables.setRuleInactive⟩

/-! ## Cleanup -/

/-- `fw.Store.findIPtablesRules(substring)`, logged. -/
def storeFind {σ : Type} (env : Env σ) (w : World σ) (substring : String) :
    Except String (List IPtablesRule) × World σ :=
  let r := env.findIPtablesRules w.st substring
  (r.1, ⟨r.2, w.log ++ [Event.ledgerFind substring]⟩)

/-- `deleteIPtablesRule`: ledger switch to inactive, `EnsureRule` with
`ensureAbsent`, ledger delete; the first error is returned at once. -/
def deleteIPtablesRule {σ : Type} (env : Env σ) (w : World σ) (rule : IPtablesRule) :
    GoError × World σ :=
  let r0 := storeSwitch env w rule opSwitchIPtables.setRuleInactive
  match r0.1 with
  | some e => (some e, r0.2)
  | none =>
    let r1 := EnsureRule env r0.2 rule RuleState.ensureAbsent
    match r1.1 with
    | some e1 => (some e1, r1.2)
    | none =>
      let r2 := storeDelete env r1.2 rule
      match r2.1 with
      | some e2 => (some e2, r2.2)
      | none => (none, r2.2)

/-- The loop of `deleteIPtablesRulesBySubstring` over the records found:
a record whose state is inactive is skipped. -/
def deleteRulesLoop {σ : Type} (env : Env σ) : List IPtablesRule → World σ →
    GoError × World σ
  | [], w => (none, w)
  | rule :: rest, w =>
    if rule.State = opSwitchIPtables.setRuleInactive then
      deleteRulesLoop env rest w
    else
      let r := deleteIPtablesRule env w rule
      match r.1 with
      | some e => (some e, r.2)
      | none => deleteRulesLoop env rest r.2

/-- `deleteIPtablesRulesBySubstring`. -/
def deleteIPtablesRulesBySubstring {σ : Type} (env : Env σ) (w : World σ)
    (substring : String) : GoError × World σ :=
  let f := storeFind env w substring
  match f.1 with
  | Except.error e => (some e, f.2)
  | Except.ok rules => deleteRulesLoop env rules f.2

/-- Modelled from the spec: `FirewallEndpoint`, the endpoint
(`attributes: interface name, IP address`); the interface is declared outside
the given files, the source calls `GetName()` and `GetIP()`. The address is a
`net.IP`, a slice of bytes. -/
structure FirewallEndpoint where
  Name : String
  IP : List Nat
  deriving Repr, DecidableEq

/-- `Cleanup`: `deleteIPtablesRulesBySubstring` on the endpoint's name. -/
def Cleanup {σ : Type} (env : Env σ) (w : World σ) (netif : FirewallEndpoint) :
    GoError × World σ :=
  let r := deleteIPtablesRulesBySubstring env w netif.Name
  match r.1 with
  | some e => (some e, r.2)
  | none => (none, r.2)

/-- The event is a call made for the given record: a ledger call on that
record, or a kernel command whose last argument is the record's body. -/
def Event.concerns (ev : Event) (rule : IPtablesRule) : Prop :=
  match ev with
  | Event.exec _ args => args.getLast? = some rule.Body
  | Event.ledgerAdd r => r = rule
  | Event.ledgerSwitch r _ => r = rule
  | Event.ledgerDelete r => r = rule
  | Event.ledgerFind _ => False

/-- What the cleanup claims assume of the ledger, seen through the list
`view st` of its records: the substring search is plain containment on the
body and changes nothing; kernel commands do not touch the ledger; a state
switch and a delete leave the records with another body as they are. -/
structure LedgerModel {σ : Type} (env : Env σ) (view : σ → List IPtablesRule) : Prop where
  find_ok : ∀ st s, (env.findIPtablesRules st s).1 =
    Except.ok ((view st).filter (fun r => containsChars s.data r.Body.data))
  find_frame : ∀ st s, view (env.findIPtablesRules st s).2 = view st
  exec_frame : ∀ st cmd args, view (env.exec st cmd args).2 = view st
  switch_frame : ∀ st rule op r0, r0 ∈ view st → r0.Body ≠ rule.Body →
    r0 ∈ view (env.switchIPtablesRule st rule op).2
  delete_frame : ∀ st rule r0, r0 ∈ view st → r0.Body ≠ rule.Body →
    r0 ∈ view (env.deleteIPtablesRule st rule).2

/-- The three ledger records of the cleanup scenario. -/
def recTap123Active : IPtablesRule :=
  ⟨"INPUT -i tap123 -j ROMANA-T0S1-INPUT", opSwitchIPtables.setRuleActive⟩

/-- An inactive record of the same interface. -/
def recTap123Inactive : IPtablesRule :=
  ⟨"FORWARD -i tap123 -j ROMANA-T0S1-FORWARD", opSwitchIPtables.setRuleInactive⟩

/-- An active record of another interface. -/
def recTap999Active : IPtablesRule :=
  ⟨"INPUT -i tap999 -j ROMANA-T0S1-INPUT", opSwitchIPtables.setRuleActive⟩

/-- The cleanup scenario: the three records in the ledger, the rules of the
two active ones installed in the kernel. -/
def simCleanup : SimState :=
  { simEmpty with
    rules := [recTap123Active.Body, recTap999Active.Body]
    ledger := [recTap123Active, recTap123Inactive, recTap999Active] }

/-- A host whose ledger holds an active record the kernel does not have. -/
def simStaleRecord : SimState :=
  { simEmpty with ledger := [recTap123Active] }

/-! ## Default rules and the trace of `CreateRules` -/

/-- The constant `targetDrop`. -/
def targetDrop : String := "DROP"

/-- The constant `targetAccept`. -/
def targetAccept : String := "ACCEPT"

/-- `CreateDefaultDropRule`: `CreateDefaultRule` with target `targetDrop`. -/
def CreateDefaultDropRule {σ : Type} (env : Env σ) (fw : IPtables) (w : World σ)
    (chain : Nat) : Outcome × World σ :=
  CreateDefaultRule env fw w chain targetDrop

/-- The sequence of collaborator calls the three-phase protocol with placement
first prescribes for a list of rules, from world state `st` on, one rule after
the other: ledger add, existence check, insert at the head when the check
reported the rule absent, ledger switch to active. -/
def createRulesTrace {σ : Type} (env : Env σ) : List IPtablesRule → σ → List Event
  | [], _ => []
  | rule :: rest, st =>
    let st1 := (env.addIPtablesRule st rule).2
    let chk := env.exec st1 iptablesCmd ["-C", rule.Body]
    let absent := chk.1.isSome
    let st2 := if absent then (env.exec chk.2 iptablesCmd ["-I", rule.Body]).2 else chk.2
    let st3 := (env.switchIPtablesRule st2 rule opSwitchIPtables.setRuleActive).2
    [Event.ledgerAdd rule, Event.exec iptablesCmd ["-C", rule.Body]]
      ++ (if absent then [Event.exec iptablesCmd ["-I", rule.Body]] else [])
      ++ [Event.ledgerSwitch rule opSwitchIPtables.setRuleActive]
      ++ createRulesTrace env rest st3

/-- No step of that sequence fails: every ledger add, every insert that is
due, and every ledger switch returns `nil`. -/
def createRulesStepsOk {σ : Type} (env : Env σ) : List IPtablesRule → σ → Bool
  | [], _ => true
  | rule :: rest, st =>
    let a := env.addIPtablesRule st rule
    let chk := env.exec a.2 iptablesCmd ["-C", rule.Body]
    let absent := chk.1.isSome
    let ins := env.exec chk.2 iptablesCmd ["-I", rule.Body]
    let st2 := if absent then ins.2 else chk.2
    let sw := env.switchIPtablesRule st2 rule opSwitchIPtables.setRuleActive
    a.1.isNone && (!absent || ins.1.isNone) && sw.1.isNone && createRulesStepsOk env rest sw.2

/-- The record of a ledger add. -/
def Event.added? : Event → Option IPtablesRule
  | Event.ledgerAdd r => some r
  | _ => none

/-- The record of a ledger switch to active. -/
def Event.activated? : Event → Option IPtablesRule
  | Event.ledgerSwitch r opSwitchIPtables.setRuleActive => some r
  | _ => none

/-! ## Go library functions used by the planner

`net.IPMask.String`, `strconv.ParseInt` with base 16 and bit size 64, and the
verbs `%d` and `%X` of `fmt.Sprintf` on `uint64`. Bytes are natural numbers
read modulo 256. -/

/-- `net.IPMask.String()`: two lower-case hexadecimal digits per byte, and
`<nil>` for an empty mask. -/
def maskString (m : List Nat) : String :=
  if m.length = 0 then "<nil>"
  else String.mk (m.flatMap (fun b => [Nat.digitChar (b % 256 / 16), Nat.digitChar (b % 16)]))

/-- The two ways `strconv.ParseInt` fails. -/
inductive NumError where
  | errSyntax
  | errRange
  deriving Repr, DecidableEq

/-- The digit value `strconv.ParseUint` gives a byte: `c - '0'` for a decimal
digit, `lower(c) - 'a' + 10` for a letter, with `lower(c) = c | 0x20`. -/
def digitVal (c : Char) : Option Nat :=
  let b := c.toNat
  if 48 ≤ b ∧ b ≤ 57 then some (b - 48)
  else if 97 ≤ (b ||| 32) ∧ (b ||| 32) ≤ 122 then some ((b ||| 32) - 97 + 10)
  else none

/-- The digit loop of `strconv.ParseUint(s, 16, 64)`: a byte that is no digit
below the base is a syntax error; `n >= cutoff` with
`cutoff = maxUint64/16 + 1` is a range error, with value `maxUint64`. -/
def parseUintLoop : List Char → Nat → Nat × Option NumError
  | [], n => (n, none)
  | c :: cs, n =>
    match digitVal c with
    | none => (0, some NumError.errSyntax)
    | some d =>
      if d ≥ 16 then (0, some NumError.errSyntax)
      else if n ≥ 2 ^ 60 then (2 ^ 64 - 1, some NumError.errRange)
      else
        let n := (n * 16) % 2 ^ 64
        let n1 := (n + d) % 2 ^ 64
        if n1 < n then (2 ^ 64 - 1, some NumError.errRange)
        else parseUintLoop cs n1

/-- `strconv.ParseUint(s, 16, 64)`. -/
def parseUint (s : List Char) : Nat × Option NumError :=
  if s.length = 0 then (0, some NumError.errSyntax) else parseUintLoop s 0

/-- The text of a `*strconv.NumError` of `ParseInt`. -/
def numErrorText (s : String) (e : NumError) : String :=
  "strconv.ParseInt: parsing " ++ s.quote ++ ": " ++
    (match e with
     | NumError.errSyntax => "invalid syntax"
     | NumError.errRange => "value out of range")

/-- `strconv.ParseInt(s, 16, 64)`: an optional sign, then `ParseUint`; a value
of `2^63` or more (more than `2^63` after a minus sign) is a range error. -/
def parseInt (s : String) : Int × GoError :=
  if s.data.length = 0 then (0, some (numErrorText s NumError.errSyntax))
  else
    let neg := s.data.head? = some '-'
    let body := if s.data.head? = some '+' ∨ s.data.head? = some '-' then s.data.tail
      else s.data
    let u := parseUint body
    if u.2 = some NumError.errSyntax then (0, some (numErrorText s NumError.errSyntax))
    else
      let cutoff : Nat := 2 ^ 63
      if ¬ neg ∧ u.1 ≥ cutoff then
        (((cutoff - 1 : Nat) : Int), some (numErrorText s NumError.errRange))
      else if neg ∧ u.1 > cutoff then
        (-((cutoff : Nat) : Int), some (numErrorText s NumError.errRange))
      else
        let n : Int := ((u.1 : Nat) : Int)
        (if neg then -n else n, none)

/-- The verb `%X` on a `uint64`: upper-case hexadecimal, no leading zeros. -/
def hexUpper (n : Nat) : String :=
  String.mk ((Nat.toDigits 16 n).map Char.toUpper)

/-- The verb `%d` on a `uint64`: decimal, no leading zeros. -/
def decimal (n : Nat) : String := toString n

/-! ## Address arithmetic of the planner -/

/-- A `*net.IPNet`: network address and mask, as bytes. -/
structure IPNet where
  IP : List Nat
  Mask : List Nat
  deriving Repr, DecidableEq

/-- `prepareTenantSegmentMask`:
`res = ((1 << combinedTSBits) - 1) << endpointBits`. -/
def prepareTenantSegmentMask (cfg : NetConfig) : Nat :=
  let tenantBits := cfg.tenantBits
  let segmentBits := cfg.segmentBits
  let combinedTSBits := add64 tenantBits segmentBits
  let endpointBits := cfg.endpointBits
  shl64 (sub64 (shl64 1 combinedTSBits) 1) endpointBits

/-- `ipToInt`: `uint64(ip[12])<<24 | uint64(ip[13])<<16 | uint64(ip[14])<<8 |
uint64(ip[15])`; `none` is the run-time panic of an index out of range. -/
def ipToInt (ip : List Nat) : Option Nat :=
  match ip[12]?, ip[13]?, ip[14]?, ip[15]? with
  | some b12, some b13, some b14, some b15 =>
    some (shl64 (b12 % 256) 24 ||| shl64 (b13 % 256) 16 ||| shl64 (b14 % 256) 8 ||| (b15 % 256))
  | _, _, _, _ => none

/-- `MaskToInt`: `m, err := strconv.ParseInt(mask.String(), 16, 64)`, then
`imask = uint64(m)`; on an error the result is `0` and the error. -/
def MaskToInt (mask : List Nat) : Nat × GoError :=
  let r := parseInt (maskString mask)
  let imask := (r.1 % (2 ^ 64 : Int)).toNat
  match r.2 with
  | some e => (0, some e)
  | none => (imask, none)

/-- `PseudoNetNetmaskInt`; `pnet` is the result of the accessor
`fw.networkConfig.PNetCIDR()` of the `NetConfig`, which is declared outside
the given files. -/
def PseudoNetNetmaskInt (pnet : Except String IPNet) : Nat × GoError :=
  match pnet with
  | Except.error e => (0, some e)
  | Except.ok cidr =>
    let r := MaskToInt cidr.Mask
    match r.2 with
    | some e => (0, some e)
    | none => (r.1, none)

/-- `prepareNetmaskBits`: the CIDR mask or-ed with the tenant/segment mask. -/
def prepareNetmaskBits (pnet : Except String IPNet) (cfg : NetConfig) : Nat × GoError :=
  let r := PseudoNetNetmaskInt pnet
  match r.2 with
  | some e => (0, some e)
  | none =>
    let iCidrMask := r.1
    let combinedTSMask := prepareTenantSegmentMask cfg
    (iCidrMask ||| combinedTSMask, none)

/-- `prepareU32Rules`: filter, chain prefix and error; `none` is the panic of
`ipToInt`. The second `if err != nil` of the source, after `ipToInt`, tests
the error already found `nil` and is never taken. -/
def prepareU32Rules (pnet : Except String IPNet) (cfg : NetConfig) (ipAddr : List Nat) :
    Option (String × String × GoError) :=
  let r := prepareNetmaskBits pnet cfg
  match r.2 with
  | some e => some ("", "", some e)
  | none =>
    let fullMask := r.1
    match ipToInt ipAddr with
    | none => none
    | some addr =>
      let filter1 := "0x" ++ hexUpper fullMask ++ "=0x" ++ hexUpper (addr &&& fullMask)
      let filter := "12&" ++ filter1 ++ " && 16&" ++ filter1
      let tenantID := extractTenantID cfg addr
      let segmentID := extractSegmentID cfg addr
      let chainPrefix := "ROMANA-T" ++ decimal tenantID ++ "S" ++ decimal segmentID ++ "-"
      some (filter, chainPrefix, none)

/-! ## Chain planner -/

/-- Index of the input chain in `fw.Chains`. -/
def InputChainIndex : Nat := 0

/-- Index of the output chain. -/
def OutputChainIndex : Nat := 1

/-- Index of the forward-in chain. -/
def ForwardInChainIndex : Nat := 2

/-- Index of the forward-out chain. -/
def ForwardOutChainIndex : Nat := 3

/-- `prepareChainName`: the chain prefix followed by the name. -/
def prepareChainName (fw : IPtables) (chainName : String) : String :=
  fw.ChainPrefix ++ chainName

/-- `makeRules`: it assigns `fw.U32Filter` and `fw.ChainPrefix` from
`prepareU32Rules` before it looks at the error, then sets the interface name
and appends the four chains. The method has a pointer receiver: the firewall
object it leaves is part of the result. It calls neither `fw.os.Exec` nor a
store method, so the world is handed back as it came. -/
def makeRules {σ : Type} (_env : Env σ) (w : World σ) (pnet : Except String IPNet)
    (fw : IPtables) (netif : FirewallEndpoint) : Outcome × IPtables × World σ :=
  match prepareU32Rules pnet fw.networkConfig netif.IP with
  | none => (Outcome.panicked, fw, w)
  | some (filter, chainPrefix, err) =>
    let fw := { fw with U32Filter := filter, ChainPrefix := chainPrefix }
    match err with
    | some e => (Outcome.returned (some e), fw, w)
    | none =>
      let fw := { fw with InterfaceName := netif.Name }
      match ipToInt netif.IP with
      | none => (Outcome.panicked, fw, w)
      | some addr =>
        let tenantVectorChainName :=
          "ROMANA-T" ++ decimal (extractTenantID fw.networkConfig addr)
        let fw := { fw with Chains := fw.Chains ++
          [IPtablesChain.mk "INPUT" ["i"] [] (prepareChainName fw "INPUT")] }
        let fw := { fw with Chains := fw.Chains ++
          [IPtablesChain.mk "OUTPUT" ["o"] [] (prepareChainName fw "OUTPUT")] }
        let fw := { fw with Chains := fw.Chains ++
          [IPtablesChain.mk "FORWARD" ["i"] [] (prepareChainName fw "FORWARD")] }
        let fw := { fw with Chains := fw.Chains ++
          [IPtablesChain.mk "FORWARD" ["o"] [] (tenantVectorChainName)] }
        (Outcome.returned none, fw, w)

/-- The 16-byte form of the IPv4 address `a.b.c.d`, as `net.ParseIP` and
`net.IPv4` build it. -/
def ipv4 (a b c d : Nat) : List Nat :=
  [0, 0, 0, 0, 0, 0, 0, 0, 0, 0, 255, 255, a, b, c, d]

/-- The pseudo network 10.0.0.0/8. -/
def demoPNet : Except String IPNet := Except.ok ⟨[10, 0, 0, 0], [255, 0, 0, 0]⟩

/-- A firewall object before planning: no chains, 4 tenant bits, 4 segment
bits, 8 endpoint bits. -/
def emptyFw : IPtables where
  Chains := []
  U32Filter := ""
  ChainPrefix := ""
  InterfaceName := ""
  networkConfig := ⟨4, 4, 8⟩

/-- The endpoint `tap123` with address 10.0.1.4. -/
def demoEndpoint : FirewallEndpoint := ⟨"tap123", ipv4 10 0 1 4⟩

/-- The same endpoint with its address in the 4-byte form. -/
def demoEndpointShort : FirewallEndpoint := ⟨"tap123", [10, 0, 1, 4]⟩

/-- A second endpoint, `tap456` with address 10.0.35.7: tenant 2, segment 3. -/
def demoEndpointSecond : FirewallEndpoint := ⟨"tap456", ipv4 10 0 35 7⟩

/-! ## Reading digit strings back -/

/-- The number a list of digit characters denotes in base `b`, the value of a
character given by `val`. -/
def digitsValue (val : Char → Nat) (b : Nat) (cs : List Char) : Nat :=
  cs.foldl (fun a c => a * b + val c) 0

/-- The value of a decimal digit character. -/
def decVal (c : Char) : Nat := c.toNat - 48

/-- The value of an upper-case hexadecimal digit character. -/
def hexVal (c : Char) : Nat :=
  if c.toNat ≤ 57 then c.toNat - 48 else c.toNat - 55

/-! ## Existence of chains -/

/-- `isChainExist`: runs `-L <ChainName>`; `true` exactly when no error came
back. `none` is the panic of `fw.Chains[chain]` on an index out of range. -/
def isChainExist {σ : Type} (env : Env σ) (fw : IPtables) (w : World σ) (chain : Nat) :
    Option Bool × World σ :=
  match fw.Chains[chain]? with
  | none => (none, w)
  | some c =>
    let cmd := iptablesCmd
    let args := ["-L", c.ChainName]
    let r := osExec env w cmd args
    match r.1 with
    | some _ => (some false, r.2)
    | none => (some true, r.2)

/-- The loop of `detectMissingChains`; `chain` runs over the indices of
`fw.Chains`, `ret` collects the indices whose check failed. -/
def detectLoop {σ : Type} (env : Env σ) (fw : IPtables) :
    List Nat → List Nat → World σ → Option (List Nat) × World σ
  | [], ret, w => (some ret, w)
  | chain :: rest, ret, w =>
    let r := isChainExist env fw w chain
    match r.1 with
    | none => (none, r.2)
    | some found =>
      if !found then detectLoop env fw rest (ret ++ [chain]) r.2
      else detectLoop env fw rest ret r.2

/-- `detectMissingChains`: `for chain := range fw.Chains`. -/
def detectMissingChains {σ : Type} (env : Env σ) (fw : IPtables) (w : World σ) :
    Option (List Nat) × World σ :=
  detectLoop env fw (List.range fw.Chains.length) [] w

/-- The existence check of a chain, as a log entry. -/
def listEvent (c : IPtablesChain) : Event :=
  Event.exec iptablesCmd ["-L", c.ChainName]

/-- The world state after the existence checks of the given chains, in order. -/
def stateAfterChecks {σ : Type} (env : Env σ) (chains : List IPtablesChain) (st : σ) : σ :=
  chains.foldl (fun s c => (env.exec s iptablesCmd ["-L", c.ChainName]).2) st

/-- The existence check of chain `i` fails, when it is made after the checks
of the chains before it, from state `st` on. -/
def chainCheckFails {σ : Type} (env : Env σ) (fw : IPtables) (st : σ) (i : Nat) : Bool :=
  match fw.Chains[i]? with
  | none => false
  | some c =>
    (env.exec (stateAfterChecks env (fw.Chains.take i) st) iptablesCmd
      ["-L", c.ChainName]).1.isSome

/-- A simulated host on which the first two chains of `demoFw` exist. -/
def simTwoChains : SimState :=
  { simEmpty with chains := ["ROMANA-T0S1-INPUT", "ROMANA-T0S1-OUTPUT"] }

/-- A simulated host on which the four chains of `demoFw` exist. -/
def simAllChains : SimState :=
  { simEmpty with chains :=
      ["ROMANA-T0S1-INPUT", "ROMANA-T0S1-OUTPUT", "ROMANA-T0S1-FORWARD", "ROMANA-T0"] }

/-! ## `SetDefaultRules` and the memory it writes to

`SetDefaultRules` receives a slice of pointers and assigns through them, and
it assigns to an element of `fw.Chains`, whose backing array the copy of `fw`
made for the value receiver shares with the caller. Both effects are kept:
rule objects live in a list and a pointer is the position of its object. -/

/-- An `IPtablesChain` as it lies in the backing array of `fw.Chains`: the
`Rules` field is a slice of `*IPtablesRule`, here the addresses of the rule
objects. -/
structure ChainCell where
  BaseChain : String
  Directions : List String
  Rules : List Nat
  ChainName : String
  deriving Repr, DecidableEq

/-- The memory `SetDefaultRules` reads and writes: the rule objects and the
backing array of `fw.Chains`. -/
structure PlanMemory where
  objects : List IPtablesRule
  chains : List ChainCell
  deriving Repr, DecidableEq

/-- The loop of `SetDefaultRules`: for every pointer of `rules` in turn,
`rule.Body = fmt.Sprintf("%s %s", fw.Chains[chainIndex].ChainName, rule.Body)`.
`none` is the run-time panic on a chain index out of range or on a pointer
that refers to no object. -/
def setBodiesLoop (chains : List ChainCell) (chainIndex : Nat) :
    List Nat → List IPtablesRule → Option (List IPtablesRule)
  | [], objects => some objects
  | rule :: rest, objects =>
    match chains[chainIndex]?, objects[rule]? with
    | some c, some r =>
      setBodiesLoop chains chainIndex rest
        (objects.set rule { r with Body := c.ChainName ++ " " ++ r.Body })
    | _, _ => none

/-- `SetDefaultRules`: the loop, then `fw.Chains[chainIndex].Rules = rules`. -/
def SetDefaultRules (m : PlanMemory) (rules : List Nat) (chainIndex : Nat) :
    Option PlanMemory :=
  match setBodiesLoop m.chains chainIndex rules m.objects with
  | none => none
  | some objects =>
    match m.chains[chainIndex]? with
    | none => none
    | some c =>
      some { objects := objects, chains := m.chains.set chainIndex { c with Rules := rules } }

/-- The rule objects a slice of pointers refers to, in order; `none` when a
pointer refers to no object. -/
def derefRules (objects : List IPtablesRule) : List Nat → Option (List IPtablesRule)
  | [] => some []
  | p :: rest =>
    match objects[p]?, derefRules objects rest with
    | some r, some rs => some (r :: rs)
    | _, _ => none

/-- The chain at index `i` with its rule pointers followed: the chain as
`CreateRules` reads it. -/
def PlanMemory.chainAt (m : PlanMemory) (i : Nat) : Option IPtablesChain :=
  match m.chains[i]? with
  | none => none
  | some c =>
    match derefRules m.objects c.Rules with
    | none => none
    | some rs => some (IPtablesChain.mk c.BaseChain c.Directions rs c.ChainName)

/-- A memory with the input and the output chain of `demoFw`, no rules
attached, and two rule objects. -/
def demoMemory : PlanMemory where
  objects := [IPtablesRule.mk "-p icmp -j ACCEPT" opSwitchIPtables.setRuleInactive,
    IPtablesRule.mk "-p tcp --dport 22 -j ACCEPT" opSwitchIPtables.setRuleInactive]
  chains := [ChainCell.mk "INPUT" ["i"] [] "ROMANA-T0S1-INPUT",
    ChainCell.mk "OUTPUT" ["o"] [] "ROMANA-T0S1-OUTPUT"]

/-! ## Removing the jump rules -/

/-- The collaborator calls made for one jump rule that is removed while the
kernel has it: ledger add, existence check, delete, ledger switch to active. -/
def removeTrace (rule : IPtablesRule) : List Event :=
  [Event.ledgerAdd rule, Event.exec iptablesCmd ["-C", rule.Body],
    Event.exec iptablesCmd ["-D", rule.Body],
    Event.ledgerSwitch rule opSwitchIPtables.setRuleActive]

/-- What the removal claim assumes of the host, seen through the list
`ledger st` of ledger records and the list `kernel st` of installed rule
bodies: ledger calls do not touch the kernel and kernel commands do not touch
the ledger; `-C` finds a rule that is installed and changes nothing; a
successful `-D` takes away one copy of the rule and no other rule; a ledger
add removes no record; a successful state switch leaves a record of the rule
in the new state and leaves the records with another body as they are. -/
structure HostModel {σ : Type} (env : Env σ) (ledger : σ → List IPtablesRule)
    (kernel : σ → List String) : Prop where
  add_kernel : ∀ st rule, kernel (env.addIPtablesRule st rule).2 = kernel st
  switch_kernel : ∀ st rule op, kernel (env.switchIPtablesRule st rule op).2 = kernel st
  check_finds : ∀ st body, body ∈ kernel st → (env.exec st iptablesCmd ["-C", body]).1 = none
  check_kernel : ∀ st body, kernel (env.exec st iptablesCmd ["-C", body]).2 = kernel st
  delete_count : ∀ st body b, (env.exec st iptablesCmd ["-D", body]).1 = none →
    (kernel (env.exec st iptablesCmd ["-D", body]).2).count b =
      if b = body then (kernel st).count b - 1 else (kernel st).count b
  exec_ledger : ∀ st cmd args, ledger (env.exec st cmd args).2 = ledger st
  add_keeps : ∀ st rule r0, r0 ∈ ledger st → r0 ∈ ledger (env.addIPtablesRule st rule).2
  switch_sets : ∀ st rule op, (env.switchIPtablesRule st rule op).1 = none →
    IPtablesRule.mk rule.Body op ∈ ledger (env.switchIPtablesRule st rule op).2
  switch_keeps : ∀ st rule op r0, r0 ∈ ledger st → r0.Body ≠ rule.Body →
    r0 ∈ ledger (env.switchIPtablesRule st rule op).2

/-- A simulated host on which the two jump rules of `demoChain` are installed
and the ledger is empty. -/
def simJumpsInstalled : SimState :=
  { simEmpty with rules :=
      ["FORWARD -i tap123 -j ROMANA-T0S1-FORWARD", "FORWARD -o tap123 -j ROMANA-T0S1-FORWARD"] }

end Firewall

/-! # Package `common`: store errors and the REST middleware

A shallow embedding of `DbToHttpError` and `StoreConfig.String`
(`common/store.go`) and of `wrapHandler` with the content-type tables
(`common/middleware.go`). -/

namespace Common

/-- A Go `error` value: `none` is `nil`. -/
abbrev GoError := Option String

/-! ## `DbToHttpError` -/

/-- The `error` values `DbToHttpError` tells apart by its type switch, and the
two values it builds: a `sqlite3.Error` value with its `Code` and
`ExtendedCode`, a `*mysql.MySQLError` with its `Number`, the literal
`HttpError{StatusCode: ...}`, the value of `NewError500(details)` (`HttpError`
and `NewError500` are declared outside the given files), and any other error
value, `nil` included. -/
inductive DbError where
  | sqlite3Error (Code ExtendedCode : Nat) (text : String)
  | mysqlError (Number : Nat) (Message : String)
  | httpError (StatusCode : Nat)
  | newError500 (details : String)
  | other (text : String)
  deriving Repr, DecidableEq

/-- `sqlite3.ErrConstraint` (`SQLITE_CONSTRAINT`). -/
def ErrConstraint : Nat := 19

/-- `sqlite3.ErrCantOpen` (`SQLITE_CANTOPEN`). -/
def ErrCantOpen : Nat := 14

/-- `sqlite3.ErrConstraintUnique`, `ErrConstraint.Extend(8)`, `19 | 8<<8`. -/
def ErrConstraintUnique : Nat := 2067

/-- `sqlite3.ErrConstraintPrimaryKey`, `ErrConstraint.Extend(6)`, `19 | 6<<8`. -/
def ErrConstraintPrimaryKey : Nat := 1555

/-- The constant `MySQLUniqueConstraintErrorCode`. -/
def MySQLUniqueConstraintErrorCode : Nat := 1062

/-- `http.StatusConflict`. -/
def StatusConflict : Nat := 409

/-- `DbToHttpError`. -/
def DbToHttpError (err : DbError) : DbError :=
  match err with
  | DbError.sqlite3Error code extendedCode _ =>
    if code = ErrConstraint then
      if extendedCode = ErrConstraintUnique ∨ extendedCode = ErrConstraintPrimaryKey then
        DbError.httpError StatusConflict
      else err
    else if code = ErrCantOpen then
      DbError.newError500 "Database error."
    else err
  | DbError.mysqlError number _ =>
    if number = MySQLUniqueConstraintErrorCode then DbError.httpError StatusConflict
    else err
  | _ => err

/-- The error is a sqlite3 unique or primary-key constraint violation or a
MySQL error with number 1062. -/
def isUniqueViolation (err : DbError) : Bool :=
  match err with
  | DbError.sqlite3Error code extendedCode _ =>
    code == 19 && (extendedCode == 2067 || extendedCode == 1555)
  | DbError.mysqlError number _ => number == 1062
  | _ => false

/-- The error is a sqlite3 error with code `SQLITE_CANTOPEN`. -/
def isCannotOpen (err : DbError) : Bool :=
  match err with
  | DbError.sqlite3Error code _ _ => code == 14
  | _ => false

/-! ## Content types and `wrapHandler` -/

/-- The variable `supportedContentTypes`. -/
def supportedContentTypes : List String :=
  ["text/plain", "application/vnd.pani.v1+json", "application/vnd.pani+json",
    "application/json"]

/-- The implementations of the interface `Marshaller`. -/
inductive Marshaller where
  | jsonMarshaller
  deriving Repr, DecidableEq

/-- The map `ContentTypeMarshallers`, as the list of its entries. -/
def ContentTypeMarshallers : List (String × Marshaller) :=
  [("application/json", Marshaller.jsonMarshaller),
   ("application/vnd.pani.v1+json", Marshaller.jsonMarshaller),
   ("application/vnd.pani+json", Marshaller.jsonMarshaller)]

/-- The `reflect.Type` of a route's `Consumes`: `http.Request` or another
type, given by its name. -/
inductive GoType where
  | httpRequest
  | named (name : String)
  deriving Repr, DecidableEq

/-- The values of type `interface{}` that occur in `wrapHandler`: the `nil`
interface, a string, the `UnwrappedRestHandlerInput`, the object
`reflect.New(consumesType)` before and after decoding, the reply listing the
supported content types, and any other value. -/
inductive Value where
  | nil
  | str (s : String)
  | unwrappedInput
  | newObject (t : GoType)
  | decodedObject (t : GoType) (content : String)
  | supportedTypes (types : List String)
  | data (content : String)
  deriving Repr, DecidableEq

/-- A call on the `http.ResponseWriter`. -/
inductive WriterEvent where
  | writeHeader (status : Nat)
  | write (body : String)
  deriving Repr, DecidableEq

/-- What `wrapHandler` is given from outside: the route's `RestHandler`,
`mapstructure.Decode(input, &target)` (its error and the target afterwards)
and the `Marshal` method of a marshaller. -/
structure Wiring where
  restHandler : Value → Value × GoError
  decode : Value → Value → GoError × Value
  marshal : Marshaller → Value → Except String String

/-- One run of the handler `wrapHandler` builds: the inputs the `RestHandler`
was called with, the calls on the response writer, and whether the run ended
in a panic. -/
structure HandlerRun where
  calls : List Value
  writes : List WriterEvent
  panicked : Bool
  deriving Repr, DecidableEq

/-- `getSupportedContentTypes`. -/
def getSupportedContentTypes : Value := Value.supportedTypes supportedContentTypes

/-- The handler of `wrapHandler` from `outData, err := restHandler(inData)`
on. The `err` of `wireData, err := marshaller.Marshal(outData)` is a new
variable of the inner block: when marshalling fails, the code after the block
calls `err.Error()` on the outer `err`, which is `nil` there. -/
def respond (k : Wiring) (contentType : String) (inData : Value) : HandlerRun :=
  let r := k.restHandler inData
  let outData := r.1
  match r.2 with
  | some e =>
    { calls := [inData],
      writes := [WriterEvent.writeHeader 500, WriterEvent.write e], panicked := false }
  | none =>
    match ContentTypeMarshallers.lookup contentType with
    | none =>
      let sct := getSupportedContentTypes
      match ContentTypeMarshallers.lookup "application/json" with
      | none =>
        { calls := [inData], writes := [WriterEvent.writeHeader 415], panicked := true }
      | some marshaller =>
        let dataOut := match k.marshal marshaller sct with
          | Except.ok d => d
          | Except.error _ => ""
        { calls := [inData],
          writes := [WriterEvent.writeHeader 415, WriterEvent.write dataOut],
          panicked := false }
    | some marshaller =>
      match k.marshal marshaller outData with
      | Except.ok wireData =>
        { calls := [inData],
          writes := [WriterEvent.writeHeader 200, WriterEvent.write wireData],
          panicked := false }
      | Except.error _ =>
        { calls := [inData], writes := [WriterEvent.writeHeader 500], panicked := true }

/-- The handler `wrapHandler(restHandler, consumes)` builds, run on a request
whose unmarshalled map is `inDataMap` and whose response header `Content-Type`
is `contentType`; `consumesType` is `reflect.TypeOf(consumes)`, `none` for a
`nil` `Consumes`. In the `else` branch `inData := reflect.New(consumesType)`
declares a new variable; the call `restHandler(inData)` after the branch reads
the variable declared by `var inData interface{}`. -/
def wrapHandler (k : Wiring) (consumesType : Option GoType) (contentType : String)
    (inDataMap : Value) : HandlerRun :=
  if consumesType = some GoType.httpRequest then
    let respReq := Value.unwrappedInput
    { calls := [respReq], writes := [], panicked := false }
  else
    let inData : Value := Value.nil
    match consumesType with
    | none =>
      let inData := Value.str ""
      respond k contentType inData
    | some t =>
      let inDataNew := Value.newObject t
      let d := k.decode inDataMap inDataNew
      match d.1 with
      | some e =>
        { calls := [],
          writes := [WriterEvent.writeHeader 500, WriterEvent.write e], panicked := false }
      | none => respond k contentType inData

/-- `NegotiatorMiddleware.ServeHTTP`: the response header `Content-Type` it
leaves; `negotiate` is `negotiation.NegotiateAccept`, `header` the value
before. -/
def negotiatedContentType (negotiate : String → List String → Except String String)
    (accept : String) (header : String) : String :=
  match negotiate accept supportedContentTypes with
  | Except.ok format => format
  | Except.error _ => header

/-- A stand-in for `negotiation.NegotiateAccept` on an `Accept` header that
names one media type: that type when it is offered. -/
def negotiateExact (accept : String) (offers : List String) : Except String String :=
  if accept ∈ offers then Except.ok accept else Except.error "no acceptable type"

/-- A wiring for running the handler: the `RestHandler` returns its input as
data, decoding fills the new object, marshalling renders any value. -/
def demoWiring : Wiring where
  restHandler := fun _ => (Value.data "result", none)
  decode := fun _ target =>
    match target with
    | Value.newObject t => (none, Value.decodedObject t "tenant")
    | v => (some "cannot decode", v)
  marshal := fun _ _ => Except.ok "json"

/-! ## `StoreConfig` -/

/-- `StoreConfig` stores the information needed for a DB connection; `Port` is
a `uint64`. The field `Type` of the source (the database type, e.g. sqlite3,
mysql) is `Type_` here, `Type` being a reserved word. -/
structure StoreConfig where
  Host : String
  Port : Nat
  Username : String
  Password : String
  Database : String
  Type_ : String
  deriving Repr, DecidableEq

/-- `StoreConfig.String`: `fmt.Sprintf("Host: %s, Port: %d, Username: ****,
Password: ****, Database: %s, Type: %s", sc.Host, sc.Port, sc.Database,
sc.Type)`. -/
def StoreConfig.String (sc : StoreConfig) : String :=
  "Host: " ++ sc.Host ++ ", Port: " ++ Firewall.decimal sc.Port ++
    ", Username: ****, Password: ****, Database: " ++ sc.Database ++ ", Type: " ++ sc.Type_

/-- A configuration of a MySQL store. -/
def demoStoreConfig : StoreConfig :=
  StoreConfig.mk "db.example.org" 3306 "romana" "s3cret" "tenants" "mysql"

end Common

namespace Firewall

/-! ## Lemmas on the machine arithmetic -/

theorem lowMask64 (n : Nat) (h : n ≤ 32) : sub64 (shl64 1 n) 1 = 2 ^ n - 1 := by
  have h1 : (2 : Nat) ^ n ≤ 2 ^ 32 := Nat.pow_le_pow_right (by decide) h
  have h2 : 0 < (2 : Nat) ^ n := Nat.two_pow_pos n
  have h3 : (2 : Nat) ^ 32 < 2 ^ 64 := by decide
  have e1 : shl64 1 n = 2 ^ n := by
    unfold shl64
    rw [Nat.shiftLeft_eq, Nat.one_mul]
    exact Nat.mod_eq_of_lt (by omega)
  rw [e1]
  unfold sub64
  rw [Nat.mod_eq_of_lt (show (2 : Nat) ^ n < 2 ^ 64 by omega),
    Nat.mod_eq_of_lt (show 1 < 2 ^ 64 by decide)]
  have e2 : 2 ^ n + 2 ^ 64 - 1 = (2 ^ n - 1) + 2 ^ 64 := by omega
  rw [e2, Nat.add_mod_right]
  exact Nat.mod_eq_of_lt (by omega)

theorem add64_small (a b : Nat) (h : a + b ≤ 32) : add64 a b = a + b := by
  unfold add64
  exact Nat.mod_eq_of_lt (lt_of_le_of_lt h (by decide))

theorem testBit_of_lt_pow (x k j : Nat) (hx : x < 2 ^ k) (hj : k ≤ j) :
    x.testBit j = false :=
  Nat.testBit_lt_two_pow (lt_of_lt_of_le hx (Nat.pow_le_pow_right (by decide) hj))

theorem testBit_of_mod_pow (x k j : Nat) (hx : x % 2 ^ k = 0) (hj : j < k) :
    x.testBit j = false := by
  have h := Nat.testBit_mod_two_pow x k j
  rw [hx] at h
  simpa [hj] using h.symm

/-! ## Address codec -/

/-- The tenant and the segment field of an embedded address are read back. -/
theorem extract_embedIDs (cfg : NetConfig) (pfx tenantID segmentID endpointID : Nat)
    (hbits : cfg.tenantBits + cfg.segmentBits + cfg.endpointBits ≤ 32)
    (hpfx : pfx % 2 ^ (cfg.tenantBits + cfg.segmentBits + cfg.endpointBits) = 0)
    (ht : tenantID < 2 ^ cfg.tenantBits)
    (hs : segmentID < 2 ^ cfg.segmentBits)
    (he : endpointID < 2 ^ cfg.endpointBits) :
    extractTenantID cfg (embedIDs cfg pfx tenantID segmentID endpointID) = tenantID ∧
    extractSegmentID cfg (embedIDs cfg pfx tenantID segmentID endpointID) = segmentID := by
  obtain ⟨t, s, e⟩ := cfg
  simp only at hbits hpfx ht hs he
  constructor
  · simp only [extractTenantID, embedIDs, shr64]
    rw [lowMask64 t (by omega), add64_small e s (by omega)]
    apply Nat.eq_of_testBit_eq
    intro i
    simp only [Nat.testBit_and, Nat.testBit_shiftRight, Nat.testBit_or, Nat.testBit_shiftLeft,
      Nat.testBit_two_pow_sub_one]
    by_cases hi : i < t
    · rw [testBit_of_mod_pow pfx _ (e + s + i) hpfx (by omega),
        testBit_of_lt_pow segmentID s (e + s + i - e) hs (by omega),
        testBit_of_lt_pow endpointID e (e + s + i) he (by omega)]
      have e1 : e + s + i - (s + e) = i := by omega
      have e2 : s + e ≤ e + s + i := by omega
      simp [e1, e2, hi]
    · rw [testBit_of_lt_pow tenantID t i ht (by omega)]
      simp [hi]
  · simp only [extractSegmentID, embedIDs, shr64]
    rw [lowMask64 s (by omega)]
    apply Nat.eq_of_testBit_eq
    intro i
    simp only [Nat.testBit_and, Nat.testBit_shiftRight, Nat.testBit_or, Nat.testBit_shiftLeft,
      Nat.testBit_two_pow_sub_one]
    by_cases hi : i < s
    · rw [testBit_of_mod_pow pfx _ (e + i) hpfx (by omega),
        testBit_of_lt_pow endpointID e (e + i) he (by omega)]
      have e1 : e + i - e = i := by omega
      have e2 : ¬ (e + i ≥ s + e) := by omega
      simp [e1, e2, hi]
    · rw [testBit_of_lt_pow segmentID s i hs (by omega)]
      simp [hi]

/-- C1, round-trip encoding: when `tenantBits + segmentBits + endpointBits ≤ 32`
and each identifier fits its field, the address made of a network prefix lying
above the three fields, the tenant ID, the segment ID and the endpoint ID gives
back the tenant ID through `extractTenantID` and the segment ID through
`extractSegmentID`. -/
theorem extract_embed_roundtrip (cfg : NetConfig) (pfx tenantID segmentID endpointID : Nat)
    (hbits : cfg.tenantBits + cfg.segmentBits + cfg.endpointBits ≤ 32)
    (hpfx : pfx % 2 ^ (cfg.tenantBits + cfg.segmentBits + cfg.endpointBits) = 0)
    (ht : tenantID < 2 ^ cfg.tenantBits)
    (hs : segmentID < 2 ^ cfg.segmentBits)
    (he : endpointID < 2 ^ cfg.endpointBits) :
    extractTenantID cfg (embedIDs cfg pfx tenantID segmentID endpointID) = tenantID ∧
    extractSegmentID cfg (embedIDs cfg pfx tenantID segmentID endpointID) = segmentID :=
  extract_embedIDs cfg pfx tenantID segmentID endpointID hbits hpfx ht hs he

/-- Witness for C1: 10.0.35.7 with 4 tenant bits, 4 segment bits and 8 endpoint
bits (tenant 2, segment 3, endpoint 7, prefix 10.0.0.0). -/
theorem extract_embed_roundtrip_witness :
    extractTenantID ⟨4, 4, 8⟩ (embedIDs ⟨4, 4, 8⟩ 0x0A000000 2 3 7) = 2 ∧
    extractSegmentID ⟨4, 4, 8⟩ (embedIDs ⟨4, 4, 8⟩ 0x0A000000 2 3 7) = 3 :=
  extract_embed_roundtrip ⟨4, 4, 8⟩ 0x0A000000 2 3 7 (by decide) (by decide) (by decide)
    (by decide) (by decide)

/-! ## `EnsureRule` -/

theorem isRuleExist_fst {σ : Type} (env : Env σ) (w : World σ) (rule : IPtablesRule) :
    (isRuleExist env w rule).1 = (env.exec w.st iptablesCmd ["-C", rule.Body]).1.isNone := by
  unfold isRuleExist osExec
  cases h : (env.exec w.st iptablesCmd ["-C", rule.Body]).1 <;> simp [h]

theorem isRuleExist_snd {σ : Type} (env : Env σ) (w : World σ) (rule : IPtablesRule) :
    (isRuleExist env w rule).2 =
      ⟨(env.exec w.st iptablesCmd ["-C", rule.Body]).2,
        w.log ++ [Event.exec iptablesCmd ["-C", rule.Body]]⟩ := by
  unfold isRuleExist osExec
  cases h : (env.exec w.st iptablesCmd ["-C", rule.Body]).1 <;> simp [h]

/-- With the rule reported installed and placement `ensureAbsent`, `EnsureRule`
runs `-D <body>` in the world left by the check. -/
theorem EnsureRule_installed_absent {σ : Type} (env : Env σ) (w : World σ)
    (rule : IPtablesRule)
    (h : (env.exec w.st iptablesCmd ["-C", rule.Body]).1 = none) :
    EnsureRule env w rule RuleState.ensureAbsent =
      osExec env (isRuleExist env w rule).2 iptablesCmd ["-D", rule.Body] := by
  have h1 := isRuleExist_fst env w rule
  rw [h] at h1
  simp [EnsureRule, h1]

/-- With the rule reported installed and a placement other than `ensureAbsent`,
`EnsureRule` stops after the check. -/
theorem EnsureRule_installed_keep {σ : Type} (env : Env σ) (w : World σ)
    (rule : IPtablesRule) (opType : RuleState) (hop : opType ≠ RuleState.ensureAbsent)
    (h : (env.exec w.st iptablesCmd ["-C", rule.Body]).1 = none) :
    EnsureRule env w rule opType = (none, (isRuleExist env w rule).2) := by
  have h1 := isRuleExist_fst env w rule
  rw [h] at h1
  cases opType <;> simp_all [EnsureRule]

/-- With the rule reported not installed, `EnsureRule` runs one more command:
the flag of the placement, when the `switch` has a case for it, then the body. -/
theorem EnsureRule_missing {σ : Type} (env : Env σ) (w : World σ)
    (rule : IPtablesRule) (opType : RuleState)
    (h : (env.exec w.st iptablesCmd ["-C", rule.Body]).1 ≠ none) :
    EnsureRule env w rule opType =
      osExec env (isRuleExist env w rule).2 iptablesCmd
        ((match opType with
          | RuleState.ensureLast => ["-A"]
          | RuleState.ensureFirst => ["-I"]
          | RuleState.ensureAbsent => []) ++ [rule.Body]) := by
  have h1 := isRuleExist_fst env w rule
  have h2 : (env.exec w.st iptablesCmd ["-C", rule.Body]).1.isNone = false := by
    cases h3 : (env.exec w.st iptablesCmd ["-C", rule.Body]).1 with
    | none => exact absurd h3 h
    | some e => rfl
  rw [h2] at h1
  cases opType <;> simp [EnsureRule, h1]

/-- In the simulated kernel a successful append makes the next check of the
same body succeed. -/
theorem simExec_append_then_check (st : SimState) (cmd body : String)
    (h : (simExec st cmd ["-A", body]).1 = none) :
    (simExec (simExec st cmd ["-A", body]).2 cmd ["-C", body]).1 = none := by
  unfold simExec at h ⊢
  by_cases hr : ["-A", body] ∈ st.rejected
  · simp [hr] at h
  · simp [hr]

/-- C2, at a rule that is not installed: `EnsureRule(rule, ensureAbsent)` does
not stop after the existence check. The `switch` has no case for
`ensureAbsent`, so a second command is run whose only argument is the rule
body, and the error of that command is returned. -/
theorem EnsureRule_absent_missing_runs_second_command :
    (EnsureRule simEnv (simWorld simEmpty)
        ⟨"INPUT -i tap123 -j ROMANA-T0S1-INPUT", opSwitchIPtables.setRuleInactive⟩
        RuleState.ensureAbsent).2.log =
      [Event.exec "/sbin/iptables" ["-C", "INPUT -i tap123 -j ROMANA-T0S1-INPUT"],
       Event.exec "/sbin/iptables" ["INPUT -i tap123 -j ROMANA-T0S1-INPUT"]] ∧
    (EnsureRule simEnv (simWorld simEmpty)
        ⟨"INPUT -i tap123 -j ROMANA-T0S1-INPUT", opSwitchIPtables.setRuleInactive⟩
        RuleState.ensureAbsent).1 = some "iptables: bad command line" := by
  decide

/-- C3, idempotent install: the rule is initially absent, its append succeeds,
and in the kernel a successful append of a body makes the following existence
check of that body succeed. Then two calls of `EnsureRule(rule, ensureLast)`
in a row both return `nil`, the first issues the check and one append, the
second issues the check only, so exactly one append is issued in total. -/
theorem EnsureRule_last_twice {σ : Type} (env : Env σ) (w : World σ) (rule : IPtablesRule)
    (hmodel : ∀ (st : σ) (body : String), (env.exec st iptablesCmd ["-A", body]).1 = none →
      (env.exec (env.exec st iptablesCmd ["-A", body]).2 iptablesCmd ["-C", body]).1 = none)
    (habsent : (env.exec w.st iptablesCmd ["-C", rule.Body]).1 ≠ none)
    (happend : (env.exec (env.exec w.st iptablesCmd ["-C", rule.Body]).2 iptablesCmd
      ["-A", rule.Body]).1 = none) :
    (EnsureRule env w rule RuleState.ensureLast).1 = none ∧
    (EnsureRule env w rule RuleState.ensureLast).2.log =
      w.log ++ [Event.exec iptablesCmd ["-C", rule.Body],
        Event.exec iptablesCmd ["-A", rule.Body]] ∧
    (EnsureRule env (EnsureRule env w rule RuleState.ensureLast).2 rule
      RuleState.ensureLast).1 = none ∧
    (EnsureRule env (EnsureRule env w rule RuleState.ensureLast).2 rule
      RuleState.ensureLast).2.log =
      (EnsureRule env w rule RuleState.ensureLast).2.log ++
        [Event.exec iptablesCmd ["-C", rule.Body]] ∧
    ((EnsureRule env (EnsureRule env w rule RuleState.ensureLast).2 rule
      RuleState.ensureLast).2.log.drop w.log.length).count
        (Event.exec iptablesCmd ["-A", rule.Body]) = 1 := by
  have e1 := EnsureRule_missing env w rule RuleState.ensureLast habsent
  simp only [List.singleton_append] at e1
  have hst : (EnsureRule env w rule RuleState.ensureLast).2.st =
      (env.exec (env.exec w.st iptablesCmd ["-C", rule.Body]).2 iptablesCmd
        ["-A", rule.Body]).2 := by
    rw [e1, isRuleExist_snd]; rfl
  have hlog : (EnsureRule env w rule RuleState.ensureLast).2.log =
      w.log ++ [Event.exec iptablesCmd ["-C", rule.Body],
        Event.exec iptablesCmd ["-A", rule.Body]] := by
    rw [e1, isRuleExist_snd]; simp [osExec]
  have hres : (EnsureRule env w rule RuleState.ensureLast).1 = none := by
    rw [e1, isRuleExist_snd]; exact happend
  have hchk : (env.exec (EnsureRule env w rule RuleState.ensureLast).2.st iptablesCmd
      ["-C", rule.Body]).1 = none := by
    rw [hst]; exact hmodel _ _ happend
  have e2 := EnsureRule_installed_keep env (EnsureRule env w rule RuleState.ensureLast).2 rule
    RuleState.ensureLast (by decide) hchk
  have hlog2 : (EnsureRule env (EnsureRule env w rule RuleState.ensureLast).2 rule
      RuleState.ensureLast).2.log =
      (EnsureRule env w rule RuleState.ensureLast).2.log ++
        [Event.exec iptablesCmd ["-C", rule.Body]] := by
    rw [e2, isRuleExist_snd]
  refine ⟨hres, hlog, ?_, hlog2, ?_⟩
  · rw [e2]
  · rw [hlog2, hlog]
    simp [List.count_cons]

/-- Witness for C3: the jump rule of `tap123` on the simulated host with
nothing installed. -/
theorem EnsureRule_last_twice_witness :
    (EnsureRule simEnv (simWorld simEmpty) demoJump RuleState.ensureLast).1 = none ∧
    (EnsureRule simEnv (simWorld simEmpty) demoJump RuleState.ensureLast).2.log =
      (simWorld simEmpty).log ++ [Event.exec iptablesCmd ["-C", demoJump.Body],
        Event.exec iptablesCmd ["-A", demoJump.Body]] ∧
    (EnsureRule simEnv (EnsureRule simEnv (simWorld simEmpty) demoJump RuleState.ensureLast).2
      demoJump RuleState.ensureLast).1 = none ∧
    (EnsureRule simEnv (EnsureRule simEnv (simWorld simEmpty) demoJump RuleState.ensureLast).2
      demoJump RuleState.ensureLast).2.log =
      (EnsureRule simEnv (simWorld simEmpty) demoJump RuleState.ensureLast).2.log ++
        [Event.exec iptablesCmd ["-C", demoJump.Body]] ∧
    ((EnsureRule simEnv (EnsureRule simEnv (simWorld simEmpty) demoJump RuleState.ensureLast).2
      demoJump RuleState.ensureLast).2.log.drop (simWorld simEmpty).log.length).count
        (Event.exec iptablesCmd ["-A", demoJump.Body]) = 1 :=
  EnsureRule_last_twice simEnv (simWorld simEmpty) demoJump
    (fun st body hb => simExec_append_then_check st iptablesCmd body hb)
    (by decide) (by decide)

/-- C4: when the existence check reports the rule installed,
`EnsureRule(rule, ensureAbsent)` issues, after the check, exactly the command
`-D <rule body>` and returns the error result of that command. -/
theorem EnsureRule_installed_absent_deletes {σ : Type} (env : Env σ) (w : World σ)
    (rule : IPtablesRule)
    (h : (env.exec w.st iptablesCmd ["-C", rule.Body]).1 = none) :
    (EnsureRule env w rule RuleState.ensureAbsent).2.log =
      w.log ++ [Event.exec iptablesCmd ["-C", rule.Body],
        Event.exec iptablesCmd ["-D", rule.Body]] ∧
    (EnsureRule env w rule RuleState.ensureAbsent).1 =
      (env.exec (env.exec w.st iptablesCmd ["-C", rule.Body]).2 iptablesCmd
        ["-D", rule.Body]).1 := by
  rw [EnsureRule_installed_absent env w rule h, isRuleExist_snd]
  simp [osExec]

/-- Witness for C4: the rule is installed in the simulated kernel. -/
theorem EnsureRule_installed_absent_deletes_witness :
    (EnsureRule simEnv (simWorld { simEmpty with rules := ["INPUT -i tap123 -j ROMANA-T0S1-INPUT"] })
      ⟨"INPUT -i tap123 -j ROMANA-T0S1-INPUT", opSwitchIPtables.setRuleActive⟩
      RuleState.ensureAbsent).2.log =
      [Event.exec "/sbin/iptables" ["-C", "INPUT -i tap123 -j ROMANA-T0S1-INPUT"],
       Event.exec "/sbin/iptables" ["-D", "INPUT -i tap123 -j ROMANA-T0S1-INPUT"]] :=
  (EnsureRule_installed_absent_deletes simEnv
    (simWorld { simEmpty with rules := ["INPUT -i tap123 -j ROMANA-T0S1-INPUT"] })
    ⟨"INPUT -i tap123 -j ROMANA-T0S1-INPUT", opSwitchIPtables.setRuleActive⟩ (by decide)).1

/-- C5: when the existence check reports the rule not installed, `EnsureRule`
issues, after the check, exactly one command on the rule body, `-A <body>` for
placement `ensureLast` and `-I <body>` for `ensureFirst`, and returns the error
result of that command. -/
theorem EnsureRule_missing_installs {σ : Type} (env : Env σ) (w : World σ)
    (rule : IPtablesRule)
    (h : (env.exec w.st iptablesCmd ["-C", rule.Body]).1 ≠ none) :
    ((EnsureRule env w rule RuleState.ensureLast).2.log =
        w.log ++ [Event.exec iptablesCmd ["-C", rule.Body],
          Event.exec iptablesCmd ["-A", rule.Body]] ∧
      (EnsureRule env w rule RuleState.ensureLast).1 =
        (env.exec (env.exec w.st iptablesCmd ["-C", rule.Body]).2 iptablesCmd
          ["-A", rule.Body]).1) ∧
    ((EnsureRule env w rule RuleState.ensureFirst).2.log =
        w.log ++ [Event.exec iptablesCmd ["-C", rule.Body],
          Event.exec iptablesCmd ["-I", rule.Body]] ∧
      (EnsureRule env w rule RuleState.ensureFirst).1 =
        (env.exec (env.exec w.st iptablesCmd ["-C", rule.Body]).2 iptablesCmd
          ["-I", rule.Body]).1) := by
  rw [EnsureRule_missing env w rule RuleState.ensureLast h,
    EnsureRule_missing env w rule RuleState.ensureFirst h, isRuleExist_snd]
  simp [osExec]

/-- Witness for C5: the simulated host with nothing installed. -/
theorem EnsureRule_missing_installs_witness :
    (EnsureRule simEnv (simWorld simEmpty)
      ⟨"ROMANA-T0S1-INPUT -j DROP", opSwitchIPtables.setRuleActive⟩
      RuleState.ensureFirst).2.log =
      [Event.exec "/sbin/iptables" ["-C", "ROMANA-T0S1-INPUT -j DROP"],
       Event.exec "/sbin/iptables" ["-I", "ROMANA-T0S1-INPUT -j DROP"]] :=
  (EnsureRule_missing_installs simEnv (simWorld simEmpty)
    ⟨"ROMANA-T0S1-INPUT -j DROP", opSwitchIPtables.setRuleActive⟩ (by decide)).2.1

/-- C6: when the existence check reports the rule installed and the placement
is `ensureFirst` or `ensureLast`, `EnsureRule` issues no command besides the
check and returns `nil`. -/
theorem EnsureRule_installed_noop {σ : Type} (env : Env σ) (w : World σ)
    (rule : IPtablesRule) (opType : RuleState)
    (hop : opType = RuleState.ensureFirst ∨ opType = RuleState.ensureLast)
    (h : (env.exec w.st iptablesCmd ["-C", rule.Body]).1 = none) :
    (EnsureRule env w rule opType).1 = none ∧
    (EnsureRule env w rule opType).2.log =
      w.log ++ [Event.exec iptablesCmd ["-C", rule.Body]] := by
  have hne : opType ≠ RuleState.ensureAbsent := by
    rcases hop with hop | hop <;> rw [hop] <;> decide
  rw [EnsureRule_installed_keep env w rule opType hne h, isRuleExist_snd]
  exact ⟨rfl, rfl⟩

/-- Witness for C6: the rule is installed in the simulated kernel. -/
theorem EnsureRule_installed_noop_witness :
    (EnsureRule simEnv (simWorld { simEmpty with rules := ["ROMANA-T0S1-INPUT -j DROP"] })
      ⟨"ROMANA-T0S1-INPUT -j DROP", opSwitchIPtables.setRuleActive⟩
      RuleState.ensureLast).1 = none ∧
    (EnsureRule simEnv (simWorld { simEmpty with rules := ["ROMANA-T0S1-INPUT -j DROP"] })
      ⟨"ROMANA-T0S1-INPUT -j DROP", opSwitchIPtables.setRuleActive⟩
      RuleState.ensureLast).2.log =
      (simWorld { simEmpty with rules := ["ROMANA-T0S1-INPUT -j DROP"] }).log ++
        [Event.exec iptablesCmd ["-C", "ROMANA-T0S1-INPUT -j DROP"]] :=
  EnsureRule_installed_noop simEnv
    (simWorld { simEmpty with rules := ["ROMANA-T0S1-INPUT -j DROP"] })
    ⟨"ROMANA-T0S1-INPUT -j DROP", opSwitchIPtables.setRuleActive⟩ RuleState.ensureLast
    (Or.inr rfl) (by decide)

/-! ## The three-phase protocol on one rule -/

/-- When the ledger add fails, nothing else is done for the rule. -/
theorem applyRule_add_fails {σ : Type} (env : Env σ) (w : World σ) (rule : IPtablesRule)
    (state : RuleState) (e : String) (h : (env.addIPtablesRule w.st rule).1 = some e) :
    applyRule env w rule state = (some e, (storeAdd env w rule).2) := by
  simp [applyRule, addIPtablesRule, storeAdd, h]

/-- When the ledger add succeeds and `EnsureRule` fails, the operation ends in
the world `EnsureRule` left. -/
theorem applyRule_ensure_fails {σ : Type} (env : Env σ) (w : World σ) (rule : IPtablesRule)
    (state : RuleState) (e : String) (h0 : (env.addIPtablesRule w.st rule).1 = none)
    (h1 : (EnsureRule env (storeAdd env w rule).2 rule state).1 = some e) :
    applyRule env w rule state = (some e, (EnsureRule env (storeAdd env w rule).2 rule state).2) := by
  have ha : addIPtablesRule env w rule = (none, (storeAdd env w rule).2) := by
    simp [addIPtablesRule, storeAdd, h0]
  simp [applyRule, ha, h1]

/-- When the three steps succeed, the world is the one left by the switch. -/
theorem applyRule_ok {σ : Type} (env : Env σ) (w : World σ) (rule : IPtablesRule)
    (state : RuleState) (h : (applyRule env w rule state).1 = none) :
    (env.addIPtablesRule w.st rule).1 = none ∧
    (EnsureRule env (storeAdd env w rule).2 rule state).1 = none ∧
    (applyRule env w rule state).2 =
      (storeSwitch env (EnsureRule env (storeAdd env w rule).2 rule state).2 rule
        opSwitchIPtables.setRuleActive).2 := by
  cases h0 : (env.addIPtablesRule w.st rule).1 with
  | some e =>
    rw [applyRule_add_fails env w rule state e h0] at h
    simp at h
  | none =>
    have ha : addIPtablesRule env w rule = (none, (storeAdd env w rule).2) := by
      simp [addIPtablesRule, storeAdd, h0]
    cases h1 : (EnsureRule env (storeAdd env w rule).2 rule state).1 with
    | some e =>
      rw [applyRule_ensure_fails env w rule state e h0 h1] at h
      simp at h
    | none =>
      refine ⟨rfl, rfl, ?_⟩
      cases h2 : (storeSwitch env (EnsureRule env (storeAdd env w rule).2 rule state).2 rule
        opSwitchIPtables.setRuleActive).1 with
      | some e => simp [applyRule, ha, h1, h2] at h
      | none => simp [applyRule, ha, h1, h2]

/-- What `EnsureRule` with placement `ensureLast` leaves behind, whatever the
check reports. -/
theorem EnsureRule_last_world {σ : Type} (env : Env σ) (w : World σ) (rule : IPtablesRule) :
    (EnsureRule env w rule RuleState.ensureLast).2 =
      ⟨if (env.exec w.st iptablesCmd ["-C", rule.Body]).1.isSome then
          (env.exec (env.exec w.st iptablesCmd ["-C", rule.Body]).2 iptablesCmd
            ["-A", rule.Body]).2
        else (env.exec w.st iptablesCmd ["-C", rule.Body]).2,
       w.log ++ [Event.exec iptablesCmd ["-C", rule.Body]] ++
        (if (env.exec w.st iptablesCmd ["-C", rule.Body]).1.isSome then
          [Event.exec iptablesCmd ["-A", rule.Body]] else [])⟩ := by
  cases h : (env.exec w.st iptablesCmd ["-C", rule.Body]).1 with
  | none =>
    rw [EnsureRule_installed_keep env w rule RuleState.ensureLast (by decide) h, isRuleExist_snd]
    simp
  | some e =>
    rw [EnsureRule_missing env w rule RuleState.ensureLast (by simp [h]), isRuleExist_snd]
    simp [osExec]

/-! ## `DivertTrafficToRomanaIPtablesChain` -/

/-- C7, protocol ordering: a successful `DivertTrafficToRomanaIPtablesChain`
with `installDivertRules` adds to the log exactly the prescribed trace: for
each direction of the chain in turn, the ledger add of its jump rule, then the
existence check, then the append when the check reported the rule absent, then
the ledger switch to active, all of one direction before the next. -/
theorem divert_install_protocol_order {σ : Type} (env : Env σ) (fw : IPtables)
    (w : World σ) (chain : IPtablesChain)
    (h : (DivertTrafficToRomanaIPtablesChain env fw w chain
      opDivertTrafficAction.installDivertRules).1 = none) :
    (DivertTrafficToRomanaIPtablesChain env fw w chain
      opDivertTrafficAction.installDivertRules).2.log =
      w.log ++ installProtocolTrace env fw chain chain.Directions w.st := by
  unfold DivertTrafficToRomanaIPtablesChain at h ⊢
  simp only [divertState] at h ⊢
  generalize chain.Directions = dirs at h ⊢
  induction dirs generalizing w with
  | nil => simp [divertLoop, installProtocolTrace]
  | cons d rest ih =>
    unfold divertLoop at h ⊢
    cases hr : (applyRule env w (divertRule fw chain d) RuleState.ensureLast).1 with
    | some e => simp [hr] at h
    | none =>
      simp only [hr] at h ⊢
      obtain ⟨-, -, hw⟩ := applyRule_ok env w (divertRule fw chain d) RuleState.ensureLast hr
      rw [ih _ h, hw, EnsureRule_last_world]
      simp [installProtocolTrace, storeSwitch, storeAdd]

/-- Witness for C7: the two jump rules of a chain bound to both directions, on
the simulated host with nothing installed. -/
theorem divert_install_protocol_order_witness :
    (DivertTrafficToRomanaIPtablesChain simEnv demoFw (simWorld simEmpty) demoChain
      opDivertTrafficAction.installDivertRules).2.log =
      (simWorld simEmpty).log ++
        installProtocolTrace simEnv demoFw demoChain demoChain.Directions (simWorld simEmpty).st :=
  divert_install_protocol_order simEnv demoFw (simWorld simEmpty) demoChain (by decide)

/-! ## `CreateChains` -/

theorem createChainsLoop_append {σ : Type} (env : Env σ) (fw : IPtables) (l1 l2 : List Nat)
    (w : World σ) :
    createChainsLoop env fw (l1 ++ l2) w =
      if (createChainsLoop env fw l1 w).1 = Outcome.returned none then
        createChainsLoop env fw l2 (createChainsLoop env fw l1 w).2
      else createChainsLoop env fw l1 w := by
  induction l1 generalizing w with
  | nil => simp [createChainsLoop]
  | cons i rest ih =>
    simp only [List.cons_append, createChainsLoop]
    cases hc : fw.Chains[i]? with
    | none => simp
    | some c =>
      simp only
      cases he : (osExec env w iptablesCmd ["-N", c.ChainName]).1 with
      | some e => simp
      | none => simp only; exact ih _

/-- The log after creating the chains at positions `0 .. k-1` without error. -/
theorem createChainsLoop_range_log {σ : Type} (env : Env σ) (fw : IPtables) (k : Nat)
    (w w' : World σ)
    (h : createChainsLoop env fw (List.range k) w = (Outcome.returned none, w')) :
    w'.log = w.log ++ (fw.Chains.take k).map createEvent := by
  induction k generalizing w' with
  | zero =>
    simp [createChainsLoop] at h
    simp [← h]
  | succ k ih =>
    rw [List.range_succ, createChainsLoop_append] at h
    by_cases h1 : (createChainsLoop env fw (List.range k) w).1 = Outcome.returned none
    · rw [if_pos h1] at h
      have hk := ih (createChainsLoop env fw (List.range k) w).2 (Prod.ext h1 rfl)
      simp only [createChainsLoop] at h
      cases hc : fw.Chains[k]? with
      | none => simp [hc] at h
      | some c =>
        simp only [hc] at h
        cases he : (osExec env (createChainsLoop env fw (List.range k) w).2 iptablesCmd
          ["-N", c.ChainName]).1 with
        | some e => simp [he] at h
        | none =>
          simp only [he] at h
          have h2 := congrArg Prod.snd h
          simp only at h2
          rw [← h2, List.take_succ, hc]
          simp [osExec, hk, createEvent]
    · rw [if_neg h1] at h
      exact absurd (congrArg Prod.fst h) h1

/-- C9, at `newChains = [2, 3]` on a plan of four chains: `CreateChains` ranges
over the positions of `newChains`, not over its elements, so it creates the
chains at indices 0 and 1; no command fails on a host without chains. On a
host where exactly the chains 0 and 1 exist, the first command fails. -/
theorem CreateChains_uses_positions :
    (CreateChains simEnv demoFw (simWorld simEmpty) [2, 3]).1 = Outcome.returned none ∧
    (CreateChains simEnv demoFw (simWorld simEmpty) [2, 3]).2.log =
      [Event.exec "/sbin/iptables" ["-N", "ROMANA-T0S1-INPUT"],
       Event.exec "/sbin/iptables" ["-N", "ROMANA-T0S1-OUTPUT"]] ∧
    (CreateChains simEnv demoFw
      (simWorld { simEmpty with chains := ["ROMANA-T0S1-INPUT", "ROMANA-T0S1-OUTPUT"] })
      [2, 3]).1 = Outcome.returned (some "iptables: Chain already exists.") := by
  decide

/-- C10: when the create command of position `k` fails after the commands of
the positions before it succeeded, `CreateChains` returns that error, and the
commands it has issued are the create commands of the positions `0 .. k`,
nothing after the failing one and nothing undoing a created chain. -/
theorem CreateChains_fail_fast {σ : Type} (env : Env σ) (fw : IPtables) (w w' : World σ)
    (newChains : List Nat) (k : Nat) (c : IPtablesChain) (e : String)
    (hk : k < newChains.length)
    (hpre : createChainsLoop env fw (List.range k) w = (Outcome.returned none, w'))
    (hc : fw.Chains[k]? = some c)
    (hfail : (env.exec w'.st iptablesCmd ["-N", c.ChainName]).1 = some e) :
    (CreateChains env fw w newChains).1 = Outcome.returned (some e) ∧
    (CreateChains env fw w newChains).2.st =
      (env.exec w'.st iptablesCmd ["-N", c.ChainName]).2 ∧
    (CreateChains env fw w newChains).2.log =
      w.log ++ (fw.Chains.take (k + 1)).map createEvent := by
  have hn : newChains.length = (k + 1) + (newChains.length - (k + 1)) := by omega
  have hlog := createChainsLoop_range_log env fw k w w' hpre
  have hstep : createChainsLoop env fw (List.range (k + 1)) w =
      (Outcome.returned (some e), ⟨(env.exec w'.st iptablesCmd ["-N", c.ChainName]).2,
        w'.log ++ [createEvent c]⟩) := by
    rw [List.range_succ, createChainsLoop_append, hpre]
    simp [createChainsLoop, hc, osExec, hfail, createEvent]
  unfold CreateChains
  rw [hn, List.range_add, createChainsLoop_append, hstep]
  simp [hlog, List.take_succ, hc]

/-- Witness for C10: the chain at index 1 already exists, so the second create
command fails; the third chain is not attempted. -/
theorem CreateChains_fail_fast_witness :
    (CreateChains simEnv demoFw (simWorld simOutputChainExists) [0, 1, 2]).1 =
      Outcome.returned (some "iptables: Chain already exists.") ∧
    (CreateChains simEnv demoFw (simWorld simOutputChainExists) [0, 1, 2]).2.st =
      (simEnv.exec (createChainsLoop simEnv demoFw (List.range 1)
        (simWorld simOutputChainExists)).2.st iptablesCmd ["-N", "ROMANA-T0S1-OUTPUT"]).2 ∧
    (CreateChains simEnv demoFw (simWorld simOutputChainExists) [0, 1, 2]).2.log =
      [Event.exec "/sbin/iptables" ["-N", "ROMANA-T0S1-INPUT"],
       Event.exec "/sbin/iptables" ["-N", "ROMANA-T0S1-OUTPUT"]] :=
  CreateChains_fail_fast simEnv demoFw (simWorld simOutputChainExists)
    (createChainsLoop simEnv demoFw (List.range 1) (simWorld simOutputChainExists)).2
    [0, 1, 2] 1 ⟨"OUTPUT", ["o"], [], "ROMANA-T0S1-OUTPUT"⟩ "iptables: Chain already exists."
    (by decide) rfl rfl (by decide)

/-! ## Fail-fast in the three-phase protocol -/

/-- Every call `EnsureRule` makes is a kernel command. -/
theorem EnsureRule_events {σ : Type} (env : Env σ) (w : World σ) (rule : IPtablesRule)
    (opType : RuleState) :
    ∃ evs, OnlyKernelCommands evs ∧ (EnsureRule env w rule opType).2.log = w.log ++ evs := by
  cases h : (env.exec w.st iptablesCmd ["-C", rule.Body]).1 with
  | some e =>
    rw [EnsureRule_missing env w rule opType (by simp [h]), isRuleExist_snd]
    refine ⟨[Event.exec iptablesCmd ["-C", rule.Body], Event.exec iptablesCmd
      ((match opType with
        | RuleState.ensureLast => ["-A"]
        | RuleState.ensureFirst => ["-I"]
        | RuleState.ensureAbsent => []) ++ [rule.Body])], ?_, ?_⟩
    · intro ev hev
      simp at hev
      rcases hev with rfl | rfl <;> rfl
    · simp [osExec]
  | none =>
    cases opType with
    | ensureAbsent =>
      rw [EnsureRule_installed_absent env w rule h, isRuleExist_snd]
      refine ⟨[Event.exec iptablesCmd ["-C", rule.Body],
        Event.exec iptablesCmd ["-D", rule.Body]], ?_, ?_⟩
      · intro ev hev
        simp at hev
        rcases hev with rfl | rfl <;> rfl
      · simp [osExec]
    | ensureLast =>
      rw [EnsureRule_installed_keep env w rule _ (by decide) h, isRuleExist_snd]
      refine ⟨[Event.exec iptablesCmd ["-C", rule.Body]], ?_, rfl⟩
      intro ev hev
      simp at hev
      rw [hev]; rfl
    | ensureFirst =>
      rw [EnsureRule_installed_keep env w rule _ (by decide) h, isRuleExist_snd]
      refine ⟨[Event.exec iptablesCmd ["-C", rule.Body]], ?_, rfl⟩
      intro ev hev
      simp at hev
      rw [hev]; rfl

theorem divertLoop_append {σ : Type} (env : Env σ) (fw : IPtables) (chain : IPtablesChain)
    (state : RuleState) (l1 l2 : List String) (w : World σ) :
    divertLoop env fw chain state (l1 ++ l2) w =
      if (divertLoop env fw chain state l1 w).1 = none then
        divertLoop env fw chain state l2 (divertLoop env fw chain state l1 w).2
      else divertLoop env fw chain state l1 w := by
  induction l1 generalizing w with
  | nil => simp [divertLoop]
  | cons d rest ih =>
    simp only [List.cons_append, divertLoop]
    cases he : (applyRule env w (divertRule fw chain d) state).1 with
    | some e => simp
    | none => simp only; exact ih _

theorem createRulesLoop_append {σ : Type} (env : Env σ) (l1 l2 : List IPtablesRule)
    (w : World σ) :
    createRulesLoop env (l1 ++ l2) w =
      if (createRulesLoop env l1 w).1 = none then
        createRulesLoop env l2 (createRulesLoop env l1 w).2
      else createRulesLoop env l1 w := by
  induction l1 generalizing w with
  | nil => simp [createRulesLoop]
  | cons r rest ih =>
    simp only [List.cons_append, createRulesLoop]
    cases he : (applyRule env w r RuleState.ensureFirst).1 with
    | some e => simp
    | none => simp only; exact ih _

/-- A failing rule ends the loop of `DivertTrafficToRomanaIPtablesChain`. -/
theorem divertLoop_fails_at {σ : Type} (env : Env σ) (fw : IPtables) (chain : IPtablesChain)
    (state : RuleState) (pre post : List String) (d : String) (w w' : World σ) (e : String)
    (hpre : divertLoop env fw chain state pre w = (none, w'))
    (hfail : (applyRule env w' (divertRule fw chain d) state).1 = some e) :
    divertLoop env fw chain state (pre ++ d :: post) w =
      (some e, (applyRule env w' (divertRule fw chain d) state).2) := by
  rw [divertLoop_append, hpre]
  simp [divertLoop, hfail]

/-- A failing rule ends the loop of `CreateRules`. -/
theorem createRulesLoop_fails_at {σ : Type} (env : Env σ) (pre post : List IPtablesRule)
    (rule : IPtablesRule) (w w' : World σ) (e : String)
    (hpre : createRulesLoop env pre w = (none, w'))
    (hfail : (applyRule env w' rule RuleState.ensureFirst).1 = some e) :
    createRulesLoop env (pre ++ rule :: post) w =
      (some e, (applyRule env w' rule RuleState.ensureFirst).2) := by
  rw [createRulesLoop_append, hpre]
  simp [createRulesLoop, hfail]

/-- C8, fail-fast in the three-phase protocol, for
`DivertTrafficToRomanaIPtablesChain`, `CreateRules` and `CreateDefaultRule`,
at any rule the operation reaches after the rules before it succeeded
(world `w'`). If the ledger add fails, the operation returns that error and
its last call is that ledger add: no kernel command and no state switch
follow. If the add succeeds and `EnsureRule` fails, the operation returns that
error and ends in the world `EnsureRule` left: after the ledger add only
kernel commands of `EnsureRule` were issued, so the record is not switched to
active and nothing done before is undone. -/
theorem three_phase_fail_fast {σ : Type} (env : Env σ) (fw : IPtables) :
    (∀ (w w' : World σ) (chain : IPtablesChain) (opType : opDivertTrafficAction)
        (pre post : List String) (d e : String),
        chain.Directions = pre ++ d :: post →
        divertLoop env fw chain (divertState opType) pre w = (none, w') →
        (env.addIPtablesRule w'.st (divertRule fw chain d)).1 = some e →
        DivertTrafficToRomanaIPtablesChain env fw w chain opType =
          (some e, (storeAdd env w' (divertRule fw chain d)).2) ∧
        (DivertTrafficToRomanaIPtablesChain env fw w chain opType).2.log =
          w'.log ++ [Event.ledgerAdd (divertRule fw chain d)]) ∧
    (∀ (w w' : World σ) (chain : IPtablesChain) (opType : opDivertTrafficAction)
        (pre post : List String) (d e : String),
        chain.Directions = pre ++ d :: post →
        divertLoop env fw chain (divertState opType) pre w = (none, w') →
        (env.addIPtablesRule w'.st (divertRule fw chain d)).1 = none →
        (EnsureRule env (storeAdd env w' (divertRule fw chain d)).2 (divertRule fw chain d)
          (divertState opType)).1 = some e →
        DivertTrafficToRomanaIPtablesChain env fw w chain opType =
          (some e, (EnsureRule env (storeAdd env w' (divertRule fw chain d)).2
            (divertRule fw chain d) (divertState opType)).2) ∧
        ∃ evs, OnlyKernelCommands evs ∧
          (DivertTrafficToRomanaIPtablesChain env fw w chain opType).2.log =
            w'.log ++ Event.ledgerAdd (divertRule fw chain d) :: evs) ∧
    (∀ (w w' : World σ) (chain : Nat) (c : IPtablesChain) (pre post : List IPtablesRule)
        (rule : IPtablesRule) (e : String),
        fw.Chains[chain]? = some c → c.Rules = pre ++ rule :: post →
        createRulesLoop env pre w = (none, w') →
        (env.addIPtablesRule w'.st rule).1 = some e →
        CreateRules env fw w chain = (Outcome.returned (some e), (storeAdd env w' rule).2) ∧
        (CreateRules env fw w chain).2.log = w'.log ++ [Event.ledgerAdd rule]) ∧
    (∀ (w w' : World σ) (chain : Nat) (c : IPtablesChain) (pre post : List IPtablesRule)
        (rule : IPtablesRule) (e : String),
        fw.Chains[chain]? = some c → c.Rules = pre ++ rule :: post →
        createRulesLoop env pre w = (none, w') →
        (env.addIPtablesRule w'.st rule).1 = none →
        (EnsureRule env (storeAdd env w' rule).2 rule RuleState.ensureFirst).1 = some e →
        CreateRules env fw w chain = (Outcome.returned (some e),
          (EnsureRule env (storeAdd env w' rule).2 rule RuleState.ensureFirst).2) ∧
        ∃ evs, OnlyKernelCommands evs ∧
          (CreateRules env fw w chain).2.log = w'.log ++ Event.ledgerAdd rule :: evs) ∧
    (∀ (w : World σ) (chain : Nat) (c : IPtablesChain) (target e : String),
        fw.Chains[chain]? = some c →
        (env.addIPtablesRule w.st (defaultRule c.ChainName target)).1 = some e →
        CreateDefaultRule env fw w chain target =
          (Outcome.returned (some e), (storeAdd env w (defaultRule c.ChainName target)).2) ∧
        (CreateDefaultRule env fw w chain target).2.log =
          w.log ++ [Event.ledgerAdd (defaultRule c.ChainName target)]) ∧
    (∀ (w : World σ) (chain : Nat) (c : IPtablesChain) (target e : String),
        fw.Chains[chain]? = some c →
        (env.addIPtablesRule w.st (defaultRule c.ChainName target)).1 = none →
        (EnsureRule env (storeAdd env w (defaultRule c.ChainName target)).2
          (defaultRule c.ChainName target) RuleState.ensureLast).1 = some e →
        CreateDefaultRule env fw w chain target = (Outcome.returned (some e),
          (EnsureRule env (storeAdd env w (defaultRule c.ChainName target)).2
            (defaultRule c.ChainName target) RuleState.ensureLast).2) ∧
        ∃ evs, OnlyKernelCommands evs ∧
          (CreateDefaultRule env fw w chain target).2.log =
            w.log ++ Event.ledgerAdd (defaultRule c.ChainName target) :: evs) := by
  have hev : ∀ (w : World σ) (rule : IPtablesRule) (state : RuleState),
      ∃ evs, OnlyKernelCommands evs ∧
        (EnsureRule env (storeAdd env w rule).2 rule state).2.log =
          w.log ++ Event.ledgerAdd rule :: evs := by
    intro w rule state
    obtain ⟨evs, h1, h2⟩ := EnsureRule_events env (storeAdd env w rule).2 rule state
    exact ⟨evs, h1, by rw [h2]; simp [storeAdd]⟩
  refine ⟨?_, ?_, ?_, ?_, ?_, ?_⟩
  · intro w w' chain opType pre post d e hd hpre hadd
    have h := divertLoop_fails_at env fw chain (divertState opType) pre post d w w' e hpre
      (by rw [applyRule_add_fails env w' _ _ e hadd])
    rw [applyRule_add_fails env w' _ _ e hadd] at h
    unfold DivertTrafficToRomanaIPtablesChain
    simp only [hd, h]
    exact ⟨trivial, rfl⟩
  · intro w w' chain opType pre post d e hd hpre hadd hens
    have h := divertLoop_fails_at env fw chain (divertState opType) pre post d w w' e hpre
      (by rw [applyRule_ensure_fails env w' _ _ e hadd hens])
    rw [applyRule_ensure_fails env w' _ _ e hadd hens] at h
    unfold DivertTrafficToRomanaIPtablesChain
    simp only [hd, h]
    exact ⟨trivial, hev w' _ _⟩
  · intro w w' chain c pre post rule e hc hr hpre hadd
    have h := createRulesLoop_fails_at env pre post rule w w' e hpre
      (by rw [applyRule_add_fails env w' _ _ e hadd])
    rw [applyRule_add_fails env w' _ _ e hadd] at h
    unfold CreateRules
    simp only [hc, hr, h]
    exact ⟨trivial, rfl⟩
  · intro w w' chain c pre post rule e hc hr hpre hadd hens
    have h := createRulesLoop_fails_at env pre post rule w w' e hpre
      (by rw [applyRule_ensure_fails env w' _ _ e hadd hens])
    rw [applyRule_ensure_fails env w' _ _ e hadd hens] at h
    unfold CreateRules
    simp only [hc, hr, h]
    exact ⟨trivial, hev w' _ _⟩
  · intro w chain c target e hc hadd
    unfold CreateDefaultRule
    simp only [hc, applyRule_add_fails env w _ _ e hadd]
    exact ⟨trivial, rfl⟩
  · intro w chain c target e hc hadd hens
    unfold CreateDefaultRule
    simp only [hc, applyRule_ensure_fails env w _ _ e hadd hens]
    exact ⟨trivial, hev w _ _⟩

/-- Witness for C8: on a host whose ledger already holds the bodies the add
is a uniqueness conflict; on a host whose tool refuses the installs
`EnsureRule` fails. In the two loops the failing rule is the second one. -/
theorem three_phase_fail_fast_witness :
    ((DivertTrafficToRomanaIPtablesChain simEnv demoFw (simWorld simLedgerHolds) demoChain
        opDivertTrafficAction.installDivertRules).2.log =
      (divertLoop simEnv demoFw demoChain RuleState.ensureLast ["i"]
        (simWorld simLedgerHolds)).2.log ++ [Event.ledgerAdd (divertRule demoFw demoChain "o")]) ∧
    (∃ evs, OnlyKernelCommands evs ∧
      (DivertTrafficToRomanaIPtablesChain simEnv demoFw (simWorld simKernelRefuses) demoChain
        opDivertTrafficAction.installDivertRules).2.log =
      (divertLoop simEnv demoFw demoChain RuleState.ensureLast ["i"]
        (simWorld simKernelRefuses)).2.log ++
        Event.ledgerAdd (divertRule demoFw demoChain "o") :: evs) ∧
    ((CreateRules simEnv demoFwRules (simWorld simLedgerHolds) 0).2.log =
      (createRulesLoop simEnv [demoRuleA] (simWorld simLedgerHolds)).2.log ++
        [Event.ledgerAdd demoRuleB]) ∧
    (∃ evs, OnlyKernelCommands evs ∧
      (CreateRules simEnv demoFwRules (simWorld simKernelRefuses) 0).2.log =
      (createRulesLoop simEnv [demoRuleA] (simWorld simKernelRefuses)).2.log ++
        Event.ledgerAdd demoRuleB :: evs) ∧
    ((CreateDefaultRule simEnv demoFw (simWorld simLedgerHolds) 2 "DROP").2.log =
      (simWorld simLedgerHolds).log ++
        [Event.ledgerAdd (defaultRule "ROMANA-T0S1-FORWARD" "DROP")]) ∧
    (∃ evs, OnlyKernelCommands evs ∧
      (CreateDefaultRule simEnv demoFw (simWorld simKernelRefuses) 2 "DROP").2.log =
      (simWorld simKernelRefuses).log ++
        Event.ledgerAdd (defaultRule "ROMANA-T0S1-FORWARD" "DROP") :: evs) :=
  ⟨((three_phase_fail_fast simEnv demoFw).1 (simWorld simLedgerHolds)
      (divertLoop simEnv demoFw demoChain RuleState.ensureLast ["i"] (simWorld simLedgerHolds)).2
      demoChain opDivertTrafficAction.installDivertRules ["i"] [] "o" "UNIQUE constraint failed"
      rfl rfl (by decide)).2,
   ((three_phase_fail_fast simEnv demoFw).2.1 (simWorld simKernelRefuses)
      (divertLoop simEnv demoFw demoChain RuleState.ensureLast ["i"] (simWorld simKernelRefuses)).2
      demoChain opDivertTrafficAction.installDivertRules ["i"] [] "o" "iptables: command failed"
      rfl rfl (by decide) (by decide)).2,
   ((three_phase_fail_fast simEnv demoFwRules).2.2.1 (simWorld simLedgerHolds)
      (createRulesLoop simEnv [demoRuleA] (simWorld simLedgerHolds)).2 0
      ⟨"INPUT", ["i"], [demoRuleA, demoRuleB], "ROMANA-T0S1-INPUT"⟩ [demoRuleA] [] demoRuleB
      "UNIQUE constraint failed" rfl rfl rfl (by decide)).2,
   ((three_phase_fail_fast simEnv demoFwRules).2.2.2.1 (simWorld simKernelRefuses)
      (createRulesLoop simEnv [demoRuleA] (simWorld simKernelRefuses)).2 0
      ⟨"INPUT", ["i"], [demoRuleA, demoRuleB], "ROMANA-T0S1-INPUT"⟩ [demoRuleA] [] demoRuleB
      "iptables: command failed" rfl rfl rfl (by decide) (by decide)).2,
   ((three_phase_fail_fast simEnv demoFw).2.2.2.2.1 (simWorld simLedgerHolds) 2
      ⟨"FORWARD", ["i"], [], "ROMANA-T0S1-FORWARD"⟩ "DROP" "UNIQUE constraint failed"
      rfl (by decide)).2,
   ((three_phase_fail_fast simEnv demoFw).2.2.2.2.2 (simWorld simKernelRefuses) 2
      ⟨"FORWARD", ["i"], [], "ROMANA-T0S1-FORWARD"⟩ "DROP" "iptables: command failed"
      rfl (by decide) (by decide)).2⟩

/-! ## `deleteIPtablesRule` -/

/-- Once the switch succeeded, `deleteIPtablesRule` ends with the result of
`EnsureRule` when that fails, and with the result of the ledger delete
otherwise. -/
theorem deleteIPtablesRule_switched {σ : Type} (env : Env σ) (w : World σ)
    (rule : IPtablesRule)
    (hsw : (env.switchIPtablesRule w.st rule opSwitchIPtables.setRuleInactive).1 = none) :
    deleteIPtablesRule env w rule =
      match (EnsureRule env (storeSwitch env w rule opSwitchIPtables.setRuleInactive).2 rule
          RuleState.ensureAbsent).1 with
      | some e => (some e, (EnsureRule env
          (storeSwitch env w rule opSwitchIPtables.setRuleInactive).2 rule
          RuleState.ensureAbsent).2)
      | none => storeDelete env (EnsureRule env
          (storeSwitch env w rule opSwitchIPtables.setRuleInactive).2 rule
          RuleState.ensureAbsent).2 rule := by
  have h0 : (storeSwitch env w rule opSwitchIPtables.setRuleInactive).1 = none := hsw
  unfold deleteIPtablesRule
  simp only [h0]
  cases h1 : (EnsureRule env (storeSwitch env w rule opSwitchIPtables.setRuleInactive).2 rule
      RuleState.ensureAbsent).1 with
  | some e => rfl
  | none =>
    simp only
    cases h2 : (storeDelete env (EnsureRule env
      (storeSwitch env w rule opSwitchIPtables.setRuleInactive).2 rule
      RuleState.ensureAbsent).2 rule).1 with
    | some e => exact Prod.ext h2.symm rfl
    | none => exact Prod.ext h2.symm rfl

/-- C12, reverse protocol: for a record whose rule the existence check reports
installed, the calls `deleteIPtablesRule` makes are, in this order, an initial
part of: ledger switch to inactive, existence check, `-D <body>`, ledger
delete. When the switch, the kernel delete and the ledger delete succeed, all
four are made, `nil` is returned, and the record is gone from a ledger whose
successful delete removes it. -/
theorem deleteIPtablesRule_reverse_protocol {σ : Type} (env : Env σ) (w : World σ)
    (rule : IPtablesRule) (view : σ → List IPtablesRule)
    (hchk : (env.exec (env.switchIPtablesRule w.st rule opSwitchIPtables.setRuleInactive).2
      iptablesCmd ["-C", rule.Body]).1 = none) :
    (deleteIPtablesRule env w rule).2.log <+:
      w.log ++ [Event.ledgerSwitch rule opSwitchIPtables.setRuleInactive,
        Event.exec iptablesCmd ["-C", rule.Body], Event.exec iptablesCmd ["-D", rule.Body],
        Event.ledgerDelete rule] ∧
    ((env.switchIPtablesRule w.st rule opSwitchIPtables.setRuleInactive).1 = none →
      (env.exec (env.exec (env.switchIPtablesRule w.st rule
        opSwitchIPtables.setRuleInactive).2 iptablesCmd ["-C", rule.Body]).2 iptablesCmd
        ["-D", rule.Body]).1 = none →
      (env.deleteIPtablesRule (env.exec (env.exec (env.switchIPtablesRule w.st rule
        opSwitchIPtables.setRuleInactive).2 iptablesCmd ["-C", rule.Body]).2 iptablesCmd
        ["-D", rule.Body]).2 rule).1 = none →
      (deleteIPtablesRule env w rule).1 = none ∧
      (deleteIPtablesRule env w rule).2.log =
        w.log ++ [Event.ledgerSwitch rule opSwitchIPtables.setRuleInactive,
          Event.exec iptablesCmd ["-C", rule.Body], Event.exec iptablesCmd ["-D", rule.Body],
          Event.ledgerDelete rule] ∧
      ((∀ st, (env.deleteIPtablesRule st rule).1 = none →
          rule ∉ view (env.deleteIPtablesRule st rule).2) →
        rule ∉ view (deleteIPtablesRule env w rule).2.st)) := by
  constructor
  · cases hsw : (env.switchIPtablesRule w.st rule opSwitchIPtables.setRuleInactive).1 with
    | some e =>
      have h0 : (storeSwitch env w rule opSwitchIPtables.setRuleInactive).1 = some e := hsw
      simp only [deleteIPtablesRule, h0]
      exact ⟨[Event.exec iptablesCmd ["-C", rule.Body],
        Event.exec iptablesCmd ["-D", rule.Body], Event.ledgerDelete rule], by
          simp [storeSwitch]⟩
    | none =>
      rw [deleteIPtablesRule_switched env w rule hsw,
        EnsureRule_installed_absent env _ rule hchk, isRuleExist_snd]
      cases hd : (osExec env ⟨(env.exec (storeSwitch env w rule
          opSwitchIPtables.setRuleInactive).2.st iptablesCmd ["-C", rule.Body]).2,
          (storeSwitch env w rule opSwitchIPtables.setRuleInactive).2.log ++
            [Event.exec iptablesCmd ["-C", rule.Body]]⟩ iptablesCmd ["-D", rule.Body]).1 with
      | some e =>
        exact ⟨[Event.ledgerDelete rule], by simp [storeSwitch, osExec]⟩
      | none =>
        exact ⟨[], by simp [storeSwitch, osExec, storeDelete]⟩
  · intro hsw hdel hld
    have hd : (osExec env ⟨(env.exec (storeSwitch env w rule
        opSwitchIPtables.setRuleInactive).2.st iptablesCmd ["-C", rule.Body]).2,
        (storeSwitch env w rule opSwitchIPtables.setRuleInactive).2.log ++
          [Event.exec iptablesCmd ["-C", rule.Body]]⟩ iptablesCmd ["-D", rule.Body]).1 =
        none := hdel
    rw [deleteIPtablesRule_switched env w rule hsw,
      EnsureRule_installed_absent env _ rule hchk, isRuleExist_snd]
    simp only [hd]
    refine ⟨hld, by simp [storeSwitch, osExec, storeDelete], ?_⟩
    intro hgone
    exact hgone _ hld

/-- Witness for C12: the active record of `tap123`, installed in the kernel. -/
theorem deleteIPtablesRule_reverse_protocol_witness :
    (deleteIPtablesRule simEnv (simWorld simCleanup) recTap123Active).1 = none ∧
    (deleteIPtablesRule simEnv (simWorld simCleanup) recTap123Active).2.log =
      (simWorld simCleanup).log ++
        [Event.ledgerSwitch recTap123Active opSwitchIPtables.setRuleInactive,
          Event.exec iptablesCmd ["-C", recTap123Active.Body],
          Event.exec iptablesCmd ["-D", recTap123Active.Body],
          Event.ledgerDelete recTap123Active] :=
  have h := (deleteIPtablesRule_reverse_protocol simEnv (simWorld simCleanup) recTap123Active
    SimState.ledger (by decide)).2 (by decide) (by decide) (by decide)
  ⟨h.1, h.2.1⟩

/-- C13, at an active record whose rule is not installed: after the switch to
inactive and the existence check, `EnsureRule(rule, ensureAbsent)` runs a
further kernel command whose only argument is the rule body; that command
fails, `deleteIPtablesRule` returns its error, and the record is not deleted
from the ledger. -/
theorem deleteIPtablesRule_missing_runs_second_command :
    (deleteIPtablesRule simEnv (simWorld simStaleRecord) recTap123Active).1 =
      some "iptables: bad command line" ∧
    (deleteIPtablesRule simEnv (simWorld simStaleRecord) recTap123Active).2.log =
      [Event.ledgerSwitch recTap123Active opSwitchIPtables.setRuleInactive,
       Event.exec "/sbin/iptables" ["-C", "INPUT -i tap123 -j ROMANA-T0S1-INPUT"],
       Event.exec "/sbin/iptables" ["INPUT -i tap123 -j ROMANA-T0S1-INPUT"]] ∧
    (deleteIPtablesRule simEnv (simWorld simStaleRecord) recTap123Active).2.st.ledger =
      [⟨"INPUT -i tap123 -j ROMANA-T0S1-INPUT", opSwitchIPtables.setRuleInactive⟩] := by
  decide

/-! ## Cleanup scoping -/

/-- `EnsureRule` stops after the check or runs one more command, whose last
argument is the rule body. -/
theorem EnsureRule_cases {σ : Type} (env : Env σ) (w : World σ) (rule : IPtablesRule)
    (opType : RuleState) :
    EnsureRule env w rule opType = (none, (isRuleExist env w rule).2) ∨
    ∃ args, args.getLast? = some rule.Body ∧
      EnsureRule env w rule opType = osExec env (isRuleExist env w rule).2 iptablesCmd args := by
  cases h : (env.exec w.st iptablesCmd ["-C", rule.Body]).1 with
  | some e =>
    right
    refine ⟨_, ?_, EnsureRule_missing env w rule opType (by simp [h])⟩
    cases opType <;> simp
  | none =>
    cases opType with
    | ensureAbsent =>
      right
      exact ⟨_, by simp, EnsureRule_installed_absent env w rule h⟩
    | ensureLast => left; exact EnsureRule_installed_keep env w rule _ (by decide) h
    | ensureFirst => left; exact EnsureRule_installed_keep env w rule _ (by decide) h

/-- Every call `EnsureRule` makes is made for its rule. -/
theorem EnsureRule_events_concern {σ : Type} (env : Env σ) (w : World σ)
    (rule : IPtablesRule) (opType : RuleState) :
    ∃ evs, (EnsureRule env w rule opType).2.log = w.log ++ evs ∧
      ∀ ev ∈ evs, ev.concerns rule := by
  rcases EnsureRule_cases env w rule opType with h | ⟨args, hargs, h⟩
  · rw [h, isRuleExist_snd]
    refine ⟨[Event.exec iptablesCmd ["-C", rule.Body]], rfl, ?_⟩
    intro ev hev
    simp at hev
    rw [hev]
    simp [Event.concerns]
  · rw [h, isRuleExist_snd]
    refine ⟨[Event.exec iptablesCmd ["-C", rule.Body], Event.exec iptablesCmd args], ?_, ?_⟩
    · simp [osExec]
    · intro ev hev
      simp at hev
      rcases hev with rfl | rfl
      · simp [Event.concerns]
      · simpa [Event.concerns] using hargs

/-- `EnsureRule` leaves the ledger as it is. -/
theorem EnsureRule_view {σ : Type} (env : Env σ) (view : σ → List IPtablesRule)
    (hm : LedgerModel env view) (w : World σ) (rule : IPtablesRule) (opType : RuleState) :
    view (EnsureRule env w rule opType).2.st = view w.st := by
  rcases EnsureRule_cases env w rule opType with h | ⟨args, -, h⟩
  · rw [h, isRuleExist_snd]
    exact hm.exec_frame _ _ _
  · rw [h, isRuleExist_snd]
    simp only [osExec]
    rw [hm.exec_frame, hm.exec_frame]

/-- Every call `deleteIPtablesRule` makes is made for its rule. -/
theorem deleteIPtablesRule_events_concern {σ : Type} (env : Env σ) (w : World σ)
    (rule : IPtablesRule) :
    ∃ evs, (deleteIPtablesRule env w rule).2.log = w.log ++ evs ∧
      ∀ ev ∈ evs, ev.concerns rule := by
  obtain ⟨evs, hlog, hevs⟩ := EnsureRule_events_concern env
    (storeSwitch env w rule opSwitchIPtables.setRuleInactive).2 rule RuleState.ensureAbsent
  have hsl : (storeSwitch env w rule opSwitchIPtables.setRuleInactive).2.log =
      w.log ++ [Event.ledgerSwitch rule opSwitchIPtables.setRuleInactive] := rfl
  cases hsw : (env.switchIPtablesRule w.st rule opSwitchIPtables.setRuleInactive).1 with
  | some e =>
    have h0 : (storeSwitch env w rule opSwitchIPtables.setRuleInactive).1 = some e := hsw
    refine ⟨[Event.ledgerSwitch rule opSwitchIPtables.setRuleInactive], ?_, ?_⟩
    · simp only [deleteIPtablesRule, h0, hsl]
    · intro ev hev
      simp at hev
      rw [hev]
      simp [Event.concerns]
  | none =>
    rw [deleteIPtablesRule_switched env w rule hsw]
    cases h1 : (EnsureRule env (storeSwitch env w rule opSwitchIPtables.setRuleInactive).2 rule
        RuleState.ensureAbsent).1 with
    | some e =>
      refine ⟨Event.ledgerSwitch rule opSwitchIPtables.setRuleInactive :: evs, ?_, ?_⟩
      · simp only [hlog, hsl]
        simp
      · intro ev hev
        simp at hev
        rcases hev with rfl | hev
        · simp [Event.concerns]
        · exact hevs ev hev
    | none =>
      refine ⟨Event.ledgerSwitch rule opSwitchIPtables.setRuleInactive :: evs ++
        [Event.ledgerDelete rule], ?_, ?_⟩
      · simp only [storeDelete, hlog, hsl]
        simp
      · intro ev hev
        simp at hev
        rcases hev with rfl | hev | rfl
        · simp [Event.concerns]
        · exact hevs ev hev
        · simp [Event.concerns]

/-- `deleteIPtablesRule` leaves the records with another body in the ledger. -/
theorem deleteIPtablesRule_view {σ : Type} (env : Env σ) (view : σ → List IPtablesRule)
    (hm : LedgerModel env view) (w : World σ) (rule r0 : IPtablesRule)
    (hr0 : r0 ∈ view w.st) (hne : r0.Body ≠ rule.Body) :
    r0 ∈ view (deleteIPtablesRule env w rule).2.st := by
  have h1 : r0 ∈ view (storeSwitch env w rule opSwitchIPtables.setRuleInactive).2.st :=
    hm.switch_frame _ _ _ _ hr0 hne
  have h2 : r0 ∈ view (EnsureRule env (storeSwitch env w rule
      opSwitchIPtables.setRuleInactive).2 rule RuleState.ensureAbsent).2.st := by
    rw [EnsureRule_view env view hm]; exact h1
  cases hsw : (env.switchIPtablesRule w.st rule opSwitchIPtables.setRuleInactive).1 with
  | some e =>
    have h0 : (storeSwitch env w rule opSwitchIPtables.setRuleInactive).1 = some e := hsw
    simp only [deleteIPtablesRule, h0]
    exact h1
  | none =>
    rw [deleteIPtablesRule_switched env w rule hsw]
    cases he : (EnsureRule env (storeSwitch env w rule opSwitchIPtables.setRuleInactive).2 rule
        RuleState.ensureAbsent).1 with
    | some e => exact h2
    | none => exact hm.delete_frame _ _ _ h2 hne

theorem state_eq_active_of_ne {st : opSwitchIPtables}
    (h : st ≠ opSwitchIPtables.setRuleInactive) : st = opSwitchIPtables.setRuleActive := by
  cases st
  · exact absurd rfl h
  · rfl

/-- Two records an event is made for have the same body. -/
theorem Event.concerns_body (ev : Event) (r1 r2 : IPtablesRule)
    (h1 : ev.concerns r1) (h2 : ev.concerns r2) : r1.Body = r2.Body := by
  cases ev with
  | exec cmd args =>
    simp only [Event.concerns] at h1 h2
    rw [h1] at h2
    exact Option.some.inj h2
  | ledgerAdd r => simp only [Event.concerns] at h1 h2; rw [← h1, ← h2]
  | ledgerSwitch r op => simp only [Event.concerns] at h1 h2; rw [← h1, ← h2]
  | ledgerDelete r => simp only [Event.concerns] at h1 h2; rw [← h1, ← h2]
  | ledgerFind sub => exact absurd h1 (by simp [Event.concerns])

theorem deleteRulesLoop_skip {σ : Type} (env : Env σ) (rule : IPtablesRule)
    (rest : List IPtablesRule) (w : World σ)
    (hs : rule.State = opSwitchIPtables.setRuleInactive) :
    deleteRulesLoop env (rule :: rest) w = deleteRulesLoop env rest w := by
  simp [deleteRulesLoop, hs]

theorem deleteRulesLoop_fail {σ : Type} (env : Env σ) (rule : IPtablesRule)
    (rest : List IPtablesRule) (w : World σ) (e : String)
    (hs : rule.State ≠ opSwitchIPtables.setRuleInactive)
    (hd : (deleteIPtablesRule env w rule).1 = some e) :
    deleteRulesLoop env (rule :: rest) w = (some e, (deleteIPtablesRule env w rule).2) := by
  simp [deleteRulesLoop, hs, hd]

theorem deleteRulesLoop_next {σ : Type} (env : Env σ) (rule : IPtablesRule)
    (rest : List IPtablesRule) (w : World σ)
    (hs : rule.State ≠ opSwitchIPtables.setRuleInactive)
    (hd : (deleteIPtablesRule env w rule).1 = none) :
    deleteRulesLoop env (rule :: rest) w =
      deleteRulesLoop env rest (deleteIPtablesRule env w rule).2 := by
  simp [deleteRulesLoop, hs, hd]

/-- Every call of the cleanup loop is made for an active record of its list. -/
theorem deleteRulesLoop_events {σ : Type} (env : Env σ) (rules : List IPtablesRule)
    (w : World σ) :
    ∃ evs, (deleteRulesLoop env rules w).2.log = w.log ++ evs ∧
      ∀ ev ∈ evs, ∃ r ∈ rules, r.State = opSwitchIPtables.setRuleActive ∧ ev.concerns r := by
  induction rules generalizing w with
  | nil => exact ⟨[], by simp [deleteRulesLoop], by simp⟩
  | cons rule rest ih =>
    by_cases hs : rule.State = opSwitchIPtables.setRuleInactive
    · rw [deleteRulesLoop_skip env rule rest w hs]
      obtain ⟨evs, hlog, hevs⟩ := ih w
      refine ⟨evs, hlog, ?_⟩
      intro ev hev
      obtain ⟨r, hr, hra, hc⟩ := hevs ev hev
      exact ⟨r, List.mem_cons_of_mem _ hr, hra, hc⟩
    · obtain ⟨evs1, hlog1, hevs1⟩ := deleteIPtablesRule_events_concern env w rule
      have hone : ∀ ev ∈ evs1, ∃ r ∈ rule :: rest,
          r.State = opSwitchIPtables.setRuleActive ∧ ev.concerns r := fun ev hev =>
        ⟨rule, List.mem_cons_self _ _, state_eq_active_of_ne hs, hevs1 ev hev⟩
      cases hd : (deleteIPtablesRule env w rule).1 with
      | some e =>
        rw [deleteRulesLoop_fail env rule rest w e hs hd]
        exact ⟨evs1, hlog1, hone⟩
      | none =>
        rw [deleteRulesLoop_next env rule rest w hs hd]
        obtain ⟨evs2, hlog2, hevs2⟩ := ih (deleteIPtablesRule env w rule).2
        refine ⟨evs1 ++ evs2, ?_, ?_⟩
        · simp only [hlog2, hlog1, List.append_assoc]
        · intro ev hev
          rcases List.mem_append.mp hev with hev | hev
          · exact hone ev hev
          · obtain ⟨r, hr, hra, hc⟩ := hevs2 ev hev
            exact ⟨r, List.mem_cons_of_mem _ hr, hra, hc⟩

/-- The cleanup loop leaves in the ledger every record whose body is not the
body of an active record of its list. -/
theorem deleteRulesLoop_view {σ : Type} (env : Env σ) (view : σ → List IPtablesRule)
    (hm : LedgerModel env view) (rules : List IPtablesRule) (w : World σ) (r0 : IPtablesRule)
    (hr0 : r0 ∈ view w.st)
    (hne : ∀ r ∈ rules, r.State = opSwitchIPtables.setRuleActive → r0.Body ≠ r.Body) :
    r0 ∈ view (deleteRulesLoop env rules w).2.st := by
  induction rules generalizing w with
  | nil => simpa [deleteRulesLoop] using hr0
  | cons rule rest ih =>
    have hrest : ∀ r ∈ rest, r.State = opSwitchIPtables.setRuleActive → r0.Body ≠ r.Body :=
      fun r hr => hne r (List.mem_cons_of_mem _ hr)
    by_cases hs : rule.State = opSwitchIPtables.setRuleInactive
    · rw [deleteRulesLoop_skip env rule rest w hs]
      exact ih w hr0 hrest
    · have h1 := deleteIPtablesRule_view env view hm w rule r0 hr0
        (hne rule (List.mem_cons_self _ _) (state_eq_active_of_ne hs))
      cases hd : (deleteIPtablesRule env w rule).1 with
      | some e =>
        rw [deleteRulesLoop_fail env rule rest w e hs hd]
        exact h1
      | none =>
        rw [deleteRulesLoop_next env rule rest w hs hd]
        exact ih _ h1 hrest

/-- The simulated ledger is a ledger in the sense of `LedgerModel`. -/
theorem simLedgerModel : LedgerModel simEnv SimState.ledger where
  find_ok := fun _ _ => rfl
  find_frame := fun _ _ => rfl
  exec_frame := by
    intro st cmd args
    show (simExec st cmd args).2.ledger = st.ledger
    unfold simExec
    split <;> (repeat' split) <;> rfl
  switch_frame := by
    intro st rule op r0 hr0 hne
    show r0 ∈ (simSwitch st rule op).2.ledger
    unfold simSwitch
    by_cases hh : simHas st rule = true
    · simp only [hh, if_true]
      exact List.mem_map.mpr ⟨r0, hr0, by simp [hne]⟩
    · simp only [hh]
      exact hr0
  delete_frame := by
    intro st rule r0 hr0 hne
    show r0 ∈ (simDelete st rule).2.ledger
    unfold simDelete
    by_cases hh : simHas st rule = true
    · simp only [hh, if_true]
      exact List.mem_filter.mpr ⟨hr0, by simp [hne]⟩
    · simp only [hh]
      exact hr0

/-- `deleteIPtablesRulesBySubstring` on a ledger whose search is containment:
the search, then the cleanup loop over the records containing the substring. -/
theorem deleteBySubstring_eq_loop {σ : Type} (env : Env σ) (view : σ → List IPtablesRule)
    (hm : LedgerModel env view) (w : World σ) (s : String) :
    deleteIPtablesRulesBySubstring env w s =
      deleteRulesLoop env
        ((view w.st).filter (fun r => containsChars s.data r.Body.data))
        (storeFind env w s).2 := by
  have h : (storeFind env w s).1 =
      Except.ok ((view w.st).filter (fun r => containsChars s.data r.Body.data)) :=
    hm.find_ok w.st s
  simp only [deleteIPtablesRulesBySubstring, h]

/-- C11, cleanup scoping, on a ledger whose substring search is plain
containment on the body. After the search, every call
`deleteIPtablesRulesBySubstring(s)` makes, kernel command or ledger call, is
made for an active ledger record whose body contains `s`. A record whose body
does not contain `s`, and an inactive record (no record with its body being
active), is still in the ledger afterwards and no call is made for it.
`Cleanup` of an endpoint named `s` is this operation. -/
theorem cleanup_scoping {σ : Type} (env : Env σ) (view : σ → List IPtablesRule)
    (hm : LedgerModel env view) (w : World σ) (s : String) :
    (∃ evs, (deleteIPtablesRulesBySubstring env w s).2.log =
        w.log ++ Event.ledgerFind s :: evs ∧
      ∀ ev ∈ evs, ∃ r ∈ view w.st, r.State = opSwitchIPtables.setRuleActive ∧
        containsChars s.data r.Body.data = true ∧ ev.concerns r) ∧
    (∀ r0 ∈ view w.st, containsChars s.data r0.Body.data = false →
      r0 ∈ view (deleteIPtablesRulesBySubstring env w s).2.st ∧
      ∀ ev ∈ (deleteIPtablesRulesBySubstring env w s).2.log.drop w.log.length,
        ¬ ev.concerns r0) ∧
    (∀ r0 ∈ view w.st, r0.State = opSwitchIPtables.setRuleInactive →
      (∀ r ∈ view w.st, r.Body = r0.Body → r.State = opSwitchIPtables.setRuleInactive) →
      r0 ∈ view (deleteIPtablesRulesBySubstring env w s).2.st ∧
      ∀ ev ∈ (deleteIPtablesRulesBySubstring env w s).2.log.drop w.log.length,
        ¬ ev.concerns r0) ∧
    (∀ netif : FirewallEndpoint, netif.Name = s →
      Cleanup env w netif = deleteIPtablesRulesBySubstring env w s) := by
  have hloop := deleteBySubstring_eq_loop env view hm w s
  obtain ⟨evs, hlog, hevs⟩ := deleteRulesLoop_events env
    ((view w.st).filter (fun r => containsChars s.data r.Body.data)) (storeFind env w s).2
  have hlog' : (deleteIPtablesRulesBySubstring env w s).2.log =
      w.log ++ Event.ledgerFind s :: evs := by
    rw [hloop, hlog]
    simp [storeFind]
  have hact : ∀ ev ∈ evs, ∃ r ∈ view w.st, r.State = opSwitchIPtables.setRuleActive ∧
      containsChars s.data r.Body.data = true ∧ ev.concerns r := by
    intro ev hev
    obtain ⟨r, hr, hra, hc⟩ := hevs ev hev
    obtain ⟨hrv, hrc⟩ := List.mem_filter.mp hr
    exact ⟨r, hrv, hra, hrc, hc⟩
  have hview0 : view (storeFind env w s).2.st = view w.st := hm.find_frame w.st s
  have hframe : ∀ r0 ∈ view w.st,
      (∀ r ∈ view w.st, r.State = opSwitchIPtables.setRuleActive →
        containsChars s.data r.Body.data = true → r0.Body ≠ r.Body) →
      r0 ∈ view (deleteIPtablesRulesBySubstring env w s).2.st ∧
      ∀ ev ∈ (deleteIPtablesRulesBySubstring env w s).2.log.drop w.log.length,
        ¬ ev.concerns r0 := by
    intro r0 hr0 hne
    constructor
    · rw [hloop]
      apply deleteRulesLoop_view env view hm
      · rw [hview0]; exact hr0
      · intro r hr hra
        obtain ⟨hrv, hrc⟩ := List.mem_filter.mp hr
        exact hne r hrv hra hrc
    · intro ev hev hc0
      rw [hlog', List.drop_left] at hev
      rcases List.mem_cons.mp hev with rfl | hev
      · exact absurd hc0 (by simp [Event.concerns])
      · obtain ⟨r, hrv, hra, hrc, hc⟩ := hact ev hev
        exact hne r hrv hra hrc (Event.concerns_body ev r0 r hc0 hc)
  refine ⟨⟨evs, hlog', hact⟩, ?_, ?_, ?_⟩
  · intro r0 hr0 hnc
    apply hframe r0 hr0
    intro r _ _ hrc hb
    rw [hb, hrc] at hnc
    exact Bool.noConfusion hnc
  · intro r0 hr0 hin hsame
    apply hframe r0 hr0
    intro r hrv hra _ hb
    have := hsame r hrv hb.symm
    rw [hra] at this
    exact opSwitchIPtables.noConfusion this
  · intro netif hname
    unfold Cleanup
    rw [hname]
    cases h : (deleteIPtablesRulesBySubstring env w s).1 with
    | some e => simp only [h]; exact Prod.ext h.symm rfl
    | none => simp only [h]; exact Prod.ext h.symm rfl

/-- Witness for C11: the ledger holds an active and an inactive record of
`tap123` and an active record of `tap999`; cleanup of `tap123` keeps the
second and the third, and its calls are those for the first. -/
theorem cleanup_scoping_witness :
    (recTap999Active ∈ (deleteIPtablesRulesBySubstring simEnv (simWorld simCleanup)
        "tap123").2.st.ledger ∧
      ∀ ev ∈ (deleteIPtablesRulesBySubstring simEnv (simWorld simCleanup) "tap123").2.log.drop
        (simWorld simCleanup).log.length, ¬ ev.concerns recTap999Active) ∧
    (recTap123Inactive ∈ (deleteIPtablesRulesBySubstring simEnv (simWorld simCleanup)
        "tap123").2.st.ledger ∧
      ∀ ev ∈ (deleteIPtablesRulesBySubstring simEnv (simWorld simCleanup) "tap123").2.log.drop
        (simWorld simCleanup).log.length, ¬ ev.concerns recTap123Inactive) ∧
    (deleteIPtablesRulesBySubstring simEnv (simWorld simCleanup) "tap123").2.log =
      [Event.ledgerFind "tap123",
       Event.ledgerSwitch recTap123Active opSwitchIPtables.setRuleInactive,
       Event.exec "/sbin/iptables" ["-C", "INPUT -i tap123 -j ROMANA-T0S1-INPUT"],
       Event.exec "/sbin/iptables" ["-D", "INPUT -i tap123 -j ROMANA-T0S1-INPUT"],
       Event.ledgerDelete recTap123Active] ∧
    (deleteIPtablesRulesBySubstring simEnv (simWorld simCleanup) "tap123").2.st.ledger =
      [recTap123Inactive, recTap999Active] ∧
    (deleteIPtablesRulesBySubstring simEnv (simWorld simCleanup) "tap123").2.st.rules =
      ["INPUT -i tap999 -j ROMANA-T0S1-INPUT"] :=
  ⟨(cleanup_scoping simEnv SimState.ledger simLedgerModel (simWorld simCleanup) "tap123").2.1
      recTap999Active (by decide) (by decide),
   (cleanup_scoping simEnv SimState.ledger simLedgerModel (simWorld simCleanup) "tap123").2.2.1
      recTap123Inactive (by decide) (by decide) (by decide),
   by decide, by decide, by decide⟩

/-! ## `CreateDefaultRule` -/

theorem defaultRule_body (chainName target : String) :
    (defaultRule chainName target).Body = chainName ++ " -j " ++ target := by
  apply String.ext
  simp [defaultRule, String.data_append]

/-- The world `applyRule` ends in, step by step. -/
theorem applyRule_world {σ : Type} (env : Env σ) (w : World σ) (rule : IPtablesRule)
    (state : RuleState) :
    (applyRule env w rule state).2 =
      if (env.addIPtablesRule w.st rule).1.isNone then
        if (EnsureRule env (storeAdd env w rule).2 rule state).1.isNone then
          (storeSwitch env (EnsureRule env (storeAdd env w rule).2 rule state).2 rule
            opSwitchIPtables.setRuleActive).2
        else (EnsureRule env (storeAdd env w rule).2 rule state).2
      else (storeAdd env w rule).2 := by
  cases h0 : (env.addIPtablesRule w.st rule).1 with
  | some e => rw [applyRule_add_fails env w rule state e h0]; simp
  | none =>
    cases h1 : (EnsureRule env (storeAdd env w rule).2 rule state).1 with
    | some e => rw [applyRule_ensure_fails env w rule state e h0 h1]; simp
    | none =>
      have ha : addIPtablesRule env w rule = (none, (storeAdd env w rule).2) := by
        simp [addIPtablesRule, storeAdd, h0]
      cases h2 : (storeSwitch env (EnsureRule env (storeAdd env w rule).2 rule state).2 rule
        opSwitchIPtables.setRuleActive).1 with
      | some e => simp [applyRule, ha, h1, h2]
      | none => simp [applyRule, ha, h1, h2]

/-- C14: `CreateDefaultRule` builds the rule body `<ChainName> -j <target>`.
Its calls are: the ledger add of that rule and, when the add succeeded, the
existence check, the append `-A <body>` exactly when the check reported the
rule absent, and the ledger switch when the install succeeded. So an append
is issued if and only if the check reported the rule absent.
`CreateDefaultDropRule(chain)` is `CreateDefaultRule(chain, "DROP")`. -/
theorem CreateDefaultRule_body_and_append {σ : Type} (env : Env σ) (fw : IPtables)
    (w : World σ) (chain : Nat) (c : IPtablesChain) (target : String)
    (hc : fw.Chains[chain]? = some c) :
    (defaultRule c.ChainName target).Body = c.ChainName ++ " -j " ++ target ∧
    (CreateDefaultRule env fw w chain target).2.log =
      w.log ++ Event.ledgerAdd (defaultRule c.ChainName target) ::
        (if (env.addIPtablesRule w.st (defaultRule c.ChainName target)).1.isNone then
          Event.exec iptablesCmd ["-C", (defaultRule c.ChainName target).Body] ::
          (if (env.exec (env.addIPtablesRule w.st (defaultRule c.ChainName target)).2
              iptablesCmd ["-C", (defaultRule c.ChainName target).Body]).1.isSome
            then [Event.exec iptablesCmd ["-A", (defaultRule c.ChainName target).Body]]
            else []) ++
          (if (EnsureRule env (storeAdd env w (defaultRule c.ChainName target)).2
              (defaultRule c.ChainName target) RuleState.ensureLast).1.isNone
            then [Event.ledgerSwitch (defaultRule c.ChainName target)
              opSwitchIPtables.setRuleActive]
            else [])
        else []) ∧
    ((env.addIPtablesRule w.st (defaultRule c.ChainName target)).1 = none →
      (Event.exec iptablesCmd ["-A", (defaultRule c.ChainName target).Body] ∈
          (CreateDefaultRule env fw w chain target).2.log.drop w.log.length ↔
        (env.exec (env.addIPtablesRule w.st (defaultRule c.ChainName target)).2
          iptablesCmd ["-C", (defaultRule c.ChainName target).Body]).1 ≠ none)) ∧
    CreateDefaultDropRule env fw w chain = CreateDefaultRule env fw w chain "DROP" := by
  have hlog : (CreateDefaultRule env fw w chain target).2.log =
      w.log ++ Event.ledgerAdd (defaultRule c.ChainName target) ::
        (if (env.addIPtablesRule w.st (defaultRule c.ChainName target)).1.isNone then
          Event.exec iptablesCmd ["-C", (defaultRule c.ChainName target).Body] ::
          (if (env.exec (env.addIPtablesRule w.st (defaultRule c.ChainName target)).2
              iptablesCmd ["-C", (defaultRule c.ChainName target).Body]).1.isSome
            then [Event.exec iptablesCmd ["-A", (defaultRule c.ChainName target).Body]]
            else []) ++
          (if (EnsureRule env (storeAdd env w (defaultRule c.ChainName target)).2
              (defaultRule c.ChainName target) RuleState.ensureLast).1.isNone
            then [Event.ledgerSwitch (defaultRule c.ChainName target)
              opSwitchIPtables.setRuleActive]
            else [])
        else []) := by
    simp only [CreateDefaultRule, hc, applyRule_world]
    cases h0 : (env.addIPtablesRule w.st (defaultRule c.ChainName target)).1 with
    | some e => simp [storeAdd]
    | none =>
      cases h1 : (EnsureRule env (storeAdd env w (defaultRule c.ChainName target)).2
          (defaultRule c.ChainName target) RuleState.ensureLast).1 with
      | some e => simp [EnsureRule_last_world, storeAdd]
      | none => simp [EnsureRule_last_world, storeAdd, storeSwitch]
  refine ⟨defaultRule_body _ _, hlog, ?_, rfl⟩
  intro h0
  rw [hlog, List.drop_left]
  cases hchk : (env.exec (env.addIPtablesRule w.st (defaultRule c.ChainName target)).2
      iptablesCmd ["-C", (defaultRule c.ChainName target).Body]).1 with
  | none => simp [h0]
  | some e => simp [h0]

/-- Witness for C14: the default drop rule of the forward chain of `tap123`,
on the simulated host with nothing installed. -/
theorem CreateDefaultRule_body_and_append_witness :
    (defaultRule "ROMANA-T0S1-FORWARD" "DROP").Body = "ROMANA-T0S1-FORWARD" ++ " -j " ++ "DROP" ∧
    (Event.exec iptablesCmd ["-A", (defaultRule "ROMANA-T0S1-FORWARD" "DROP").Body] ∈
        (CreateDefaultRule simEnv demoFw (simWorld simEmpty) 2 "DROP").2.log.drop
          (simWorld simEmpty).log.length ↔
      (simEnv.exec (simEnv.addIPtablesRule (simWorld simEmpty).st
        (defaultRule "ROMANA-T0S1-FORWARD" "DROP")).2
        iptablesCmd ["-C", (defaultRule "ROMANA-T0S1-FORWARD" "DROP").Body]).1 ≠ none) ∧
    (CreateDefaultRule simEnv demoFw (simWorld simEmpty) 2 "DROP").2.log =
      [Event.ledgerAdd ⟨"ROMANA-T0S1-FORWARD -j DROP", opSwitchIPtables.setRuleActive⟩,
       Event.exec "/sbin/iptables" ["-C", "ROMANA-T0S1-FORWARD -j DROP"],
       Event.exec "/sbin/iptables" ["-A", "ROMANA-T0S1-FORWARD -j DROP"],
       Event.ledgerSwitch ⟨"ROMANA-T0S1-FORWARD -j DROP", opSwitchIPtables.setRuleActive⟩
        opSwitchIPtables.setRuleActive] ∧
    (defaultRule "ROMANA-T2S3-FORWARD" "DROP").Body = "ROMANA-T2S3-FORWARD -j DROP" :=
  have h := CreateDefaultRule_body_and_append simEnv demoFw (simWorld simEmpty) 2
    ⟨"FORWARD", ["i"], [], "ROMANA-T0S1-FORWARD"⟩ "DROP" rfl
  ⟨h.1, h.2.2.1 (by decide), by decide, by decide⟩

/-- C15, at `CreateDefaultRule(2, "DROP")`: the record handed to the ledger's
add, before any kernel command, has state active, not inactive. When the
install then fails, the ledger holds an active record of a rule the kernel
does not have. -/
theorem CreateDefaultRule_adds_active_record :
    (CreateDefaultRule simEnv demoFw (simWorld simEmpty) 2 "DROP").2.log.head? =
      some (Event.ledgerAdd ⟨"ROMANA-T0S1-FORWARD -j DROP", opSwitchIPtables.setRuleActive⟩) ∧
    (CreateDefaultRule simEnv demoFw (simWorld simKernelRefuses) 2 "DROP").1 =
      Outcome.returned (some "iptables: command failed") ∧
    (CreateDefaultRule simEnv demoFw (simWorld simKernelRefuses) 2 "DROP").2.st.ledger =
      [⟨"ROMANA-T0S1-FORWARD -j DROP", opSwitchIPtables.setRuleActive⟩] ∧
    (CreateDefaultRule simEnv demoFw (simWorld simKernelRefuses) 2 "DROP").2.st.rules = [] := by
  decide

/-! ## The jump rules of `DivertTrafficToRomanaIPtablesChain` -/

theorem divertRule_body (fw : IPtables) (chain : IPtablesChain) (d : String) :
    (divertRule fw chain d).Body =
      chain.BaseChain ++ " -" ++ d ++ " " ++ fw.InterfaceName ++ " -j " ++ chain.ChainName := by
  apply String.ext
  simp [divertRule, String.data_append]

/-- The log of `EnsureRule` extends the log it started from. -/
theorem EnsureRule_log_extends {σ : Type} (env : Env σ) (w : World σ) (rule : IPtablesRule)
    (opType : RuleState) : w.log <+: (EnsureRule env w rule opType).2.log := by
  obtain ⟨evs, -, h⟩ := EnsureRule_events env w rule opType
  exact ⟨evs, h.symm⟩

/-- The log of `applyRule` starts with the ledger add. -/
theorem applyRule_prefix_add {σ : Type} (env : Env σ) (w : World σ) (rule : IPtablesRule)
    (state : RuleState) :
    w.log ++ [Event.ledgerAdd rule] <+: (applyRule env w rule state).2.log := by
  have hadd : (storeAdd env w rule).2.log = w.log ++ [Event.ledgerAdd rule] := rfl
  have hens := EnsureRule_log_extends env (storeAdd env w rule).2 rule state
  rw [hadd] at hens
  rw [applyRule_world]
  split
  · split
    · exact hens.trans ⟨[Event.ledgerSwitch rule opSwitchIPtables.setRuleActive], rfl⟩
    · exact hens
  · exact List.prefix_refl _

/-- After a successful ledger add the log of `applyRule` continues with the
calls of `EnsureRule`. -/
theorem applyRule_prefix_ensure {σ : Type} (env : Env σ) (w : World σ) (rule : IPtablesRule)
    (state : RuleState) (h0 : (env.addIPtablesRule w.st rule).1 = none) :
    (EnsureRule env (storeAdd env w rule).2 rule state).2.log <+:
      (applyRule env w rule state).2.log := by
  rw [applyRule_world, h0]
  simp only [Option.isNone_none, if_true]
  split
  · exact ⟨[Event.ledgerSwitch rule opSwitchIPtables.setRuleActive], rfl⟩
  · exact List.prefix_refl _

theorem divertLoop_cons_fail {σ : Type} (env : Env σ) (fw : IPtables) (chain : IPtablesChain)
    (state : RuleState) (d : String) (rest : List String) (w : World σ) (e : String)
    (hr : (applyRule env w (divertRule fw chain d) state).1 = some e) :
    divertLoop env fw chain state (d :: rest) w =
      (some e, (applyRule env w (divertRule fw chain d) state).2) := by
  simp [divertLoop, hr]

theorem divertLoop_cons_ok {σ : Type} (env : Env σ) (fw : IPtables) (chain : IPtablesChain)
    (state : RuleState) (d : String) (rest : List String) (w : World σ)
    (hr : (applyRule env w (divertRule fw chain d) state).1 = none) :
    divertLoop env fw chain state (d :: rest) w =
      divertLoop env fw chain state rest (applyRule env w (divertRule fw chain d) state).2 := by
  simp [divertLoop, hr]

/-- The log of the loop extends the log it started from. -/
theorem divertLoop_log_extends {σ : Type} (env : Env σ) (fw : IPtables) (chain : IPtablesChain)
    (state : RuleState) (dirs : List String) (w : World σ) :
    w.log <+: (divertLoop env fw chain state dirs w).2.log := by
  induction dirs generalizing w with
  | nil => exact List.prefix_refl _
  | cons d rest ih =>
    have h1 : w.log <+: (applyRule env w (divertRule fw chain d) state).2.log :=
      (List.prefix_append _ _).trans (applyRule_prefix_add env w _ state)
    cases hr : (applyRule env w (divertRule fw chain d) state).1 with
    | some e => rw [divertLoop_cons_fail env fw chain state d rest w e hr]; exact h1
    | none => rw [divertLoop_cons_ok env fw chain state d rest w hr]; exact h1.trans (ih _)

/-- The loop, from a direction it reaches, continues the log `applyRule` leaves
for that direction. -/
theorem divertLoop_reaches {σ : Type} (env : Env σ) (fw : IPtables) (chain : IPtablesChain)
    (state : RuleState) (pre post : List String) (d : String) (w w' : World σ)
    (hpre : divertLoop env fw chain state pre w = (none, w')) :
    (applyRule env w' (divertRule fw chain d) state).2.log <+:
      (divertLoop env fw chain state (pre ++ d :: post) w).2.log := by
  rw [divertLoop_append, hpre]
  simp only [if_true]
  cases hr : (applyRule env w' (divertRule fw chain d) state).1 with
  | some e =>
    simp only [divertLoop_cons_fail env fw chain state d post w' e hr]
    exact List.prefix_refl _
  | none =>
    rw [divertLoop_cons_ok env fw chain state d post w' hr]
    exact divertLoop_log_extends env fw chain state post _

/-- C16: for a direction `d` of the chain that the operation reaches (the
directions before it succeeded, leaving world `w'`),
`DivertTrafficToRomanaIPtablesChain` builds the jump rule with body
`<BaseChain> -<d> <InterfaceName> -j <ChainName>` and state inactive, hands it
to the ledger's add, and, when the add succeeded, goes on with the calls of
`EnsureRule` on that rule with placement `ensureLast` for `installDivertRules`
and `ensureAbsent` for `removeDivertRules`. -/
theorem divert_rule_and_placement {σ : Type} (env : Env σ) (fw : IPtables)
    (w w' : World σ) (chain : IPtablesChain) (opType : opDivertTrafficAction)
    (pre post : List String) (d : String)
    (hd : chain.Directions = pre ++ d :: post)
    (hpre : divertLoop env fw chain (divertState opType) pre w = (none, w')) :
    (divertRule fw chain d).Body =
      chain.BaseChain ++ " -" ++ d ++ " " ++ fw.InterfaceName ++ " -j " ++ chain.ChainName ∧
    (divertRule fw chain d).State = opSwitchIPtables.setRuleInactive ∧
    w'.log ++ [Event.ledgerAdd (divertRule fw chain d)] <+:
      (DivertTrafficToRomanaIPtablesChain env fw w chain opType).2.log ∧
    ((env.addIPtablesRule w'.st (divertRule fw chain d)).1 = none →
      (EnsureRule env (storeAdd env w' (divertRule fw chain d)).2 (divertRule fw chain d)
        (match opType with
          | opDivertTrafficAction.installDivertRules => RuleState.ensureLast
          | opDivertTrafficAction.removeDivertRules => RuleState.ensureAbsent)).2.log <+:
        (DivertTrafficToRomanaIPtablesChain env fw w chain opType).2.log) := by
  have hreach := divertLoop_reaches env fw chain (divertState opType) pre post d w w' hpre
  refine ⟨divertRule_body fw chain d, rfl, ?_, ?_⟩
  · unfold DivertTrafficToRomanaIPtablesChain
    simp only [hd]
    exact (applyRule_prefix_add env w' _ _).trans hreach
  · intro h0
    unfold DivertTrafficToRomanaIPtablesChain
    simp only [hd]
    have h1 := applyRule_prefix_ensure env w' (divertRule fw chain d) (divertState opType) h0
    cases opType <;> exact h1.trans hreach

/-- Witness for C16: the second direction of a chain bound to both directions,
when the jump rules are installed on the simulated host with nothing
installed. -/
theorem divert_rule_and_placement_witness :
    (divertRule demoFw demoChain "o").Body =
      "FORWARD" ++ " -" ++ "o" ++ " " ++ "tap123" ++ " -j " ++ "ROMANA-T0S1-FORWARD" ∧
    (divertRule demoFw demoChain "o").State = opSwitchIPtables.setRuleInactive ∧
    (divertLoop simEnv demoFw demoChain RuleState.ensureLast ["i"]
        (simWorld simEmpty)).2.log ++ [Event.ledgerAdd (divertRule demoFw demoChain "o")] <+:
      (DivertTrafficToRomanaIPtablesChain simEnv demoFw (simWorld simEmpty) demoChain
        opDivertTrafficAction.installDivertRules).2.log ∧
    (EnsureRule simEnv (storeAdd simEnv (divertLoop simEnv demoFw demoChain
        RuleState.ensureLast ["i"] (simWorld simEmpty)).2 (divertRule demoFw demoChain "o")).2
        (divertRule demoFw demoChain "o") RuleState.ensureLast).2.log <+:
      (DivertTrafficToRomanaIPtablesChain simEnv demoFw (simWorld simEmpty) demoChain
        opDivertTrafficAction.installDivertRules).2.log :=
  have h := divert_rule_and_placement simEnv demoFw (simWorld simEmpty)
    (divertLoop simEnv demoFw demoChain RuleState.ensureLast ["i"] (simWorld simEmpty)).2
    demoChain opDivertTrafficAction.installDivertRules ["i"] [] "o" rfl rfl
  ⟨h.1, h.2.1, h.2.2.1, h.2.2.2 (by decide)⟩

/-! ## `CreateRules` -/

/-- What `EnsureRule` with placement `ensureFirst` leaves behind, whatever the
check reports. -/
theorem EnsureRule_first_world {σ : Type} (env : Env σ) (w : World σ) (rule : IPtablesRule) :
    (EnsureRule env w rule RuleState.ensureFirst).2 =
      ⟨if (env.exec w.st iptablesCmd ["-C", rule.Body]).1.isSome then
          (env.exec (env.exec w.st iptablesCmd ["-C", rule.Body]).2 iptablesCmd
            ["-I", rule.Body]).2
        else (env.exec w.st iptablesCmd ["-C", rule.Body]).2,
       w.log ++ [Event.exec iptablesCmd ["-C", rule.Body]] ++
        (if (env.exec w.st iptablesCmd ["-C", rule.Body]).1.isSome then
          [Event.exec iptablesCmd ["-I", rule.Body]] else [])⟩ := by
  cases h : (env.exec w.st iptablesCmd ["-C", rule.Body]).1 with
  | none =>
    rw [EnsureRule_installed_keep env w rule RuleState.ensureFirst (by decide) h, isRuleExist_snd]
    simp
  | some e =>
    rw [EnsureRule_missing env w rule RuleState.ensureFirst (by simp [h]), isRuleExist_snd]
    simp [osExec]

/-- The result of `EnsureRule` with placement `ensureFirst`: `nil` when the
rule is reported installed, the result of the insert otherwise. -/
theorem EnsureRule_first_result {σ : Type} (env : Env σ) (w : World σ) (rule : IPtablesRule) :
    (EnsureRule env w rule RuleState.ensureFirst).1 =
      if (env.exec w.st iptablesCmd ["-C", rule.Body]).1.isSome then
        (env.exec (env.exec w.st iptablesCmd ["-C", rule.Body]).2 iptablesCmd
          ["-I", rule.Body]).1
      else none := by
  cases h : (env.exec w.st iptablesCmd ["-C", rule.Body]).1 with
  | none =>
    rw [EnsureRule_installed_keep env w rule RuleState.ensureFirst (by decide) h]
    simp
  | some e =>
    rw [EnsureRule_missing env w rule RuleState.ensureFirst (by simp [h]), isRuleExist_snd]
    simp [osExec]

theorem createRulesLoop_cons_ok {σ : Type} (env : Env σ) (rule : IPtablesRule)
    (rest : List IPtablesRule) (w : World σ)
    (hr : (applyRule env w rule RuleState.ensureFirst).1 = none) :
    createRulesLoop env (rule :: rest) w =
      createRulesLoop env rest (applyRule env w rule RuleState.ensureFirst).2 := by
  simp [createRulesLoop, hr]

/-- When no step fails, the three phases of one rule with placement first
succeed and leave the prescribed calls in the log. -/
theorem applyRule_first_ok {σ : Type} (env : Env σ) (w : World σ) (rule : IPtablesRule)
    (h0 : (env.addIPtablesRule w.st rule).1 = none)
    (h1 : (env.exec (env.addIPtablesRule w.st rule).2 iptablesCmd ["-C", rule.Body]).1.isSome
      = true →
      (env.exec (env.exec (env.addIPtablesRule w.st rule).2 iptablesCmd
        ["-C", rule.Body]).2 iptablesCmd ["-I", rule.Body]).1 = none)
    (h2 : (env.switchIPtablesRule
      (if (env.exec (env.addIPtablesRule w.st rule).2 iptablesCmd ["-C", rule.Body]).1.isSome
        then (env.exec (env.exec (env.addIPtablesRule w.st rule).2 iptablesCmd
          ["-C", rule.Body]).2 iptablesCmd ["-I", rule.Body]).2
        else (env.exec (env.addIPtablesRule w.st rule).2 iptablesCmd ["-C", rule.Body]).2)
      rule opSwitchIPtables.setRuleActive).1 = none) :
    applyRule env w rule RuleState.ensureFirst =
      (none, ⟨(env.switchIPtablesRule
        (if (env.exec (env.addIPtablesRule w.st rule).2 iptablesCmd
            ["-C", rule.Body]).1.isSome
          then (env.exec (env.exec (env.addIPtablesRule w.st rule).2 iptablesCmd
            ["-C", rule.Body]).2 iptablesCmd ["-I", rule.Body]).2
          else (env.exec (env.addIPtablesRule w.st rule).2 iptablesCmd ["-C", rule.Body]).2)
        rule opSwitchIPtables.setRuleActive).2,
        w.log ++ ([Event.ledgerAdd rule, Event.exec iptablesCmd ["-C", rule.Body]]
          ++ (if (env.exec (env.addIPtablesRule w.st rule).2 iptablesCmd
              ["-C", rule.Body]).1.isSome
            then [Event.exec iptablesCmd ["-I", rule.Body]] else [])
          ++ [Event.ledgerSwitch rule opSwitchIPtables.setRuleActive])⟩) := by
  have ha : addIPtablesRule env w rule = (none, (storeAdd env w rule).2) := by
    simp [addIPtablesRule, storeAdd, h0]
  have he : (EnsureRule env (storeAdd env w rule).2 rule RuleState.ensureFirst).1 = none := by
    rw [EnsureRule_first_result]
    cases hc : (env.exec (env.addIPtablesRule w.st rule).2 iptablesCmd ["-C", rule.Body]).1 with
    | none => simp [storeAdd, hc]
    | some e =>
      have := h1 (by simp [hc])
      simp [storeAdd, hc, this]
  have hs : (storeSwitch env (EnsureRule env (storeAdd env w rule).2 rule
      RuleState.ensureFirst).2 rule opSwitchIPtables.setRuleActive).1 = none := by
    rw [EnsureRule_first_world]
    exact h2
  simp only [applyRule, ha, he, hs]
  rw [EnsureRule_first_world]
  simp [storeSwitch, storeAdd]

/-- When no step fails the loop of `CreateRules` returns `nil` and has made
exactly the prescribed calls. -/
theorem createRulesLoop_trace {σ : Type} (env : Env σ) (rules : List IPtablesRule)
    (w : World σ) (hok : createRulesStepsOk env rules w.st = true) :
    (createRulesLoop env rules w).1 = none ∧
    (createRulesLoop env rules w).2.log = w.log ++ createRulesTrace env rules w.st := by
  induction rules generalizing w with
  | nil => simp [createRulesLoop, createRulesTrace]
  | cons rule rest ih =>
    simp only [createRulesStepsOk, Bool.and_eq_true, Bool.or_eq_true, Bool.not_eq_true',
      Option.isNone_iff_eq_none] at hok
    obtain ⟨⟨⟨h0, h1⟩, h2⟩, h3⟩ := hok
    have h1' : (env.exec (env.addIPtablesRule w.st rule).2 iptablesCmd
        ["-C", rule.Body]).1.isSome = true →
        (env.exec (env.exec (env.addIPtablesRule w.st rule).2 iptablesCmd
          ["-C", rule.Body]).2 iptablesCmd ["-I", rule.Body]).1 = none := by
      intro hs
      rcases h1 with h1 | h1
      · rw [hs] at h1; exact Bool.noConfusion h1
      · exact h1
    have hstep := applyRule_first_ok env w rule h0 h1' h2
    have hres : (applyRule env w rule RuleState.ensureFirst).1 = none := by rw [hstep]
    rw [createRulesLoop_cons_ok env rule rest w hres, hstep]
    obtain ⟨ih1, ih2⟩ := ih ⟨_, _⟩ h3
    refine ⟨ih1, ?_⟩
    rw [ih2]
    simp [createRulesTrace]

/-- The prescribed calls add each rule once, in the order of the list. -/
theorem createRulesTrace_added {σ : Type} (env : Env σ) (rules : List IPtablesRule) (st : σ) :
    (createRulesTrace env rules st).filterMap Event.added? = rules ∧
    (createRulesTrace env rules st).filterMap Event.activated? = rules := by
  induction rules generalizing st with
  | nil => simp [createRulesTrace]
  | cons rule rest ih =>
    obtain ⟨ih1, ih2⟩ := ih (env.switchIPtablesRule
      (if (env.exec (env.addIPtablesRule st rule).2 iptablesCmd ["-C", rule.Body]).1.isSome
        then (env.exec (env.exec (env.addIPtablesRule st rule).2 iptablesCmd
          ["-C", rule.Body]).2 iptablesCmd ["-I", rule.Body]).2
        else (env.exec (env.addIPtablesRule st rule).2 iptablesCmd ["-C", rule.Body]).2)
      rule opSwitchIPtables.setRuleActive).2
    constructor
    · simp only [createRulesTrace, List.filterMap_append, ih1]
      split <;> simp [List.filterMap, Event.added?]
    · simp only [createRulesTrace, List.filterMap_append, ih2]
      split <;> simp [List.filterMap, Event.activated?]

/-- C17: `CreateRules` applies the three-phase protocol with placement
`ensureFirst` to the rules attached to the chain, one rule at a time in the
order they are stored. When no step fails it returns `nil` and its calls are
exactly the prescribed ones: per rule the ledger add, the existence check, the
insert `-I <body>` when the rule was reported absent, the ledger switch to
active; every attached rule is added once and activated once, in list order.
With no rules attached it makes no call. -/
theorem CreateRules_three_phase {σ : Type} (env : Env σ) (fw : IPtables) (w : World σ)
    (chain : Nat) (c : IPtablesChain) (hc : fw.Chains[chain]? = some c) :
    (createRulesStepsOk env c.Rules w.st = true →
      (CreateRules env fw w chain).1 = Outcome.returned none ∧
      (CreateRules env fw w chain).2.log = w.log ++ createRulesTrace env c.Rules w.st) ∧
    (createRulesTrace env c.Rules w.st).filterMap Event.added? = c.Rules ∧
    (createRulesTrace env c.Rules w.st).filterMap Event.activated? = c.Rules ∧
    (c.Rules = [] → CreateRules env fw w chain = (Outcome.returned none, w)) := by
  refine ⟨?_, (createRulesTrace_added env c.Rules w.st).1,
    (createRulesTrace_added env c.Rules w.st).2, ?_⟩
  · intro hok
    obtain ⟨h1, h2⟩ := createRulesLoop_trace env c.Rules w hok
    simp only [CreateRules, hc, h1, h2]
    exact ⟨trivial, trivial⟩
  · intro hnil
    simp [CreateRules, hc, hnil, createRulesLoop]

/-- Witness for C17: two rules attached to the input chain, on the simulated
host with nothing installed. -/
theorem CreateRules_three_phase_witness :
    ((CreateRules simEnv demoFwRules (simWorld simEmpty) 0).1 = Outcome.returned none ∧
      (CreateRules simEnv demoFwRules (simWorld simEmpty) 0).2.log =
        (simWorld simEmpty).log ++
          createRulesTrace simEnv [demoRuleA, demoRuleB] (simWorld simEmpty).st) ∧
    (CreateRules simEnv demoFwRules (simWorld simEmpty) 0).2.log =
      [Event.ledgerAdd demoRuleA,
       Event.exec "/sbin/iptables" ["-C", "ROMANA-T0S1-INPUT -p icmp -j ACCEPT"],
       Event.exec "/sbin/iptables" ["-I", "ROMANA-T0S1-INPUT -p icmp -j ACCEPT"],
       Event.ledgerSwitch demoRuleA opSwitchIPtables.setRuleActive,
       Event.ledgerAdd demoRuleB,
       Event.exec "/sbin/iptables" ["-C", "ROMANA-T0S1-INPUT -p tcp --dport 22 -j ACCEPT"],
       Event.exec "/sbin/iptables" ["-I", "ROMANA-T0S1-INPUT -p tcp --dport 22 -j ACCEPT"],
       Event.ledgerSwitch demoRuleB opSwitchIPtables.setRuleActive] :=
  ⟨(CreateRules_three_phase simEnv demoFwRules (simWorld simEmpty) 0
      ⟨"INPUT", ["i"], [demoRuleA, demoRuleB], "ROMANA-T0S1-INPUT"⟩ rfl).1 (by decide),
   by decide⟩

/-! ## Filter computation and chain planning -/

theorem ipToInt_of_length (ip : List Nat) (h : 16 ≤ ip.length) :
    ∃ addr, ipToInt ip = some addr := by
  unfold ipToInt
  rw [List.getElem?_eq_getElem (show 12 < ip.length by omega),
    List.getElem?_eq_getElem (show 13 < ip.length by omega),
    List.getElem?_eq_getElem (show 14 < ip.length by omega),
    List.getElem?_eq_getElem (show 15 < ip.length by omega)]
  exact ⟨_, rfl⟩

/-- The error of `PseudoNetNetmaskInt` is the error of the accessor, or else
the error of parsing the rendered mask. -/
theorem PseudoNetNetmaskInt_err (pnet : Except String IPNet) :
    (PseudoNetNetmaskInt pnet).2 =
      match pnet with
      | Except.error e => some e
      | Except.ok cidr => (parseInt (maskString cidr.Mask)).2 := by
  cases pnet with
  | error e => rfl
  | ok cidr =>
    simp only [PseudoNetNetmaskInt, MaskToInt]
    cases h : (parseInt (maskString cidr.Mask)).2 <;> simp [h]

theorem prepareNetmaskBits_err (pnet : Except String IPNet) (cfg : NetConfig) :
    (prepareNetmaskBits pnet cfg).2 = (PseudoNetNetmaskInt pnet).2 := by
  unfold prepareNetmaskBits
  cases h : (PseudoNetNetmaskInt pnet).2 <;> simp [h]

theorem prepareU32Rules_err (pnet : Except String IPNet) (cfg : NetConfig) (ip : List Nat)
    (e : String) (h : (PseudoNetNetmaskInt pnet).2 = some e) :
    prepareU32Rules pnet cfg ip = some ("", "", some e) := by
  have h1 : (prepareNetmaskBits pnet cfg).2 = some e := by rw [prepareNetmaskBits_err, h]
  simp [prepareU32Rules, h1]

theorem prepareU32Rules_panic (pnet : Except String IPNet) (cfg : NetConfig) (ip : List Nat)
    (h : (PseudoNetNetmaskInt pnet).2 = none) (hip : ipToInt ip = none) :
    prepareU32Rules pnet cfg ip = none := by
  have h1 : (prepareNetmaskBits pnet cfg).2 = none := by rw [prepareNetmaskBits_err, h]
  simp [prepareU32Rules, h1, hip]

theorem prepareU32Rules_ok (pnet : Except String IPNet) (cfg : NetConfig) (ip : List Nat)
    (addr : Nat) (h : (PseudoNetNetmaskInt pnet).2 = none) (hip : ipToInt ip = some addr) :
    prepareU32Rules pnet cfg ip =
      some ("12&" ++ ("0x" ++ hexUpper (prepareNetmaskBits pnet cfg).1 ++ "=0x" ++
          hexUpper (addr &&& (prepareNetmaskBits pnet cfg).1)) ++ " && 16&" ++
          ("0x" ++ hexUpper (prepareNetmaskBits pnet cfg).1 ++ "=0x" ++
          hexUpper (addr &&& (prepareNetmaskBits pnet cfg).1)),
        "ROMANA-T" ++ decimal (extractTenantID cfg addr) ++ "S" ++
          decimal (extractSegmentID cfg addr) ++ "-", none) := by
  have h1 : (prepareNetmaskBits pnet cfg).2 = none := by rw [prepareNetmaskBits_err, h]
  simp [prepareU32Rules, h1, hip]

/-- A successful filter computation: no error from the configuration, an
address `ipToInt` can read, and the chain prefix made of its two IDs. -/
theorem prepareU32Rules_success (pnet : Except String IPNet) (cfg : NetConfig) (ip : List Nat)
    (filter pfx : String) (h : prepareU32Rules pnet cfg ip = some (filter, pfx, none)) :
    (PseudoNetNetmaskInt pnet).2 = none ∧
    ∃ addr, ipToInt ip = some addr ∧
      pfx = "ROMANA-T" ++ decimal (extractTenantID cfg addr) ++ "S" ++
        decimal (extractSegmentID cfg addr) ++ "-" := by
  cases he : (PseudoNetNetmaskInt pnet).2 with
  | some e =>
    rw [prepareU32Rules_err pnet cfg ip e he] at h
    simp at h
  | none =>
    cases hip : ipToInt ip with
    | none =>
      rw [prepareU32Rules_panic pnet cfg ip he hip] at h
      simp at h
    | some addr =>
      rw [prepareU32Rules_ok pnet cfg ip addr he hip] at h
      simp only [Option.some.injEq, Prod.mk.injEq] at h
      exact ⟨rfl, addr, rfl, h.2.1.symm⟩

/-- C18: when the filter computation succeeds, with chain prefix `pfx`,
`makeRules` on a firewall without chains returns `nil` and leaves exactly four
chains, in the order of `InputChainIndex`, `OutputChainIndex`,
`ForwardInChainIndex`, `ForwardOutChainIndex`: `INPUT` with direction `i` and
name `pfx ++ "INPUT"`, `OUTPUT` with `o` and `pfx ++ "OUTPUT"`, `FORWARD` with
`i` and `pfx ++ "FORWARD"`, `FORWARD` with `o` and `ROMANA-T<tenantID>`, where
`pfx` is `ROMANA-T<tenantID>S<segmentID>-`. No chain has rules attached, and
the interface name is the endpoint's name. -/
theorem makeRules_four_chains {σ : Type} (env : Env σ) (w : World σ)
    (pnet : Except String IPNet) (fw : IPtables) (netif : FirewallEndpoint)
    (filter pfx : String) (hempty : fw.Chains = [])
    (hok : prepareU32Rules pnet fw.networkConfig netif.IP = some (filter, pfx, none)) :
    ∃ addr, ipToInt netif.IP = some addr ∧
      pfx = "ROMANA-T" ++ decimal (extractTenantID fw.networkConfig addr) ++ "S" ++
        decimal (extractSegmentID fw.networkConfig addr) ++ "-" ∧
      (makeRules env w pnet fw netif).1 = Outcome.returned none ∧
      (makeRules env w pnet fw netif).2.1.Chains =
        [IPtablesChain.mk "INPUT" ["i"] [] (pfx ++ "INPUT"),
         IPtablesChain.mk "OUTPUT" ["o"] [] (pfx ++ "OUTPUT"),
         IPtablesChain.mk "FORWARD" ["i"] [] (pfx ++ "FORWARD"),
         IPtablesChain.mk "FORWARD" ["o"] []
          ("ROMANA-T" ++ decimal (extractTenantID fw.networkConfig addr))] ∧
      (makeRules env w pnet fw netif).2.1.Chains[InputChainIndex]? =
        some (IPtablesChain.mk "INPUT" ["i"] [] (pfx ++ "INPUT")) ∧
      (makeRules env w pnet fw netif).2.1.Chains[OutputChainIndex]? =
        some (IPtablesChain.mk "OUTPUT" ["o"] [] (pfx ++ "OUTPUT")) ∧
      (makeRules env w pnet fw netif).2.1.Chains[ForwardInChainIndex]? =
        some (IPtablesChain.mk "FORWARD" ["i"] [] (pfx ++ "FORWARD")) ∧
      (makeRules env w pnet fw netif).2.1.Chains[ForwardOutChainIndex]? =
        some (IPtablesChain.mk "FORWARD" ["o"] []
          ("ROMANA-T" ++ decimal (extractTenantID fw.networkConfig addr))) ∧
      (∀ c ∈ (makeRules env w pnet fw netif).2.1.Chains, c.Rules = []) ∧
      (makeRules env w pnet fw netif).2.1.InterfaceName = netif.Name := by
  obtain ⟨-, addr, hip, hpfx⟩ := prepareU32Rules_success pnet fw.networkConfig netif.IP
    filter pfx hok
  have hch : (makeRules env w pnet fw netif).2.1.Chains =
      [IPtablesChain.mk "INPUT" ["i"] [] (pfx ++ "INPUT"),
       IPtablesChain.mk "OUTPUT" ["o"] [] (pfx ++ "OUTPUT"),
       IPtablesChain.mk "FORWARD" ["i"] [] (pfx ++ "FORWARD"),
       IPtablesChain.mk "FORWARD" ["o"] []
        ("ROMANA-T" ++ decimal (extractTenantID fw.networkConfig addr))] := by
    simp [makeRules, hok, hip, hempty, prepareChainName]
  refine ⟨addr, hip, hpfx, ?_, hch, ?_, ?_, ?_, ?_, ?_, ?_⟩
  · simp [makeRules, hok, hip]
  · rw [hch]; rfl
  · rw [hch]; rfl
  · rw [hch]; rfl
  · rw [hch]; rfl
  · rw [hch]
    intro c hc
    simp at hc
    rcases hc with rfl | rfl | rfl | rfl <;> rfl
  · simp [makeRules, hok, hip]

/-- Witness for C18: interface `tap123` with address 10.0.1.4 in the pseudo
network 10.0.0.0/8, with 4 tenant, 4 segment and 8 endpoint bits. -/
theorem makeRules_four_chains_witness :
    ∃ addr, ipToInt demoEndpoint.IP = some addr ∧
      "ROMANA-T0S1-" = "ROMANA-T" ++ decimal (extractTenantID emptyFw.networkConfig addr) ++
        "S" ++ decimal (extractSegmentID emptyFw.networkConfig addr) ++ "-" ∧
      (makeRules simEnv (simWorld simEmpty) demoPNet emptyFw demoEndpoint).1 =
        Outcome.returned none ∧
      (makeRules simEnv (simWorld simEmpty) demoPNet emptyFw demoEndpoint).2.1.Chains =
        [IPtablesChain.mk "INPUT" ["i"] [] ("ROMANA-T0S1-" ++ "INPUT"),
         IPtablesChain.mk "OUTPUT" ["o"] [] ("ROMANA-T0S1-" ++ "OUTPUT"),
         IPtablesChain.mk "FORWARD" ["i"] [] ("ROMANA-T0S1-" ++ "FORWARD"),
         IPtablesChain.mk "FORWARD" ["o"] []
          ("ROMANA-T" ++ decimal (extractTenantID emptyFw.networkConfig addr))] :=
  have h := makeRules_four_chains simEnv (simWorld simEmpty) demoPNet emptyFw demoEndpoint
    "12&0xFF00FF00=0xA000100 && 16&0xFF00FF00=0xA000100" "ROMANA-T0S1-" rfl (by decide)
  h.imp (fun _ ha => ⟨ha.1, ha.2.1, ha.2.2.1, ha.2.2.2.1⟩)

/-- What `makeRules` does when the filter computation returns an error. -/
theorem makeRules_err {σ : Type} (env : Env σ) (w : World σ) (pnet : Except String IPNet)
    (fw : IPtables) (netif : FirewallEndpoint) (e : String)
    (h : (PseudoNetNetmaskInt pnet).2 = some e) :
    makeRules env w pnet fw netif =
      (Outcome.returned (some e), { fw with U32Filter := "", ChainPrefix := "" }, w) := by
  simp [makeRules, prepareU32Rules_err pnet fw.networkConfig netif.IP e h]

/-- What `makeRules` returns when the filter computation returns no error. -/
theorem makeRules_no_err {σ : Type} (env : Env σ) (w : World σ) (pnet : Except String IPNet)
    (fw : IPtables) (netif : FirewallEndpoint) (h : (PseudoNetNetmaskInt pnet).2 = none) :
    (makeRules env w pnet fw netif).1 =
      if (ipToInt netif.IP).isSome then Outcome.returned none else Outcome.panicked := by
  cases hip : ipToInt netif.IP with
  | none => simp [makeRules, prepareU32Rules_panic pnet fw.networkConfig netif.IP h hip]
  | some addr =>
    simp [makeRules, prepareU32Rules_ok pnet fw.networkConfig netif.IP addr h hip, hip]

/-- `makeRules` hands the world back as it came. -/
theorem makeRules_world {σ : Type} (env : Env σ) (w : World σ) (pnet : Except String IPNet)
    (fw : IPtables) (netif : FirewallEndpoint) :
    (makeRules env w pnet fw netif).2.2 = w := by
  unfold makeRules
  split
  · rfl
  · split
    · rfl
    · split <;> rfl

/-- C19, at the endpoint `tap123` with its address 10.0.1.4 in the 4-byte form
of `net.IP`: the pseudo network 10.0.0.0/8 is read without error, so the
filter computation has no configuration failure to report, yet `makeRules`
neither succeeds nor returns an error: `ipToInt` reads the bytes 12 to 15 of
the address and the call ends in the run-time panic. With the same address in
the 16-byte form `makeRules` returns `nil`. -/
theorem makeRules_short_address_does_not_succeed :
    (PseudoNetNetmaskInt demoPNet).2 = none ∧
    demoEndpointShort.IP = [10, 0, 1, 4] ∧
    ipToInt demoEndpointShort.IP = none ∧
    prepareU32Rules demoPNet emptyFw.networkConfig demoEndpointShort.IP = none ∧
    (makeRules simEnv (simWorld simEmpty) demoPNet emptyFw demoEndpointShort).1 =
      Outcome.panicked ∧
    (makeRules simEnv (simWorld simEmpty) demoPNet emptyFw demoEndpointShort).1 ≠
      Outcome.returned none ∧
    (makeRules simEnv (simWorld simEmpty) demoPNet emptyFw demoEndpoint).1 =
      Outcome.returned none := by
  decide

/-- The error paths of `makeRules`: it returns the error `e` if and only if
the filter computation fails with `e`, that is, the accessor of the pseudo
network CIDR fails with `e` or parsing the rendered CIDR mask fails with `e`;
in that case it appends no chain. When neither fails and the endpoint's
address has the 16 bytes `ipToInt` reads, it returns `nil`. In every case the
world is left as it was: no kernel command and no ledger call is made. -/
theorem makeRules_error_iff {σ : Type} (env : Env σ) (w : World σ)
    (pnet : Except String IPNet) (fw : IPtables) (netif : FirewallEndpoint) :
    (∀ e, (makeRules env w pnet fw netif).1 = Outcome.returned (some e) ↔
      (pnet = Except.error e ∨
        ∃ cidr, pnet = Except.ok cidr ∧ (parseInt (maskString cidr.Mask)).2 = some e)) ∧
    (∀ e, (makeRules env w pnet fw netif).1 = Outcome.returned (some e) →
      (makeRules env w pnet fw netif).2.1.Chains = fw.Chains) ∧
    ((∃ cidr, pnet = Except.ok cidr ∧ (parseInt (maskString cidr.Mask)).2 = none) →
      16 ≤ netif.IP.length →
      (makeRules env w pnet fw netif).1 = Outcome.returned none) ∧
    (makeRules env w pnet fw netif).2.2 = w := by
  have hiff : ∀ e, (makeRules env w pnet fw netif).1 = Outcome.returned (some e) ↔
      (PseudoNetNetmaskInt pnet).2 = some e := by
    intro e
    cases h : (PseudoNetNetmaskInt pnet).2 with
    | some e' =>
      rw [makeRules_err env w pnet fw netif e' h]
      simp
    | none =>
      rw [makeRules_no_err env w pnet fw netif h]
      split <;> simp
  refine ⟨?_, ?_, ?_, makeRules_world env w pnet fw netif⟩
  · intro e
    rw [hiff e, PseudoNetNetmaskInt_err]
    cases pnet with
    | error e' => simp
    | ok cidr => simp
  · intro e he
    rw [makeRules_err env w pnet fw netif e ((hiff e).mp he)]
  · rintro ⟨cidr, rfl, hparse⟩ hlen
    have h : (PseudoNetNetmaskInt (Except.ok cidr)).2 = none := by
      rw [PseudoNetNetmaskInt_err]; exact hparse
    obtain ⟨addr, hip⟩ := ipToInt_of_length netif.IP hlen
    rw [makeRules_no_err env w _ fw netif h, hip]
    rfl

/-- The error paths of `makeRules` at the pseudo network 10.0.0.0/8: with the
address 10.0.1.4 in 16-byte form `makeRules` returns `nil`; with a failing
accessor it returns that error. -/
theorem makeRules_error_iff_witness :
    (makeRules simEnv (simWorld simEmpty) demoPNet emptyFw demoEndpoint).1 =
      Outcome.returned none ∧
    (makeRules simEnv (simWorld simEmpty) (Except.error "no pseudo network") emptyFw
      demoEndpoint).1 = Outcome.returned (some "no pseudo network") :=
  ⟨(makeRules_error_iff simEnv (simWorld simEmpty) demoPNet emptyFw demoEndpoint).2.2.1
      ⟨⟨[10, 0, 0, 0], [255, 0, 0, 0]⟩, rfl, by decide⟩ (by decide),
   ((makeRules_error_iff simEnv (simWorld simEmpty) (Except.error "no pseudo network") emptyFw
      demoEndpoint).1 "no pseudo network").mpr (Or.inl rfl)⟩

/-- C20: when `prepareU32Rules` succeeds, its chain prefix is `ROMANA-T`, the
decimal tenant ID of the address, `S`, the decimal segment ID, `-`. With 4
tenant bits, 4 segment bits and 8 endpoint bits every address that encodes
tenant 2 and segment 3 gives `ROMANA-T2S3-`, and 10.0.1.4 gives
`ROMANA-T0S1-`. -/
theorem prepareU32Rules_prefix_value (pnet : Except String IPNet) (cfg : NetConfig)
    (ip : List Nat) (filter pfx : String)
    (h : prepareU32Rules pnet cfg ip = some (filter, pfx, none)) :
    (∃ addr, ipToInt ip = some addr ∧
      pfx = "ROMANA-T" ++ decimal (extractTenantID cfg addr) ++ "S" ++
        decimal (extractSegmentID cfg addr) ++ "-") ∧
    (cfg = ⟨4, 4, 8⟩ → ∀ hi endpointID, hi % 2 ^ 16 = 0 → endpointID < 2 ^ 8 →
      ipToInt ip = some (embedIDs ⟨4, 4, 8⟩ hi 2 3 endpointID) → pfx = "ROMANA-T2S3-") ∧
    (cfg = ⟨4, 4, 8⟩ → ip = ipv4 10 0 1 4 → pfx = "ROMANA-T0S1-") := by
  obtain ⟨-, addr, hip, hpfx⟩ := prepareU32Rules_success pnet cfg ip filter pfx h
  refine ⟨⟨addr, hip, hpfx⟩, ?_, ?_⟩
  · intro hcfg hi eid hhi heid hip2
    rw [hip] at hip2
    have haddr : addr = embedIDs ⟨4, 4, 8⟩ hi 2 3 eid := Option.some.inj hip2
    obtain ⟨ht, hs⟩ := extract_embedIDs ⟨4, 4, 8⟩ hi 2 3 eid (by decide) hhi (by decide)
      (by decide) heid
    rw [hpfx, hcfg, haddr, ht, hs]
    decide
  · intro hcfg hip2
    rw [hip2] at hip
    have haddr : addr = 0x0A000104 := by
      have : ipToInt (ipv4 10 0 1 4) = some 0x0A000104 := by decide
      rw [this] at hip
      exact (Option.some.inj hip).symm
    rw [hpfx, hcfg, haddr]
    decide

/-- Witness for C20: 10.0.1.4 and 10.0.35.7 (tenant 2, segment 3, endpoint 7)
in the pseudo network 10.0.0.0/8. -/
theorem prepareU32Rules_prefix_value_witness :
    (∃ addr, ipToInt (ipv4 10 0 1 4) = some addr ∧
      "ROMANA-T0S1-" = "ROMANA-T" ++ decimal (extractTenantID ⟨4, 4, 8⟩ addr) ++ "S" ++
        decimal (extractSegmentID ⟨4, 4, 8⟩ addr) ++ "-") ∧
    (∃ addr, ipToInt (ipv4 10 0 35 7) = some addr ∧
      "ROMANA-T2S3-" = "ROMANA-T" ++ decimal (extractTenantID ⟨4, 4, 8⟩ addr) ++ "S" ++
        decimal (extractSegmentID ⟨4, 4, 8⟩ addr) ++ "-") ∧
    ipToInt (ipv4 10 0 35 7) = some (embedIDs ⟨4, 4, 8⟩ 0x0A000000 2 3 7) ∧
    prepareU32Rules demoPNet ⟨4, 4, 8⟩ (ipv4 10 0 35 7) =
      some ("12&0xFF00FF00=0xA002300 && 16&0xFF00FF00=0xA002300", "ROMANA-T2S3-", none) :=
  ⟨(prepareU32Rules_prefix_value demoPNet ⟨4, 4, 8⟩ (ipv4 10 0 1 4)
      "12&0xFF00FF00=0xA000100 && 16&0xFF00FF00=0xA000100" "ROMANA-T0S1-" (by decide)).1,
   (prepareU32Rules_prefix_value demoPNet ⟨4, 4, 8⟩ (ipv4 10 0 35 7)
      "12&0xFF00FF00=0xA002300 && 16&0xFF00FF00=0xA002300" "ROMANA-T2S3-" (by decide)).1,
   by decide, by decide⟩

/-! ## The tenant/segment mask and the filter expression -/

/-- The mask without wrap-around: `2^(t+s) - 1` shifted left by `e`. -/
theorem prepareTenantSegmentMask_eq (cfg : NetConfig)
    (h : cfg.tenantBits + cfg.segmentBits + cfg.endpointBits ≤ 32) :
    prepareTenantSegmentMask cfg =
      (2 ^ (cfg.tenantBits + cfg.segmentBits) - 1) <<< cfg.endpointBits := by
  have hlt : (2 ^ (cfg.tenantBits + cfg.segmentBits) - 1) * 2 ^ cfg.endpointBits < 2 ^ 64 := by
    have h1 : (2 ^ (cfg.tenantBits + cfg.segmentBits) - 1) * 2 ^ cfg.endpointBits <
        2 ^ (cfg.tenantBits + cfg.segmentBits) * 2 ^ cfg.endpointBits :=
      Nat.mul_lt_mul_of_pos_right (Nat.sub_lt (Nat.two_pow_pos _) (by decide))
        (Nat.two_pow_pos _)
    rw [← Nat.pow_add] at h1
    have h2 : (2 : Nat) ^ (cfg.tenantBits + cfg.segmentBits + cfg.endpointBits) ≤ 2 ^ 32 :=
      Nat.pow_le_pow_right (by decide) h
    have h3 : (2 : Nat) ^ 32 < 2 ^ 64 := by decide
    omega
  unfold prepareTenantSegmentMask
  simp only
  rw [add64_small _ _ (by omega), lowMask64 _ (by omega)]
  unfold shl64
  rw [Nat.shiftLeft_eq]
  exact Nat.mod_eq_of_lt hlt

/-- C22: for widths with `tenantBits + segmentBits + endpointBits ≤ 32`,
`prepareTenantSegmentMask` is `((1 << (tenantBits+segmentBits)) - 1) <<
endpointBits` without wrap-around: bit `i` of the mask is set if and only if
`endpointBits ≤ i < endpointBits + tenantBits + segmentBits`; so the mask is
contiguous, none of its low `endpointBits` bits is set, and it is below
`2^32`. -/
theorem prepareTenantSegmentMask_bits (cfg : NetConfig)
    (h : cfg.tenantBits + cfg.segmentBits + cfg.endpointBits ≤ 32) :
    prepareTenantSegmentMask cfg =
      (2 ^ (cfg.tenantBits + cfg.segmentBits) - 1) * 2 ^ cfg.endpointBits ∧
    (∀ i, (prepareTenantSegmentMask cfg).testBit i =
      decide (cfg.endpointBits ≤ i ∧
        i < cfg.endpointBits + cfg.tenantBits + cfg.segmentBits)) ∧
    prepareTenantSegmentMask cfg % 2 ^ cfg.endpointBits = 0 ∧
    prepareTenantSegmentMask cfg < 2 ^ 32 := by
  have heq := prepareTenantSegmentMask_eq cfg h
  have hbit : ∀ i, (prepareTenantSegmentMask cfg).testBit i =
      decide (cfg.endpointBits ≤ i ∧
        i < cfg.endpointBits + cfg.tenantBits + cfg.segmentBits) := by
    intro i
    rw [heq, Nat.testBit_shiftLeft, Nat.testBit_two_pow_sub_one]
    by_cases h1 : cfg.endpointBits ≤ i
    · by_cases h2 : i < cfg.endpointBits + cfg.tenantBits + cfg.segmentBits
      · have h3 : i - cfg.endpointBits < cfg.tenantBits + cfg.segmentBits := by omega
        simp [h1, h2, h3]
      · have h3 : ¬ i - cfg.endpointBits < cfg.tenantBits + cfg.segmentBits := by omega
        simp [h1, h2, h3]
    · simp [h1]
  refine ⟨by rw [heq, Nat.shiftLeft_eq], hbit, ?_, ?_⟩
  · rw [heq, Nat.shiftLeft_eq]
    exact Nat.mul_mod_left _ _
  · apply Nat.lt_pow_two_of_testBit
    intro i hi
    rw [hbit i]
    have : ¬ i < cfg.endpointBits + cfg.tenantBits + cfg.segmentBits := by omega
    simp [this]

/-- Witness for C22: 4 tenant bits, 4 segment bits, 8 endpoint bits give the
mask `0xFF00`. -/
theorem prepareTenantSegmentMask_bits_witness :
    prepareTenantSegmentMask ⟨4, 4, 8⟩ = (2 ^ (4 + 4) - 1) * 2 ^ 8 ∧
    prepareTenantSegmentMask ⟨4, 4, 8⟩ = 0xFF00 ∧
    prepareTenantSegmentMask ⟨4, 4, 8⟩ < 2 ^ 32 :=
  have h := prepareTenantSegmentMask_bits ⟨4, 4, 8⟩ (by decide)
  ⟨h.1, by decide, h.2.2.2⟩

/-! ## Digit strings -/

theorem toDigitsCore_acc (b f n : Nat) (ds : List Char) :
    Nat.toDigitsCore b f n ds = Nat.toDigitsCore b f n [] ++ ds := by
  induction f generalizing n ds with
  | zero => simp [Nat.toDigitsCore]
  | succ f ih =>
    rw [Nat.toDigitsCore.eq_2, Nat.toDigitsCore.eq_2]
    by_cases h : n / b = 0
    · simp [h]
    · simp only [h, if_false]
      rw [ih (n / b) (Nat.digitChar (n % b) :: ds), ih (n / b) [Nat.digitChar (n % b)]]
      simp

theorem toDigitsCore_step (b f n : Nat) :
    Nat.toDigitsCore b (f + 1) n [] =
      if n / b = 0 then [Nat.digitChar (n % b)]
      else Nat.toDigitsCore b f (n / b) [] ++ [Nat.digitChar (n % b)] := by
  rw [Nat.toDigitsCore.eq_2]
  by_cases h : n / b = 0
  · simp [h]
  · simp only [h, if_false]
    exact toDigitsCore_acc b f (n / b) _

theorem digitsValue_append_single (val : Char → Nat) (b : Nat) (cs : List Char) (c : Char) :
    digitsValue val b (cs ++ [c]) = digitsValue val b cs * b + val c := by
  simp [digitsValue, List.foldl_append]

/-- With enough fuel the digits of `n` denote `n`. -/
theorem digitsValue_toDigitsCore (val : Char → Nat) (b : Nat) (hb : 1 < b)
    (hval : ∀ k, k < b → val (Nat.digitChar k) = k) (f n : Nat) (hf : n < f) :
    digitsValue val b (Nat.toDigitsCore b f n []) = n := by
  induction f generalizing n with
  | zero => exact absurd hf (Nat.not_lt_zero _)
  | succ f ih =>
    rw [toDigitsCore_step]
    by_cases h : n / b = 0
    · simp only [h, if_true]
      have hlt : n < b := (Nat.div_eq_zero_iff (by omega)).mp h
      simp [digitsValue, Nat.mod_eq_of_lt hlt, hval n hlt]
    · simp only [h, if_false]
      have hpos : 0 < n / b := Nat.pos_of_ne_zero h
      have hlt : n / b < n := Nat.div_lt_self (by
        rcases Nat.eq_zero_or_pos n with h0 | h0
        · rw [h0] at h; simp at h
        · exact h0) hb
      rw [digitsValue_append_single, ih (n / b) (by omega),
        hval (n % b) (Nat.mod_lt _ (by omega))]
      exact Nat.div_add_mod' n b

/-- Every digit of a decimal rendering is a decimal digit character. -/
theorem toDigitsCore_isDigit (f n : Nat) :
    ∀ c ∈ Nat.toDigitsCore 10 f n [], c.isDigit = true := by
  have hd : ∀ k, k < 10 → (Nat.digitChar k).isDigit = true := by decide
  induction f generalizing n with
  | zero => simp [Nat.toDigitsCore]
  | succ f ih =>
    rw [toDigitsCore_step]
    by_cases h : n / 10 = 0
    · simp only [h, if_true]
      intro c hc
      simp at hc
      rw [hc]
      exact hd _ (Nat.mod_lt _ (by decide))
    · simp only [h, if_false]
      intro c hc
      rcases List.mem_append.mp hc with hc | hc
      · exact ih _ c hc
      · simp at hc
        rw [hc]
        exact hd _ (Nat.mod_lt _ (by decide))

theorem decimal_data (n : Nat) : (decimal n).data = Nat.toDigits 10 n := rfl

/-- The `%d` rendering reads back to the number. -/
theorem decimal_value (n : Nat) : digitsValue decVal 10 (decimal n).data = n := by
  rw [decimal_data]
  exact digitsValue_toDigitsCore decVal 10 (by decide) (by decide) (n + 1) n (Nat.lt_succ_self n)

theorem decimal_injective (m n : Nat) (h : decimal m = decimal n) : m = n := by
  have h1 := decimal_value m
  rw [h, decimal_value n] at h1
  exact h1.symm

theorem decimal_isDigit (n : Nat) : ∀ c ∈ (decimal n).data, c.isDigit = true := by
  rw [decimal_data]
  exact toDigitsCore_isDigit (n + 1) n

/-- Every character of a rendering in base `b` is the digit character of a
number below `b`. -/
theorem toDigitsCore_mem (b : Nat) (hb : 0 < b) (f n : Nat) :
    ∀ c ∈ Nat.toDigitsCore b f n [], ∃ k, k < b ∧ c = Nat.digitChar k := by
  induction f generalizing n with
  | zero => simp [Nat.toDigitsCore]
  | succ f ih =>
    rw [toDigitsCore_step]
    by_cases h : n / b = 0
    · simp only [h, if_true]
      intro c hc
      simp at hc
      exact ⟨n % b, Nat.mod_lt _ hb, hc⟩
    · simp only [h, if_false]
      intro c hc
      rcases List.mem_append.mp hc with hc | hc
      · exact ih _ c hc
      · simp at hc
        exact ⟨n % b, Nat.mod_lt _ hb, hc⟩

theorem digitsValue_map (val : Char → Nat) (b : Nat) (g : Char → Char) (cs : List Char) :
    digitsValue val b (cs.map g) = digitsValue (fun c => val (g c)) b cs := by
  simp [digitsValue, List.foldl_map]

theorem hexUpper_data (n : Nat) : (hexUpper n).data = (Nat.toDigits 16 n).map Char.toUpper :=
  rfl

/-- The `%X` rendering reads back to the number. -/
theorem hexUpper_value (n : Nat) : digitsValue hexVal 16 (hexUpper n).data = n := by
  rw [hexUpper_data, digitsValue_map]
  exact digitsValue_toDigitsCore (fun c => hexVal c.toUpper) 16 (by decide) (by decide)
    (n + 1) n (Nat.lt_succ_self n)

/-- The `%X` rendering consists of decimal digits and the letters `A` to `F`. -/
theorem hexUpper_chars (n : Nat) : ∀ c ∈ (hexUpper n).data, c ∈ "0123456789ABCDEF".data := by
  have hk : ∀ k, k < 16 → (Nat.digitChar k).toUpper ∈ "0123456789ABCDEF".data := by decide
  intro c hc
  rw [hexUpper_data] at hc
  obtain ⟨c0, hc0, rfl⟩ := List.mem_map.mp hc
  obtain ⟨k, hk16, rfl⟩ := toDigitsCore_mem 16 (by decide) (n + 1) n c0 hc0
  exact hk k hk16

/-- Two lists of digits, each followed by the same character that is no digit,
and then by anything: the digits agree, and so does what follows. -/
theorem digits_split_unique (sep : Char) (hsep : sep.isDigit = false) (xs ys r1 r2 : List Char)
    (hx : ∀ c ∈ xs, c.isDigit = true) (hy : ∀ c ∈ ys, c.isDigit = true)
    (h : xs ++ sep :: r1 = ys ++ sep :: r2) : xs = ys ∧ r1 = r2 := by
  induction xs generalizing ys with
  | nil =>
    cases ys with
    | nil => simpa using h
    | cons y ys' =>
      simp only [List.nil_append, List.cons_append, List.cons.injEq] at h
      have := hy y (List.mem_cons_self _ _)
      rw [← h.1, hsep] at this
      exact Bool.noConfusion this
  | cons x xs' ih =>
    cases ys with
    | nil =>
      simp only [List.nil_append, List.cons_append, List.cons.injEq] at h
      have := hx x (List.mem_cons_self _ _)
      rw [h.1, hsep] at this
      exact Bool.noConfusion this
    | cons y ys' =>
      simp only [List.cons_append, List.cons.injEq] at h
      obtain ⟨h1, h2⟩ := ih ys' (fun c hc => hx c (List.mem_cons_of_mem _ hc))
        (fun c hc => hy c (List.mem_cons_of_mem _ hc)) h.2
      exact ⟨by rw [h.1, h1], h2⟩

/-! ## Chain names -/

/-- The characters of a per-interface chain name. -/
theorem chainName_data (t s : Nat) (b : String) :
    ("ROMANA-T" ++ decimal t ++ "S" ++ decimal s ++ "-" ++ b).data =
      "ROMANA-T".data ++ ((decimal t).data ++ 'S' :: ((decimal s).data ++ '-' :: b.data)) := by
  simp [String.data_append]

theorem chainName_injective (t1 s1 t2 s2 : Nat) (b1 b2 : String)
    (h : "ROMANA-T" ++ decimal t1 ++ "S" ++ decimal s1 ++ "-" ++ b1 =
      "ROMANA-T" ++ decimal t2 ++ "S" ++ decimal s2 ++ "-" ++ b2) :
    t1 = t2 ∧ s1 = s2 ∧ b1 = b2 := by
  have hd := congrArg String.data h
  rw [chainName_data, chainName_data] at hd
  have h1 := List.append_cancel_left hd
  obtain ⟨ht, hrest⟩ := digits_split_unique 'S' (by decide) _ _ _ _
    (decimal_isDigit t1) (decimal_isDigit t2) h1
  obtain ⟨hs, hb⟩ := digits_split_unique '-' (by decide) _ _ _ _
    (decimal_isDigit s1) (decimal_isDigit s2) hrest
  exact ⟨decimal_injective t1 t2 (String.ext ht), decimal_injective s1 s2 (String.ext hs),
    String.ext hb⟩

theorem vectorChainName_injective (t1 t2 : Nat)
    (h : "ROMANA-T" ++ decimal t1 = "ROMANA-T" ++ decimal t2) : t1 = t2 := by
  have hd := congrArg String.data h
  simp only [String.data_append] at hd
  exact decimal_injective t1 t2 (String.ext (List.append_cancel_left hd))

/-- C23, chain-name uniqueness: two per-interface chain names that
`prepareChainName` builds from the chain prefixes `ROMANA-T<t1>S<s1>-` and
`ROMANA-T<t2>S<s2>-` and the base names `b1` and `b2` are equal only if
`t1 = t2`, `s1 = s2` and `b1 = b2`; two tenant vector chain names
`ROMANA-T<t1>` and `ROMANA-T<t2>` are equal only if `t1 = t2`. -/
theorem chain_names_unique :
    (∀ (fw1 fw2 : IPtables) (t1 s1 t2 s2 : Nat) (b1 b2 : String),
      fw1.ChainPrefix = "ROMANA-T" ++ decimal t1 ++ "S" ++ decimal s1 ++ "-" →
      fw2.ChainPrefix = "ROMANA-T" ++ decimal t2 ++ "S" ++ decimal s2 ++ "-" →
      prepareChainName fw1 b1 = prepareChainName fw2 b2 →
      t1 = t2 ∧ s1 = s2 ∧ b1 = b2) ∧
    (∀ t1 t2 : Nat, "ROMANA-T" ++ decimal t1 = "ROMANA-T" ++ decimal t2 → t1 = t2) := by
  refine ⟨?_, vectorChainName_injective⟩
  intro fw1 fw2 t1 s1 t2 s2 b1 b2 h1 h2 h
  unfold prepareChainName at h
  rw [h1, h2] at h
  exact chainName_injective t1 s1 t2 s2 b1 b2 h

/-- Witness for C23: the input chain of the plan of `tap123`; and the names of
tenant 1, segment 23 and of tenant 12, segment 3 differ. -/
theorem chain_names_unique_witness :
    ((0 : Nat) = 0 ∧ (1 : Nat) = 1 ∧ "INPUT" = "INPUT") ∧
    prepareChainName demoFw "INPUT" = "ROMANA-T0S1-INPUT" ∧
    "ROMANA-T" ++ decimal 1 ++ "S" ++ decimal 23 ++ "-" ++ "INPUT" ≠
      "ROMANA-T" ++ decimal 12 ++ "S" ++ decimal 3 ++ "-" ++ "INPUT" :=
  ⟨chain_names_unique.1 demoFw demoFw 0 1 0 1 "INPUT" "INPUT" (by decide) (by decide) rfl,
   by decide, by decide⟩

/-! ## Existence checks -/

theorem isChainExist_eq {σ : Type} (env : Env σ) (fw : IPtables) (w : World σ) (chain : Nat)
    (c : IPtablesChain) (hc : fw.Chains[chain]? = some c) :
    isChainExist env fw w chain =
      (some (env.exec w.st iptablesCmd ["-L", c.ChainName]).1.isNone,
        ⟨(env.exec w.st iptablesCmd ["-L", c.ChainName]).2, w.log ++ [listEvent c]⟩) := by
  simp only [isChainExist, hc, osExec]
  cases h : (env.exec w.st iptablesCmd ["-L", c.ChainName]).1 <;> simp [listEvent]

/-- C24: the existence checks return a boolean and no error. For a chain index
in range `isChainExist` issues exactly the command `-L <ChainName>`, and
`isRuleExist` issues exactly the command `-C <rule body>`; each returns `true`
if and only if its command returned no error, so every failure of the command
is reported as `false`. -/
theorem existence_checks_swallow_errors {σ : Type} (env : Env σ) (fw : IPtables)
    (w : World σ) (chain : Nat) (c : IPtablesChain) (rule : IPtablesRule)
    (hc : fw.Chains[chain]? = some c) :
    (isChainExist env fw w chain).2.log =
      w.log ++ [Event.exec iptablesCmd ["-L", c.ChainName]] ∧
    (∃ found, (isChainExist env fw w chain).1 = some found ∧
      (found = true ↔ (env.exec w.st iptablesCmd ["-L", c.ChainName]).1 = none)) ∧
    (isRuleExist env w rule).2.log = w.log ++ [Event.exec iptablesCmd ["-C", rule.Body]] ∧
    ((isRuleExist env w rule).1 = true ↔
      (env.exec w.st iptablesCmd ["-C", rule.Body]).1 = none) := by
  rw [isChainExist_eq env fw w chain c hc, isRuleExist_fst, isRuleExist_snd]
  refine ⟨rfl, ⟨_, rfl, ?_⟩, rfl, ?_⟩
  · exact Option.isNone_iff_eq_none
  · exact Option.isNone_iff_eq_none

/-- Witness for C24: on the host where the first two chains exist, the check
of chain 0 answers `true` and the check of chain 2 answers `false`. -/
theorem existence_checks_swallow_errors_witness :
    (isChainExist simEnv demoFw (simWorld simTwoChains) 2).2.log =
      (simWorld simTwoChains).log ++ [Event.exec iptablesCmd ["-L", "ROMANA-T0S1-FORWARD"]] ∧
    (isChainExist simEnv demoFw (simWorld simTwoChains) 2).1 = some false ∧
    (isChainExist simEnv demoFw (simWorld simTwoChains) 0).1 = some true :=
  ⟨(existence_checks_swallow_errors simEnv demoFw (simWorld simTwoChains) 2
      ⟨"FORWARD", ["i"], [], "ROMANA-T0S1-FORWARD"⟩ demoJump rfl).1,
   by decide, by decide⟩

theorem stateAfterChecks_snoc {σ : Type} (env : Env σ) (chains : List IPtablesChain)
    (c : IPtablesChain) (st : σ) :
    stateAfterChecks env (chains ++ [c]) st =
      (env.exec (stateAfterChecks env chains st) iptablesCmd ["-L", c.ChainName]).2 := by
  simp [stateAfterChecks, List.foldl_append]

/-- The loop of `detectMissingChains` from index `s` on, started in the state
the checks of the chains before `s` left. -/
theorem detectLoop_range {σ : Type} (env : Env σ) (fw : IPtables) (st0 : σ) (k s : Nat)
    (ret : List Nat) (w : World σ) (hs : s + k ≤ fw.Chains.length)
    (hw : w.st = stateAfterChecks env (fw.Chains.take s) st0) :
    (detectLoop env fw (List.range' s k) ret w).1 =
      some (ret ++ (List.range' s k).filter (chainCheckFails env fw st0)) ∧
    (detectLoop env fw (List.range' s k) ret w).2.st =
      stateAfterChecks env (fw.Chains.take (s + k)) st0 ∧
    (detectLoop env fw (List.range' s k) ret w).2.log =
      w.log ++ ((fw.Chains.drop s).take k).map listEvent := by
  induction k generalizing s ret w with
  | zero => simp [detectLoop, hw]
  | succ k ih =>
    have hlt : s < fw.Chains.length := by omega
    have hc : fw.Chains[s]? = some fw.Chains[s] := List.getElem?_eq_getElem hlt
    have htake : fw.Chains.take (s + 1) = fw.Chains.take s ++ [fw.Chains[s]] := by
      rw [List.take_succ, hc]; rfl
    have hdrop : fw.Chains.drop s = fw.Chains[s] :: fw.Chains.drop (s + 1) :=
      List.drop_eq_getElem_cons hlt
    have hfail : chainCheckFails env fw st0 s =
        (env.exec w.st iptablesCmd ["-L", fw.Chains[s].ChainName]).1.isSome := by
      simp only [chainCheckFails, hc, hw]
    have hnext : (env.exec w.st iptablesCmd ["-L", fw.Chains[s].ChainName]).2 =
        stateAfterChecks env (fw.Chains.take (s + 1)) st0 := by
      rw [htake, stateAfterChecks_snoc, hw]
    rw [List.range'_succ]
    simp only [detectLoop, isChainExist_eq env fw w s _ hc]
    cases hres : (env.exec w.st iptablesCmd ["-L", fw.Chains[s].ChainName]).1 with
    | none =>
      have h := ih (s + 1) ret ⟨(env.exec w.st iptablesCmd ["-L", fw.Chains[s].ChainName]).2,
        w.log ++ [listEvent fw.Chains[s]]⟩ (by omega) hnext
      have hf : chainCheckFails env fw st0 s = false := by rw [hfail, hres]; rfl
      simp only [Option.isNone_none, Bool.not_true, Bool.false_eq_true, if_false]
      refine ⟨?_, ?_, ?_⟩
      · rw [h.1, List.filter_cons, hf]; simp
      · rw [h.2.1]; congr 2; omega
      · rw [h.2.2, hdrop, List.take_succ_cons, List.map_cons]
        simp only [List.append_assoc, List.singleton_append]
    | some e =>
      have h := ih (s + 1) (ret ++ [s])
        ⟨(env.exec w.st iptablesCmd ["-L", fw.Chains[s].ChainName]).2,
          w.log ++ [listEvent fw.Chains[s]]⟩ (by omega) hnext
      have hf : chainCheckFails env fw st0 s = true := by rw [hfail, hres]; rfl
      simp only [Option.isNone_some, Bool.not_false, if_true]
      refine ⟨?_, ?_, ?_⟩
      · rw [h.1, List.filter_cons, hf]; simp
      · rw [h.2.1]; congr 2; omega
      · rw [h.2.2, hdrop, List.take_succ_cons, List.map_cons]
        simp only [List.append_assoc, List.singleton_append]

/-- C25: `detectMissingChains` returns the indices `i` of `fw.Chains` whose
existence check fails, each check made after the checks of the chains before
it: the result is the list of those indices in ascending order, without
duplicates, and an index is in it exactly when it is an index of `fw.Chains`
and its check fails. The result is empty when no check fails, and the calls
made are exactly one existence check per chain, in the order of the chains. -/
theorem detectMissingChains_result {σ : Type} (env : Env σ) (fw : IPtables) (w : World σ) :
    (detectMissingChains env fw w).1 =
      some ((List.range fw.Chains.length).filter (chainCheckFails env fw w.st)) ∧
    ((List.range fw.Chains.length).filter (chainCheckFails env fw w.st)).Pairwise
      (fun i j => i < j) ∧
    ((List.range fw.Chains.length).filter (chainCheckFails env fw w.st)).Nodup ∧
    (∀ i, i ∈ (List.range fw.Chains.length).filter (chainCheckFails env fw w.st) ↔
      i < fw.Chains.length ∧ chainCheckFails env fw w.st i = true) ∧
    ((∀ i, i < fw.Chains.length → chainCheckFails env fw w.st i = false) →
      (detectMissingChains env fw w).1 = some []) ∧
    (detectMissingChains env fw w).2.log = w.log ++ fw.Chains.map listEvent := by
  have h := detectLoop_range env fw w.st fw.Chains.length 0 [] w (by omega)
    (by simp [stateAfterChecks])
  rw [← List.range_eq_range'] at h
  have hres : (detectMissingChains env fw w).1 =
      some ((List.range fw.Chains.length).filter (chainCheckFails env fw w.st)) := by
    rw [detectMissingChains, h.1]; simp
  refine ⟨hres, ?_, ?_, ?_, ?_, ?_⟩
  · exact List.Pairwise.filter _ (List.pairwise_lt_range _)
  · exact List.Nodup.filter _ (List.nodup_range _)
  · intro i
    simp [List.mem_filter]
  · intro hall
    rw [hres]
    congr 1
    apply List.filter_eq_nil_iff.mpr
    intro i hi
    rw [hall i (List.mem_range.mp hi)]
    exact Bool.false_ne_true
  · rw [detectMissingChains, h.2.2]; simp

/-- Witness for C25: on the host where the four chains exist the result is
empty; on the host where the first two exist it is `[2, 3]`. -/
theorem detectMissingChains_result_witness :
    (detectMissingChains simEnv demoFw (simWorld simAllChains)).1 = some [] ∧
    (detectMissingChains simEnv demoFw (simWorld simTwoChains)).1 = some [2, 3] ∧
    (detectMissingChains simEnv demoFw (simWorld simTwoChains)).2.log =
      (simWorld simTwoChains).log ++ demoFw.Chains.map listEvent :=
  ⟨(detectMissingChains_result simEnv demoFw (simWorld simAllChains)).2.2.2.2.1 (by decide),
   by decide,
   (detectMissingChains_result simEnv demoFw (simWorld simTwoChains)).2.2.2.2.2⟩

/-! ## `ipToInt` and `MaskToInt` -/

/-- C27, at an IPv4 address in the 4-byte form: `ipToInt` reads the bytes 12
to 15, which a 4-byte `net.IP` does not have, so it panics for every such
address; for the 16-byte form of 10.0.1.4 it returns `0x0A000104`. -/
theorem ipToInt_fails_on_four_byte_form :
    (∀ a b c d : Nat, ipToInt [a, b, c, d] = none) ∧
    ipToInt [10, 0, 1, 4] = none ∧
    ipToInt (ipv4 10 0 1 4) = some 0x0A000104 :=
  ⟨fun _ _ _ _ => rfl, rfl, by decide⟩

/-- The digit loop of `ParseUint` on hexadecimal digit characters, as long as
the value stays below `16^15`. -/
theorem parseUintLoop_digits (ks : List Nat) (n m : Nat) (hk : ∀ k ∈ ks, k < 16)
    (hn : n < 16 ^ m) (hm : m + ks.length ≤ 15) :
    parseUintLoop (ks.map Nat.digitChar) n = (ks.foldl (fun a k => a * 16 + k) n, none) := by
  have hdv : ∀ k, k < 16 → digitVal (Nat.digitChar k) = some k := by decide
  induction ks generalizing n m with
  | nil => rfl
  | cons k rest ih =>
    have hk16 : k < 16 := hk k (List.mem_cons_self _ _)
    have hpow : (16 : Nat) ^ m ≤ 16 ^ 14 := Nat.pow_le_pow_right (by decide) (by
      simp only [List.length_cons] at hm; omega)
    have h14 : (16 : Nat) ^ 14 < 2 ^ 60 := by decide
    have h60 : (2 : Nat) ^ 60 * 16 = 2 ^ 64 := by decide
    have hn60 : n < 2 ^ 60 := by omega
    have hstep : n * 16 + k < 16 ^ (m + 1) := by
      rw [Nat.pow_succ]; omega
    simp only [List.map_cons, parseUintLoop, hdv k hk16]
    have e1 : (n * 16) % 2 ^ 64 = n * 16 := Nat.mod_eq_of_lt (by omega)
    have e2 : (n * 16 + k) % 2 ^ 64 = n * 16 + k := Nat.mod_eq_of_lt (by omega)
    have c1 : ¬ k ≥ 16 := by omega
    have c2 : ¬ n ≥ 2 ^ 60 := by omega
    have c3 : ¬ n * 16 + k < n * 16 := by omega
    simp only [c1, c2, if_false, e1, e2, c3, List.foldl_cons]
    exact ih (n * 16 + k) (m + 1) (fun k' hk' => hk k' (List.mem_cons_of_mem _ hk')) hstep
      (by simp only [List.length_cons] at hm; omega)

/-- The rendering of a 4-byte mask: eight hexadecimal digit characters. -/
theorem maskString_four (b0 b1 b2 b3 : Nat) :
    (maskString [b0, b1, b2, b3]).data =
      [b0 % 256 / 16, b0 % 16, b1 % 256 / 16, b1 % 16, b2 % 256 / 16, b2 % 16,
        b3 % 256 / 16, b3 % 16].map Nat.digitChar := by
  simp [maskString, List.flatMap]

/-- `ParseInt` on a string of at most 15 hexadecimal digit characters, the
first of which there is: the value the digits denote, and no error. -/
theorem parseInt_digits (s : String) (k : Nat) (ks : List Nat)
    (hs : s.data = (k :: ks).map Nat.digitChar) (hk : ∀ j ∈ k :: ks, j < 16)
    (hlen : (k :: ks).length ≤ 15) :
    parseInt s = ((((k :: ks).foldl (fun a j => a * 16 + j) 0 : Nat) : Int), none) := by
  have hsign : ∀ j, j < 16 → Nat.digitChar j ≠ '+' ∧ Nat.digitChar j ≠ '-' := by decide
  have hk16 : k < 16 := hk k (List.mem_cons_self _ _)
  have hloop := parseUintLoop_digits (k :: ks) 0 0 hk (by decide) (by omega)
  have hval : (k :: ks).foldl (fun a j => a * 16 + j) 0 < 2 ^ 63 := by
    have hgen : ∀ (l : List Nat) (n m : Nat), (∀ j ∈ l, j < 16) → n < 16 ^ m →
        l.foldl (fun a j => a * 16 + j) n < 16 ^ (m + l.length) := by
      intro l
      induction l with
      | nil => intro n m _ hn; simpa using hn
      | cons j rest ih =>
        intro n m hj hn
        have hj16 : j < 16 := hj j (List.mem_cons_self _ _)
        have hstep : n * 16 + j < 16 ^ (m + 1) := by rw [Nat.pow_succ]; omega
        have := ih (n * 16 + j) (m + 1) (fun j' hj' => hj j' (List.mem_cons_of_mem _ hj')) hstep
        simpa [List.length_cons, Nat.add_assoc, Nat.add_comm 1] using this
    have h1 := hgen (k :: ks) 0 0 hk (by decide)
    have h2 : (16 : Nat) ^ (0 + (k :: ks).length) ≤ 16 ^ 15 :=
      Nat.pow_le_pow_right (by decide) (by omega)
    have h3 : (16 : Nat) ^ 15 < 2 ^ 63 := by decide
    omega
  have hhead : s.data.head? = some (Nat.digitChar k) := by rw [hs]; rfl
  have hlen0 : ¬ s.data.length = 0 := by rw [hs]; simp
  have hplus : ¬ (s.data.head? = some '+' ∨ s.data.head? = some '-') := by
    rw [hhead]
    simp only [Option.some.injEq]
    exact fun h => h.elim (hsign k hk16).1 (hsign k hk16).2
  have hminus : ¬ s.data.head? = some '-' := fun h => hplus (Or.inr h)
  have hu : parseUint s.data = ((k :: ks).foldl (fun a j => a * 16 + j) 0, none) := by
    unfold parseUint
    rw [if_neg hlen0, hs]
    exact hloop
  have hp1 : ¬ s.data.head? = some '+' := fun h => hplus (Or.inl h)
  have c1 : ¬ ((k :: ks).foldl (fun a j => a * 16 + j) 0 ≥ 2 ^ 63) := by omega
  have c2 : ¬ (2 ^ 63 ≤ List.foldl (fun a j => a * 16 + j) (0 * 16 + k) ks) := c1
  unfold parseInt
  simp only [hlen0, if_false, hp1, hminus, or_self, hu]
  simp only [List.foldl_cons, Nat.zero_mul, Nat.zero_add] at c2 hval ⊢
  have c3 : (2 : Nat) ^ 63 = 9223372036854775808 := by decide
  simp
  omega

theorem MaskToInt_four (b0 b1 b2 b3 : Nat) :
    MaskToInt [b0, b1, b2, b3] =
      (b0 % 256 * 2 ^ 24 + b1 % 256 * 2 ^ 16 + b2 % 256 * 2 ^ 8 + b3 % 256, none) := by
  have hp := parseInt_digits (maskString [b0, b1, b2, b3]) (b0 % 256 / 16)
    [b0 % 16, b1 % 256 / 16, b1 % 16, b2 % 256 / 16, b2 % 16, b3 % 256 / 16, b3 % 16]
    (maskString_four b0 b1 b2 b3)
    (by
      intro j hj
      simp only [List.mem_cons, List.mem_singleton, List.not_mem_nil, or_false] at hj
      rcases hj with h | h | h | h | h | h | h | h <;> omega)
    (by simp)
  have hv : [b0 % 256 / 16, b0 % 16, b1 % 256 / 16, b1 % 16, b2 % 256 / 16, b2 % 16,
        b3 % 256 / 16, b3 % 16].foldl (fun a j => a * 16 + j) 0 =
      b0 % 256 * 2 ^ 24 + b1 % 256 * 2 ^ 16 + b2 % 256 * 2 ^ 8 + b3 % 256 := by
    simp only [List.foldl_cons, List.foldl_nil]
    omega
  rw [hv] at hp
  have hlt : b0 % 256 * 2 ^ 24 + b1 % 256 * 2 ^ 16 + b2 % 256 * 2 ^ 8 + b3 % 256 < 2 ^ 64 := by
    omega
  unfold MaskToInt
  simp only [hp]
  congr 1
  have : ((b0 % 256 * 2 ^ 24 + b1 % 256 * 2 ^ 16 + b2 % 256 * 2 ^ 8 + b3 % 256 : Nat) : Int) %
      ((2 ^ 64 : Nat) : Int) =
      ((b0 % 256 * 2 ^ 24 + b1 % 256 * 2 ^ 16 + b2 % 256 * 2 ^ 8 + b3 % 256 : Nat) : Int) := by
    rw [← Int.natCast_mod, Nat.mod_eq_of_lt hlt]
  have h64 : ((2 ^ 64 : Nat) : Int) = (2 ^ 64 : Int) := by norm_num
  rw [h64] at this
  rw [this, Int.toNat_ofNat]

/-- C28: for every 4-byte mask `MaskToInt` returns no error and the 32-bit
integer whose big-endian bytes are the bytes of the mask; `ff000000` gives
`0xFF000000`, and `PseudoNetNetmaskInt` passes that value on. For any mask, an
error is returned only when parsing the hexadecimal rendering of the mask
fails, it is that parse error, and the value returned with it is `0`. -/
theorem MaskToInt_four_bytes :
    (∀ b0 b1 b2 b3 : Nat,
      MaskToInt [b0, b1, b2, b3] =
        (b0 % 256 * 2 ^ 24 + b1 % 256 * 2 ^ 16 + b2 % 256 * 2 ^ 8 + b3 % 256, none) ∧
      (MaskToInt [b0, b1, b2, b3]).1 < 2 ^ 32) ∧
    MaskToInt [0xff, 0, 0, 0] = (0xFF000000, none) ∧
    (∀ (ip : List Nat) (b0 b1 b2 b3 : Nat),
      PseudoNetNetmaskInt (Except.ok ⟨ip, [b0, b1, b2, b3]⟩) =
        (b0 % 256 * 2 ^ 24 + b1 % 256 * 2 ^ 16 + b2 % 256 * 2 ^ 8 + b3 % 256, none)) ∧
    (∀ (mask : List Nat) (e : String), (MaskToInt mask).2 = some e →
      (parseInt (maskString mask)).2 = some e ∧ (MaskToInt mask).1 = 0) := by
  refine ⟨?_, ?_, ?_, ?_⟩
  · intro b0 b1 b2 b3
    rw [MaskToInt_four]
    refine ⟨rfl, ?_⟩
    show b0 % 256 * 2 ^ 24 + b1 % 256 * 2 ^ 16 + b2 % 256 * 2 ^ 8 + b3 % 256 < 2 ^ 32
    omega
  · rw [MaskToInt_four]; rfl
  · intro ip b0 b1 b2 b3
    simp [PseudoNetNetmaskInt, MaskToInt_four]
  · intro mask e h
    unfold MaskToInt at h ⊢
    cases hp : (parseInt (maskString mask)).2 with
    | none => simp [hp] at h
    | some e' =>
      simp only [hp] at h ⊢
      exact ⟨h, trivial⟩

/-- Witness for C28: the empty mask renders as `<nil>`, which does not parse;
the mask `ffffff00` gives `0xFFFFFF00`. -/
theorem MaskToInt_four_bytes_witness :
    ((parseInt (maskString [])).2 = some (numErrorText "<nil>" NumError.errSyntax) ∧
      (MaskToInt []).1 = 0) ∧
    MaskToInt [255, 255, 255, 0] = (0xFFFFFF00, none) :=
  ⟨MaskToInt_four_bytes.2.2.2 [] (numErrorText "<nil>" NumError.errSyntax) rfl,
   by decide⟩

/-! ## The filter expression -/

/-- C21: when the accessor of the pseudo network CIDR succeeds, its mask
parses, and the address has the integer value `addr`, `prepareU32Rules`
returns the filter `12&0x<M>=0x<V> && 16&0x<M>=0x<V>`, with `M` the `%X`
rendering of `fullMask = cidrMask | tenantSegmentMask` and `V` that of
`addr & fullMask`, the same at offsets 12 and 16. For 10.0.1.4 in the pseudo
network 10.0.0.0/8 with 4 tenant, 4 segment and 8 endpoint bits the filter is
`12&0xFF00FF00=0xA000100 && 16&0xFF00FF00=0xA000100`. The `%X` rendering of
a number consists of the characters `0`-`9`, `A`-`F` and reads back, in base
16, to that number. -/
theorem prepareU32Rules_filter (pnet : Except String IPNet) (cfg : NetConfig)
    (ip : List Nat) (cidr : IPNet) (addr : Nat)
    (hp : pnet = Except.ok cidr)
    (hparse : (parseInt (maskString cidr.Mask)).2 = none)
    (hip : ipToInt ip = some addr) :
    (∃ pfx, prepareU32Rules pnet cfg ip =
      some ("12&0x" ++ hexUpper ((MaskToInt cidr.Mask).1 ||| prepareTenantSegmentMask cfg) ++
        "=0x" ++
        hexUpper (addr &&& ((MaskToInt cidr.Mask).1 ||| prepareTenantSegmentMask cfg)) ++
        " && 16&0x" ++
        hexUpper ((MaskToInt cidr.Mask).1 ||| prepareTenantSegmentMask cfg) ++ "=0x" ++
        hexUpper (addr &&& ((MaskToInt cidr.Mask).1 ||| prepareTenantSegmentMask cfg)),
        pfx, none)) ∧
    (prepareU32Rules demoPNet ⟨4, 4, 8⟩ (ipv4 10 0 1 4)).map (fun r => r.1) =
      some "12&0xFF00FF00=0xA000100 && 16&0xFF00FF00=0xA000100" ∧
    (∀ n : Nat, digitsValue hexVal 16 (hexUpper n).data = n ∧
      ∀ c ∈ (hexUpper n).data, c ∈ "0123456789ABCDEF".data) := by
  subst hp
  have herr : (PseudoNetNetmaskInt (Except.ok cidr)).2 = none := by
    rw [PseudoNetNetmaskInt_err]; exact hparse
  have hm : (MaskToInt cidr.Mask).2 = none := by
    simp only [MaskToInt, hparse]
  have hfull : (prepareNetmaskBits (Except.ok cidr) cfg).1 =
      (MaskToInt cidr.Mask).1 ||| prepareTenantSegmentMask cfg := by
    simp [prepareNetmaskBits, PseudoNetNetmaskInt, hm]
  refine ⟨⟨"ROMANA-T" ++ decimal (extractTenantID cfg addr) ++ "S" ++
    decimal (extractSegmentID cfg addr) ++ "-", ?_⟩, by decide,
    fun n => ⟨hexUpper_value n, hexUpper_chars n⟩⟩
  rw [prepareU32Rules_ok (Except.ok cidr) cfg ip addr herr hip, hfull]
  have hf : ∀ m v : String, "12&" ++ ("0x" ++ m ++ "=0x" ++ v) ++ " && 16&" ++
      ("0x" ++ m ++ "=0x" ++ v) =
      "12&0x" ++ m ++ "=0x" ++ v ++ " && 16&0x" ++ m ++ "=0x" ++ v := by
    intro m v
    apply String.ext
    simp [String.data_append]
  rw [hf]

/-- Witness for C21: 10.0.35.7 in the pseudo network 10.0.0.0/8. -/
theorem prepareU32Rules_filter_witness :
    ∃ pfx, prepareU32Rules demoPNet ⟨4, 4, 8⟩ (ipv4 10 0 35 7) =
      some ("12&0x" ++ hexUpper ((MaskToInt [255, 0, 0, 0]).1 |||
          prepareTenantSegmentMask ⟨4, 4, 8⟩) ++ "=0x" ++
        hexUpper (0x0A002307 &&& ((MaskToInt [255, 0, 0, 0]).1 |||
          prepareTenantSegmentMask ⟨4, 4, 8⟩)) ++ " && 16&0x" ++
        hexUpper ((MaskToInt [255, 0, 0, 0]).1 ||| prepareTenantSegmentMask ⟨4, 4, 8⟩) ++
        "=0x" ++
        hexUpper (0x0A002307 &&& ((MaskToInt [255, 0, 0, 0]).1 |||
          prepareTenantSegmentMask ⟨4, 4, 8⟩)),
        pfx, none) :=
  (prepareU32Rules_filter demoPNet ⟨4, 4, 8⟩ (ipv4 10 0 35 7) ⟨[10, 0, 0, 0], [255, 0, 0, 0]⟩
    0x0A002307 rfl (by decide) (by decide)).1

/-! ## `SetDefaultRules` -/

/-- The loop of `SetDefaultRules` on pairwise distinct pointers to objects:
every object of the list gets the chain name in front of its body once, every
other object stays as it is. -/
theorem setBodiesLoop_distinct (chains : List ChainCell) (i : Nat) (c : ChainCell)
    (hc : chains[i]? = some c) (rules : List Nat) :
    ∀ objects : List IPtablesRule, (∀ p ∈ rules, p < objects.length) → rules.Nodup →
    ∃ objs, setBodiesLoop chains i rules objects = some objs ∧
      objs.length = objects.length ∧
      (∀ p ∈ rules, ∀ r, objects[p]? = some r →
        objs[p]? = some { r with Body := c.ChainName ++ " " ++ r.Body }) ∧
      (∀ p, p ∉ rules → objs[p]? = objects[p]?) := by
  induction rules with
  | nil =>
    intro objects _ _
    exact ⟨objects, rfl, rfl, fun p hp => absurd hp (List.not_mem_nil p), fun _ _ => rfl⟩
  | cons p rest ih =>
    intro objects hv hd
    have hp : p < objects.length := hv p (List.mem_cons_self _ _)
    have hget : objects[p]? = some objects[p] := List.getElem?_eq_getElem hp
    obtain ⟨hpn, hdr⟩ := List.nodup_cons.mp hd
    obtain ⟨objs, hrun, hlen, hin, hout⟩ :=
      ih (objects.set p { objects[p] with Body := c.ChainName ++ " " ++ objects[p].Body })
        (fun q hq => by rw [List.length_set]; exact hv q (List.mem_cons_of_mem _ hq)) hdr
    refine ⟨objs, ?_, ?_, ?_, ?_⟩
    · simp only [setBodiesLoop, hc, hget]
      exact hrun
    · rw [hlen, List.length_set]
    · intro q hq r hr
      rcases List.mem_cons.mp hq with rfl | hq'
      · rw [hout q hpn, List.getElem?_set_self hp]
        rw [hget] at hr
        rw [Option.some.inj hr]
      · have hne : p ≠ q := fun h => hpn (h ▸ hq')
        exact hin q hq' r (by rw [List.getElem?_set_ne hne]; exact hr)
    · intro q hq
      have hne : p ≠ q := fun h => hq (h ▸ List.mem_cons_self _ _)
      rw [hout q (fun h => hq (List.mem_cons_of_mem _ h)), List.getElem?_set_ne hne]

/-- Following pointers whose objects were changed by `f`. -/
theorem derefRules_map (f : IPtablesRule → IPtablesRule) (objects objs : List IPtablesRule)
    (ps : List Nat) (h : ∀ p ∈ ps, ∀ r, objects[p]? = some r → objs[p]? = some (f r))
    (rs : List IPtablesRule) (hrs : derefRules objects ps = some rs) :
    derefRules objs ps = some (rs.map f) := by
  induction ps generalizing rs with
  | nil =>
    simp only [derefRules, Option.some.injEq] at hrs
    subst hrs
    rfl
  | cons p rest ih =>
    cases hp : objects[p]? with
    | none => simp [derefRules, hp] at hrs
    | some r =>
      cases hr : derefRules objects rest with
      | none => simp [derefRules, hp, hr] at hrs
      | some rs0 =>
        simp only [derefRules, hp, hr, Option.some.injEq] at hrs
        subst hrs
        have h1 := h p (List.mem_cons_self _ _) r hp
        have h2 := ih (fun q hq => h q (List.mem_cons_of_mem _ hq)) rs0 hr
        simp [derefRules, h1, h2]

/-- Following pointers whose objects were not changed. -/
theorem derefRules_congr (objects objs : List IPtablesRule) (ps : List Nat)
    (h : ∀ p ∈ ps, objs[p]? = objects[p]?) : derefRules objs ps = derefRules objects ps := by
  induction ps with
  | nil => rfl
  | cons p rest ih =>
    simp only [derefRules, h p (List.mem_cons_self _ _),
      ih (fun q hq => h q (List.mem_cons_of_mem _ hq))]

/-- One call of `SetDefaultRules` with a chain index in range and pairwise
distinct pointers to objects. -/
theorem SetDefaultRules_once (m : PlanMemory) (rules : List Nat) (i : Nat) (c : ChainCell)
    (hc : m.chains[i]? = some c) (hv : ∀ p ∈ rules, p < m.objects.length)
    (hd : rules.Nodup) :
    ∃ m1, SetDefaultRules m rules i = some m1 ∧
      m1.objects.length = m.objects.length ∧
      (∀ p ∈ rules, ∀ r, m.objects[p]? = some r →
        m1.objects[p]? = some { r with Body := c.ChainName ++ " " ++ r.Body }) ∧
      (∀ p, p ∉ rules → m1.objects[p]? = m.objects[p]?) ∧
      m1.chains[i]? = some { c with Rules := rules } ∧
      (∀ j, j ≠ i → m1.chains[j]? = m.chains[j]?) := by
  obtain ⟨objs, hrun, hlen, hin, hout⟩ :=
    setBodiesLoop_distinct m.chains i c hc rules m.objects hv hd
  have hi : i < m.chains.length := by
    rcases Nat.lt_or_ge i m.chains.length with h | h
    · exact h
    · rw [List.getElem?_eq_none h] at hc
      exact Option.noConfusion hc
  refine ⟨{ objects := objs, chains := m.chains.set i { c with Rules := rules } }, ?_, hlen,
    hin, hout, List.getElem?_set_self hi, fun j hj => List.getElem?_set_ne (Ne.symm hj)⟩
  simp only [SetDefaultRules, hrun, hc]

/-- C31 as stated fails where a rule of the list is attached to another chain
or occurs twice in the list. With one rule object, `SetDefaultRules(rules, 0)`
followed by `SetDefaultRules(rules, 1)` on the same slice changes the rule of
chain 0, which then reads `ROMANA-T0S1-OUTPUT ROMANA-T0S1-INPUT -p icmp -j
ACCEPT`; and a slice that holds the same pointer twice gets the chain name in
front of that rule twice in one call. -/
theorem SetDefaultRules_shared_rule_changes :
    (SetDefaultRules demoMemory [0] 0).bind (fun m1 => m1.chainAt 0) =
      some (IPtablesChain.mk "INPUT" ["i"]
        [IPtablesRule.mk "ROMANA-T0S1-INPUT -p icmp -j ACCEPT" opSwitchIPtables.setRuleInactive]
        "ROMANA-T0S1-INPUT") ∧
    ((SetDefaultRules demoMemory [0] 0).bind (fun m1 => SetDefaultRules m1 [0] 1)).bind
        (fun m2 => m2.chainAt 0) =
      some (IPtablesChain.mk "INPUT" ["i"]
        [IPtablesRule.mk "ROMANA-T0S1-OUTPUT ROMANA-T0S1-INPUT -p icmp -j ACCEPT"
          opSwitchIPtables.setRuleInactive]
        "ROMANA-T0S1-INPUT") ∧
    ((SetDefaultRules demoMemory [0] 0).bind (fun m1 => SetDefaultRules m1 [0] 1)).bind
        (fun m2 => m2.chainAt 0) ≠
      (SetDefaultRules demoMemory [0] 0).bind (fun m1 => m1.chainAt 0) ∧
    (SetDefaultRules demoMemory [0, 0] 0).bind (fun m1 => m1.objects[0]?) =
      some (IPtablesRule.mk "ROMANA-T0S1-INPUT ROMANA-T0S1-INPUT -p icmp -j ACCEPT"
        opSwitchIPtables.setRuleInactive) ∧
    (SetDefaultRules demoMemory [0, 0] 0).bind (fun m1 => m1.objects[0]?) ≠
      some (IPtablesRule.mk ("ROMANA-T0S1-INPUT" ++ " " ++ "-p icmp -j ACCEPT")
        opSwitchIPtables.setRuleInactive) := by
  decide

/-- C31, amended: for a chain index `i` in range and a list of pairwise
distinct pointers to rule objects, `SetDefaultRules(rules, i)` replaces the
body `b` of each rule of the list by `<name of chain i> ` followed by `b` and
attaches exactly that list, in order, as the rules of chain `i`, so that the
chain reads as before with the prefixed rules. Every rule object outside the
list and the names, directions and rule pointers of every other chain are
left as they are, so a chain that holds no rule of the list reads as before.
Applied a second time to the same rules, it puts the chain name in front of
each body a second time. -/
theorem SetDefaultRules_effect (m : PlanMemory) (rules : List Nat) (i : Nat) (c : ChainCell)
    (hc : m.chains[i]? = some c) (hv : ∀ p ∈ rules, p < m.objects.length)
    (hd : rules.Nodup) :
    ∃ m1 m2, SetDefaultRules m rules i = some m1 ∧
      (∀ p ∈ rules, ∀ r, m.objects[p]? = some r →
        m1.objects[p]? = some { r with Body := c.ChainName ++ " " ++ r.Body }) ∧
      m1.chains[i]? = some { c with Rules := rules } ∧
      (∀ rs, derefRules m.objects rules = some rs →
        m1.chainAt i = some (IPtablesChain.mk c.BaseChain c.Directions
          (rs.map (fun r => { r with Body := c.ChainName ++ " " ++ r.Body })) c.ChainName)) ∧
      (∀ p, p ∉ rules → m1.objects[p]? = m.objects[p]?) ∧
      (∀ j, j ≠ i → m1.chains[j]? = m.chains[j]?) ∧
      (∀ j cj, j ≠ i → m.chains[j]? = some cj → (∀ p ∈ cj.Rules, p ∉ rules) →
        m1.chainAt j = m.chainAt j) ∧
      SetDefaultRules m1 rules i = some m2 ∧
      (∀ p ∈ rules, ∀ r, m.objects[p]? = some r →
        m2.objects[p]? =
          some { r with Body := c.ChainName ++ " " ++ (c.ChainName ++ " " ++ r.Body) }) := by
  obtain ⟨m1, hrun1, hlen1, hin1, hout1, hch1, hfr1⟩ := SetDefaultRules_once m rules i c hc hv hd
  obtain ⟨m2, hrun2, -, hin2, -, -, -⟩ :=
    SetDefaultRules_once m1 rules i { c with Rules := rules } hch1
      (fun p hp => by rw [hlen1]; exact hv p hp) hd
  refine ⟨m1, m2, hrun1, hin1, hch1, ?_, hout1, hfr1, ?_, hrun2, ?_⟩
  · intro rs hrs
    have h := derefRules_map (fun r => { r with Body := c.ChainName ++ " " ++ r.Body })
      m.objects m1.objects rules hin1 rs hrs
    simp only [PlanMemory.chainAt, hch1, h]
  · intro j cj hj hcj hdis
    have h := derefRules_congr m.objects m1.objects cj.Rules (fun p hp => hout1 p (hdis p hp))
    simp only [PlanMemory.chainAt, hfr1 j hj, hcj, h]
  · intro p hp r hr
    exact hin2 p hp _ (hin1 p hp r hr)

/-- Witness for C31: two rules set on the input chain of the demonstration
memory, twice. -/
theorem SetDefaultRules_effect_witness :
    ∃ m1 m2, SetDefaultRules demoMemory [0, 1] 0 = some m1 ∧
      m1.chains[0]? = some (ChainCell.mk "INPUT" ["i"] [0, 1] "ROMANA-T0S1-INPUT") ∧
      SetDefaultRules m1 [0, 1] 0 = some m2 :=
  (SetDefaultRules_effect demoMemory [0, 1] 0 (ChainCell.mk "INPUT" ["i"] [] "ROMANA-T0S1-INPUT")
    rfl (by decide) (by decide)).imp
    (fun _ h => h.imp (fun _ h2 => ⟨h2.1, h2.2.2.1, h2.2.2.2.2.2.2.2.1⟩))

/-! ## Removing the jump rules -/

/-- The simulated host meets the assumptions of the removal claim. -/
theorem simHostModel : HostModel simEnv SimState.ledger SimState.rules where
  add_kernel := by
    intro st rule
    show (simAdd st rule).2.rules = st.rules
    unfold simAdd
    split <;> rfl
  switch_kernel := by
    intro st rule op
    show (simSwitch st rule op).2.rules = st.rules
    unfold simSwitch
    split <;> rfl
  check_finds := by
    intro st body h
    show (simExec st iptablesCmd ["-C", body]).1 = none
    simp [simExec, h]
  check_kernel := by
    intro st body
    show (simExec st iptablesCmd ["-C", body]).2.rules = st.rules
    simp only [simExec]
    split <;> rfl
  delete_count := by
    intro st body b h
    show (simExec st iptablesCmd ["-D", body]).2.rules.count b = _
    have h1 : (simExec st iptablesCmd ["-D", body]).1 = none := h
    by_cases hrej : ["-D", body] ∈ st.rejected
    · simp [simExec, hrej] at h1
    · by_cases hin : body ∈ st.rules
      · simp only [simExec, hrej, hin, if_true, if_false]
        rw [List.count_erase]
        by_cases hb : b = body
        · simp [hb]
        · have hb2 : ¬ body = b := fun hh => hb hh.symm
          simp [hb, hb2]
      · simp [simExec, hrej, hin] at h1
  exec_ledger := simLedgerModel.exec_frame
  add_keeps := by
    intro st rule r0 hr0
    show r0 ∈ (simAdd st rule).2.ledger
    unfold simAdd
    split
    · exact hr0
    · exact List.mem_append_left _ hr0
  switch_sets := by
    intro st rule op h
    show IPtablesRule.mk rule.Body op ∈ (simSwitch st rule op).2.ledger
    have h1 : (simSwitch st rule op).1 = none := h
    unfold simSwitch at h1 ⊢
    by_cases hh : simHas st rule = true
    · simp only [hh, if_true]
      unfold simHas at hh
      obtain ⟨r, hr, hb⟩ := List.any_eq_true.mp hh
      have hb2 : r.Body = rule.Body := by simpa using hb
      exact List.mem_map.mpr ⟨r, hr, by simp [hb2]⟩
    · simp [hh] at h1
  switch_keeps := simLedgerModel.switch_frame

/-- The body of a jump rule determines its direction. -/
theorem divertRule_body_injective (fw : IPtables) (chain : IPtablesChain) (d1 d2 : String)
    (h : (divertRule fw chain d1).Body = (divertRule fw chain d2).Body) : d1 = d2 := by
  rw [divertRule_body, divertRule_body] at h
  have hd := congrArg String.data h
  simp only [String.data_append, List.append_assoc] at hd
  have h1 := List.append_cancel_left (List.append_cancel_left hd)
  exact String.ext (List.append_cancel_right h1)

/-- The last of the three steps succeeded when `applyRule` did. -/
theorem applyRule_ok_switch {σ : Type} (env : Env σ) (w : World σ) (rule : IPtablesRule)
    (state : RuleState) (h : (applyRule env w rule state).1 = none) :
    (env.switchIPtablesRule (EnsureRule env (storeAdd env w rule).2 rule state).2.st rule
      opSwitchIPtables.setRuleActive).1 = none := by
  obtain ⟨h0, h1, -⟩ := applyRule_ok env w rule state h
  have ha : addIPtablesRule env w rule = (none, (storeAdd env w rule).2) := by
    simp [addIPtablesRule, storeAdd, h0]
  cases h2 : (env.switchIPtablesRule (EnsureRule env (storeAdd env w rule).2 rule state).2.st
      rule opSwitchIPtables.setRuleActive).1 with
  | none => rfl
  | some e => simp [applyRule, ha, h1, storeSwitch, h2] at h

/-- The three steps on one jump rule that the kernel has, with placement
`ensureAbsent`, when they succeed. -/
theorem applyRule_remove_installed {σ : Type} (env : Env σ)
    (ledger : σ → List IPtablesRule) (kernel : σ → List String)
    (H : HostModel env ledger kernel) (w : World σ) (rule : IPtablesRule)
    (hin : rule.Body ∈ kernel w.st)
    (hok : (applyRule env w rule RuleState.ensureAbsent).1 = none) :
    (applyRule env w rule RuleState.ensureAbsent).2.log = w.log ++ removeTrace rule ∧
    IPtablesRule.mk rule.Body opSwitchIPtables.setRuleActive ∈
      ledger (applyRule env w rule RuleState.ensureAbsent).2.st ∧
    (∀ b, (kernel (applyRule env w rule RuleState.ensureAbsent).2.st).count b =
      if b = rule.Body then (kernel w.st).count b - 1 else (kernel w.st).count b) ∧
    (∀ r0 ∈ ledger w.st, r0.Body ≠ rule.Body →
      r0 ∈ ledger (applyRule env w rule RuleState.ensureAbsent).2.st) := by
  obtain ⟨-, h1, hw⟩ := applyRule_ok env w rule RuleState.ensureAbsent hok
  have hsw := applyRule_ok_switch env w rule RuleState.ensureAbsent hok
  have hchk : (env.exec (storeAdd env w rule).2.st iptablesCmd ["-C", rule.Body]).1 = none :=
    H.check_finds _ _ (by show rule.Body ∈ kernel (env.addIPtablesRule w.st rule).2
                          rw [H.add_kernel]; exact hin)
  have hens := EnsureRule_installed_absent env (storeAdd env w rule).2 rule hchk
  rw [isRuleExist_snd] at hens
  rw [hens] at h1 hsw hw
  rw [hw]
  have hdel : (env.exec (env.exec (env.addIPtablesRule w.st rule).2 iptablesCmd
      ["-C", rule.Body]).2 iptablesCmd ["-D", rule.Body]).1 = none := h1
  refine ⟨?_, ?_, ?_, ?_⟩
  · simp [storeSwitch, osExec, storeAdd, removeTrace]
  · exact H.switch_sets _ _ _ hsw
  · intro b
    have h3 := H.delete_count _ _ b hdel
    rw [H.check_kernel, H.add_kernel] at h3
    rw [← h3]
    exact congrArg (List.count b) (H.switch_kernel _ _ _)
  · intro r0 hr0 hne
    have h5 : r0 ∈ ledger (env.exec (env.exec (env.addIPtablesRule w.st rule).2 iptablesCmd
        ["-C", rule.Body]).2 iptablesCmd ["-D", rule.Body]).2 := by
      rw [H.exec_ledger, H.exec_ledger]
      exact H.add_keeps _ _ _ hr0
    exact H.switch_keeps _ rule opSwitchIPtables.setRuleActive r0 h5 hne

/-- The loop of `DivertTrafficToRomanaIPtablesChain` with placement
`ensureAbsent` over distinct directions whose jump rules the kernel has, when
it succeeds. -/
theorem divertLoop_remove {σ : Type} (env : Env σ)
    (ledger : σ → List IPtablesRule) (kernel : σ → List String)
    (H : HostModel env ledger kernel) (fw : IPtables) (chain : IPtablesChain)
    (dirs : List String) :
    ∀ w : World σ, dirs.Nodup →
    (∀ d ∈ dirs, (divertRule fw chain d).Body ∈ kernel w.st) →
    (divertLoop env fw chain RuleState.ensureAbsent dirs w).1 = none →
    (divertLoop env fw chain RuleState.ensureAbsent dirs w).2.log =
      w.log ++ dirs.flatMap (fun d => removeTrace (divertRule fw chain d)) ∧
    (∀ d ∈ dirs,
      IPtablesRule.mk (divertRule fw chain d).Body opSwitchIPtables.setRuleActive ∈
        ledger (divertLoop env fw chain RuleState.ensureAbsent dirs w).2.st ∧
      (kernel (divertLoop env fw chain RuleState.ensureAbsent dirs w).2.st).count
        (divertRule fw chain d).Body + 1 = (kernel w.st).count (divertRule fw chain d).Body) ∧
    (∀ b, (∀ d ∈ dirs, b ≠ (divertRule fw chain d).Body) →
      (kernel (divertLoop env fw chain RuleState.ensureAbsent dirs w).2.st).count b =
        (kernel w.st).count b) ∧
    (∀ r0 ∈ ledger w.st, (∀ d ∈ dirs, r0.Body ≠ (divertRule fw chain d).Body) →
      r0 ∈ ledger (divertLoop env fw chain RuleState.ensureAbsent dirs w).2.st) := by
  induction dirs with
  | nil =>
    intro w _ _ _
    refine ⟨by simp [divertLoop], fun d hd => absurd hd (List.not_mem_nil d), fun _ _ => rfl,
      fun r0 hr0 _ => hr0⟩
  | cons d rest ih =>
    intro w hnd hinst hok
    obtain ⟨hdn, hndr⟩ := List.nodup_cons.mp hnd
    have hr : (applyRule env w (divertRule fw chain d) RuleState.ensureAbsent).1 = none := by
      cases hr : (applyRule env w (divertRule fw chain d) RuleState.ensureAbsent).1 with
      | none => rfl
      | some e =>
        rw [divertLoop_cons_fail env fw chain _ d rest w e hr] at hok
        simp at hok
    rw [divertLoop_cons_ok env fw chain _ d rest w hr] at hok ⊢
    obtain ⟨hlog1, hled1, hcnt1, hfr1⟩ := applyRule_remove_installed env ledger kernel H w
      (divertRule fw chain d) (hinst d (List.mem_cons_self _ _)) hr
    have hne : ∀ d2 ∈ rest, (divertRule fw chain d2).Body ≠ (divertRule fw chain d).Body := by
      intro d2 hd2 hb
      exact hdn ((divertRule_body_injective fw chain d2 d hb) ▸ hd2)
    have hinst1 : ∀ d2 ∈ rest, (divertRule fw chain d2).Body ∈
        kernel (applyRule env w (divertRule fw chain d) RuleState.ensureAbsent).2.st := by
      intro d2 hd2
      apply List.count_pos_iff.mp
      rw [hcnt1, if_neg (hne d2 hd2)]
      exact List.count_pos_iff.mpr (hinst d2 (List.mem_cons_of_mem _ hd2))
    obtain ⟨hlog, hin, hcnt, hfr⟩ := ih _ hndr hinst1 hok
    have hpos : 0 < (kernel w.st).count (divertRule fw chain d).Body :=
      List.count_pos_iff.mpr (hinst d (List.mem_cons_self _ _))
    refine ⟨?_, ?_, ?_, ?_⟩
    · rw [hlog, hlog1]
      simp [List.flatMap_cons, List.append_assoc]
    · intro d2 hd2
      rcases List.mem_cons.mp hd2 with rfl | hd2r
      · refine ⟨hfr _ hled1 (fun d3 hd3 => (hne d3 hd3).symm), ?_⟩
        rw [hcnt _ (fun d3 hd3 => (hne d3 hd3).symm), hcnt1, if_pos rfl]
        omega
      · obtain ⟨ha, hb⟩ := hin d2 hd2r
        refine ⟨ha, ?_⟩
        rw [hb, hcnt1, if_neg (hne d2 hd2r)]
    · intro b hb
      rw [hcnt b (fun d3 hd3 => hb d3 (List.mem_cons_of_mem _ hd3)), hcnt1,
        if_neg (hb d (List.mem_cons_self _ _))]
    · intro r0 hr0 hb
      exact hfr r0 (hfr1 r0 hr0 (hb d (List.mem_cons_self _ _)))
        (fun d3 hd3 => hb d3 (List.mem_cons_of_mem _ hd3))

/-- C32: on a host that meets `HostModel`, let a chain have distinct
directions and let the kernel have the jump rule of each. After a successful
`DivertTrafficToRomanaIPtablesChain` with `removeDivertRules` the log has
grown by, for each direction in turn, the ledger add of the jump rule (in
state inactive), its existence check, its delete and its ledger switch to
active. For each jump rule the kernel then has one copy less than before, so
none when it had one, and the ledger holds a record of the rule in state
active: an active record for a rule that is not installed. -/
theorem divert_remove_leaves_active_record {σ : Type} (env : Env σ)
    (ledger : σ → List IPtablesRule) (kernel : σ → List String)
    (H : HostModel env ledger kernel) (fw : IPtables) (w : World σ) (chain : IPtablesChain)
    (hnd : chain.Directions.Nodup)
    (hinst : ∀ d ∈ chain.Directions, (divertRule fw chain d).Body ∈ kernel w.st)
    (hok : (DivertTrafficToRomanaIPtablesChain env fw w chain
      opDivertTrafficAction.removeDivertRules).1 = none) :
    (DivertTrafficToRomanaIPtablesChain env fw w chain
      opDivertTrafficAction.removeDivertRules).2.log =
      w.log ++ chain.Directions.flatMap (fun d => removeTrace (divertRule fw chain d)) ∧
    ∀ d ∈ chain.Directions,
      (divertRule fw chain d).State = opSwitchIPtables.setRuleInactive ∧
      IPtablesRule.mk (divertRule fw chain d).Body opSwitchIPtables.setRuleActive ∈
        ledger (DivertTrafficToRomanaIPtablesChain env fw w chain
          opDivertTrafficAction.removeDivertRules).2.st ∧
      (kernel (DivertTrafficToRomanaIPtablesChain env fw w chain
          opDivertTrafficAction.removeDivertRules).2.st).count (divertRule fw chain d).Body + 1 =
        (kernel w.st).count (divertRule fw chain d).Body ∧
      ((kernel w.st).count (divertRule fw chain d).Body = 1 →
        (divertRule fw chain d).Body ∉
          kernel (DivertTrafficToRomanaIPtablesChain env fw w chain
            opDivertTrafficAction.removeDivertRules).2.st) := by
  obtain ⟨hlog, hin, -, -⟩ := divertLoop_remove env ledger kernel H fw chain chain.Directions
    w hnd hinst hok
  refine ⟨hlog, fun d hd => ?_⟩
  obtain ⟨ha, hb⟩ := hin d hd
  refine ⟨rfl, ha, hb, fun h1 => ?_⟩
  apply List.count_eq_zero.mp
  have hb2 : (kernel (divertLoop env fw chain RuleState.ensureAbsent chain.Directions
      w).2.st).count (divertRule fw chain d).Body + 1 = 1 := by rw [hb, h1]
  exact Nat.succ.inj hb2

/-- Witness for C32: the chain bound to both directions on the simulated host
that has its two jump rules installed and an empty ledger. Afterwards no rule
is installed and the ledger holds the two records in state active. -/
theorem divert_remove_leaves_active_record_witness :
    (DivertTrafficToRomanaIPtablesChain simEnv demoFw (simWorld simJumpsInstalled) demoChain
      opDivertTrafficAction.removeDivertRules).2.log =
      (simWorld simJumpsInstalled).log ++
        demoChain.Directions.flatMap (fun d => removeTrace (divertRule demoFw demoChain d)) ∧
    (DivertTrafficToRomanaIPtablesChain simEnv demoFw (simWorld simJumpsInstalled) demoChain
      opDivertTrafficAction.removeDivertRules).2.st.rules = [] ∧
    (DivertTrafficToRomanaIPtablesChain simEnv demoFw (simWorld simJumpsInstalled) demoChain
      opDivertTrafficAction.removeDivertRules).2.st.ledger =
      [IPtablesRule.mk "FORWARD -i tap123 -j ROMANA-T0S1-FORWARD" opSwitchIPtables.setRuleActive,
       IPtablesRule.mk "FORWARD -o tap123 -j ROMANA-T0S1-FORWARD"
        opSwitchIPtables.setRuleActive] :=
  ⟨(divert_remove_leaves_active_record simEnv SimState.ledger SimState.rules simHostModel
      demoFw (simWorld simJumpsInstalled) demoChain (by decide) (by decide) (by decide)).1,
    by decide, by decide⟩

/-! ## What `makeRules` appends -/

/-- A successful `makeRules` read an address and appended four chains to the
chains the firewall held; the network configuration stays. -/
theorem makeRules_chains {σ : Type} (env : Env σ) (w : World σ) (pnet : Except String IPNet)
    (fw : IPtables) (netif : FirewallEndpoint)
    (h : (makeRules env w pnet fw netif).1 = Outcome.returned none) :
    ∃ addr, ipToInt netif.IP = some addr ∧
      (makeRules env w pnet fw netif).2.1.Chains = fw.Chains ++
        [IPtablesChain.mk "INPUT" ["i"] []
          ("ROMANA-T" ++ decimal (extractTenantID fw.networkConfig addr) ++ "S" ++
            decimal (extractSegmentID fw.networkConfig addr) ++ "-" ++ "INPUT"),
         IPtablesChain.mk "OUTPUT" ["o"] []
          ("ROMANA-T" ++ decimal (extractTenantID fw.networkConfig addr) ++ "S" ++
            decimal (extractSegmentID fw.networkConfig addr) ++ "-" ++ "OUTPUT"),
         IPtablesChain.mk "FORWARD" ["i"] []
          ("ROMANA-T" ++ decimal (extractTenantID fw.networkConfig addr) ++ "S" ++
            decimal (extractSegmentID fw.networkConfig addr) ++ "-" ++ "FORWARD"),
         IPtablesChain.mk "FORWARD" ["o"] []
          ("ROMANA-T" ++ decimal (extractTenantID fw.networkConfig addr))] ∧
      (makeRules env w pnet fw netif).2.1.networkConfig = fw.networkConfig := by
  cases he : (PseudoNetNetmaskInt pnet).2 with
  | some e =>
    rw [makeRules_err env w pnet fw netif e he] at h
    simp at h
  | none =>
    cases hip : ipToInt netif.IP with
    | none =>
      rw [makeRules_no_err env w pnet fw netif he, hip] at h
      simp at h
    | some addr =>
      refine ⟨addr, rfl, ?_, ?_⟩
      · simp [makeRules, prepareU32Rules_ok pnet fw.networkConfig netif.IP addr he hip, hip,
          prepareChainName]
      · simp [makeRules, prepareU32Rules_ok pnet fw.networkConfig netif.IP addr he hip, hip]

/-- C33: a successful `makeRules` on a firewall that holds `n` chains leaves
`n + 4` chains, the chains held before followed by four new ones, so the first
`n` are unchanged. Called successfully a second time on the firewall a first
call left from no chains, it leaves eight chains, and `InputChainIndex`,
`OutputChainIndex`, `ForwardInChainIndex` and `ForwardOutChainIndex` still
address the chains of the first call. For `tap123` at 10.0.1.4 followed by
`tap456` at 10.0.35.7 the chain at `InputChainIndex` is `ROMANA-T0S1-INPUT`,
while the chain prefix is that of the latest endpoint, `ROMANA-T2S3-`, whose
chains are at the indices 4 to 7. -/
theorem makeRules_appends {σ : Type} (env : Env σ) (w : World σ)
    (pnet : Except String IPNet) (fw : IPtables) (netif : FirewallEndpoint)
    (hok : (makeRules env w pnet fw netif).1 = Outcome.returned none) :
    (∃ c0 c1 c2 c3,
      (makeRules env w pnet fw netif).2.1.Chains = fw.Chains ++ [c0, c1, c2, c3]) ∧
    (makeRules env w pnet fw netif).2.1.Chains.length = fw.Chains.length + 4 ∧
    (makeRules env w pnet fw netif).2.1.Chains.take fw.Chains.length = fw.Chains ∧
    (∀ k, k < fw.Chains.length →
      (makeRules env w pnet fw netif).2.1.Chains[k]? = fw.Chains[k]?) ∧
    (∀ netif2 : FirewallEndpoint, fw.Chains = [] →
      (makeRules env (makeRules env w pnet fw netif).2.2 pnet
        (makeRules env w pnet fw netif).2.1 netif2).1 = Outcome.returned none →
      (makeRules env (makeRules env w pnet fw netif).2.2 pnet
        (makeRules env w pnet fw netif).2.1 netif2).2.1.Chains.length = 8 ∧
      ∀ k ∈ [InputChainIndex, OutputChainIndex, ForwardInChainIndex, ForwardOutChainIndex],
        (makeRules env (makeRules env w pnet fw netif).2.2 pnet
          (makeRules env w pnet fw netif).2.1 netif2).2.1.Chains[k]? =
        (makeRules env w pnet fw netif).2.1.Chains[k]? ∧
        (makeRules env w pnet fw netif).2.1.Chains[k]?.isSome = true) ∧
    ((makeRules simEnv (simWorld simEmpty) demoPNet
        (makeRules simEnv (simWorld simEmpty) demoPNet emptyFw demoEndpoint).2.1
        demoEndpointSecond).2.1.Chains.map (fun c => c.ChainName) =
      ["ROMANA-T0S1-INPUT", "ROMANA-T0S1-OUTPUT", "ROMANA-T0S1-FORWARD", "ROMANA-T0",
       "ROMANA-T2S3-INPUT", "ROMANA-T2S3-OUTPUT", "ROMANA-T2S3-FORWARD", "ROMANA-T2"] ∧
     (makeRules simEnv (simWorld simEmpty) demoPNet
        (makeRules simEnv (simWorld simEmpty) demoPNet emptyFw demoEndpoint).2.1
        demoEndpointSecond).2.1.ChainPrefix = "ROMANA-T2S3-" ∧
     (makeRules simEnv (simWorld simEmpty) demoPNet
        (makeRules simEnv (simWorld simEmpty) demoPNet emptyFw demoEndpoint).2.1
        demoEndpointSecond).2.1.Chains[InputChainIndex]?.map (fun c => c.ChainName) =
      some "ROMANA-T0S1-INPUT") := by
  obtain ⟨addr, -, hch, -⟩ := makeRules_chains env w pnet fw netif hok
  have hlen : (makeRules env w pnet fw netif).2.1.Chains.length = fw.Chains.length + 4 := by
    rw [hch, List.length_append]
    rfl
  refine ⟨⟨_, _, _, _, hch⟩, hlen, ?_, ?_, ?_, by decide⟩
  · rw [hch, List.take_left]
  · intro k hk
    rw [hch, List.getElem?_append_left hk]
  · intro netif2 hempty hok2
    obtain ⟨addr2, -, hch2, -⟩ := makeRules_chains env _ pnet _ netif2 hok2
    have hlen1 : (makeRules env w pnet fw netif).2.1.Chains.length = 4 := by
      rw [hlen, hempty]
      rfl
    refine ⟨by rw [hch2, List.length_append, hlen1]; rfl, ?_⟩
    intro k hk
    have hk4 : k < (makeRules env w pnet fw netif).2.1.Chains.length := by
      rw [hlen1]
      simp only [List.mem_cons, List.mem_singleton, List.not_mem_nil, or_false] at hk
      rcases hk with rfl | rfl | rfl | rfl <;> decide
    refine ⟨by rw [hch2, List.getElem?_append_left hk4], ?_⟩
    rw [List.getElem?_eq_getElem hk4]
    rfl

/-- Witness for C33: `tap123` at 10.0.1.4 on the firewall without chains. -/
theorem makeRules_appends_witness :
    (makeRules simEnv (simWorld simEmpty) demoPNet emptyFw demoEndpoint).2.1.Chains.length =
      emptyFw.Chains.length + 4 ∧
    (makeRules simEnv (simWorld simEmpty) demoPNet
      (makeRules simEnv (simWorld simEmpty) demoPNet emptyFw demoEndpoint).2.1
      demoEndpointSecond).2.1.Chains.length = 8 :=
  ⟨(makeRules_appends simEnv (simWorld simEmpty) demoPNet emptyFw demoEndpoint
      (by decide)).2.1,
   ((makeRules_appends simEnv (simWorld simEmpty) demoPNet emptyFw demoEndpoint
      (by decide)).2.2.2.2.1 demoEndpointSecond rfl (by decide)).1⟩

/-! ## The four chain names of a plan -/

theorem string_append_cancel_left (p a b : String) (h : p ++ a = p ++ b) : a = b := by
  have hd := congrArg String.data h
  simp only [String.data_append] at hd
  exact String.ext (List.append_cancel_left hd)

/-- A tenant vector chain name is no per-interface chain name: after
`ROMANA-T` it has digits only, the other has an `S`. -/
theorem vectorName_ne_chainName (t t2 s : Nat) (b : String) :
    "ROMANA-T" ++ decimal t ≠ "ROMANA-T" ++ decimal t2 ++ "S" ++ decimal s ++ "-" ++ b := by
  intro h
  have hd := congrArg String.data h
  rw [chainName_data, String.data_append] at hd
  have h1 := List.append_cancel_left hd
  have hS : 'S' ∈ (decimal t).data := by
    rw [h1]
    exact List.mem_append_right _ (List.mem_cons_self _ _)
  have := decimal_isDigit t 'S' hS
  exact absurd this (by decide)

/-- C36: when `makeRules` succeeds on a firewall with no chains, the names of
the four chains it leaves are pairwise distinct. A tenant vector chain name
`ROMANA-T<t>` differs from every per-interface chain name
`ROMANA-T<t2>S<s>-<BASE>`, whatever the tenant and segment IDs and the base
name. -/
theorem makeRules_chain_names_distinct {σ : Type} (env : Env σ) (w : World σ)
    (pnet : Except String IPNet) (fw : IPtables) (netif : FirewallEndpoint)
    (hempty : fw.Chains = [])
    (hok : (makeRules env w pnet fw netif).1 = Outcome.returned none) :
    (makeRules env w pnet fw netif).2.1.Chains.length = 4 ∧
    ((makeRules env w pnet fw netif).2.1.Chains.map (fun c => c.ChainName)).Nodup ∧
    (∀ (t t2 s : Nat) (base : String),
      "ROMANA-T" ++ decimal t ≠ "ROMANA-T" ++ decimal t2 ++ "S" ++ decimal s ++ "-" ++ base) := by
  obtain ⟨addr, -, hch, -⟩ := makeRules_chains env w pnet fw netif hok
  rw [hempty, List.nil_append] at hch
  refine ⟨by rw [hch]; rfl, ?_, vectorName_ne_chainName⟩
  rw [hch]
  have hio : ("INPUT" : String) ≠ "OUTPUT" := by decide
  have hif : ("INPUT" : String) ≠ "FORWARD" := by decide
  have hof : ("OUTPUT" : String) ≠ "FORWARD" := by decide
  simp only [List.map_cons, List.map_nil]
  refine List.Pairwise.cons ?_ (List.Pairwise.cons ?_ (List.Pairwise.cons ?_
    (List.Pairwise.cons ?_ List.Pairwise.nil)))
  · intro x hx
    simp only [List.mem_cons, List.mem_singleton, List.not_mem_nil, or_false] at hx
    rcases hx with rfl | rfl | rfl
    · exact fun h => hio (string_append_cancel_left _ _ _ h)
    · exact fun h => hif (string_append_cancel_left _ _ _ h)
    · exact fun h => vectorName_ne_chainName _ _ _ _ h.symm
  · intro x hx
    simp only [List.mem_cons, List.mem_singleton, List.not_mem_nil, or_false] at hx
    rcases hx with rfl | rfl
    · exact fun h => hof (string_append_cancel_left _ _ _ h)
    · exact fun h => vectorName_ne_chainName _ _ _ _ h.symm
  · intro x hx
    simp only [List.mem_singleton] at hx
    subst hx
    exact fun h => vectorName_ne_chainName _ _ _ _ h.symm
  · intro x hx
    exact absurd hx (List.not_mem_nil x)

/-- Witness for C36: the plan of `tap123` at 10.0.1.4. -/
theorem makeRules_chain_names_distinct_witness :
    (makeRules simEnv (simWorld simEmpty) demoPNet emptyFw demoEndpoint).2.1.Chains.length = 4 ∧
    ((makeRules simEnv (simWorld simEmpty) demoPNet emptyFw demoEndpoint).2.1.Chains.map
      (fun c => c.ChainName)).Nodup ∧
    (makeRules simEnv (simWorld simEmpty) demoPNet emptyFw demoEndpoint).2.1.Chains.map
      (fun c => c.ChainName) =
      ["ROMANA-T0S1-INPUT", "ROMANA-T0S1-OUTPUT", "ROMANA-T0S1-FORWARD", "ROMANA-T0"] :=
  have h := makeRules_chain_names_distinct simEnv (simWorld simEmpty) demoPNet emptyFw
    demoEndpoint rfl (by decide)
  ⟨h.1, h.2.1, by decide⟩

/-! ## Isolation by the filter expression -/

theorem hexUpper_injective (m n : Nat) (h : hexUpper m = hexUpper n) : m = n := by
  have h1 := hexUpper_value m
  rw [h, hexUpper_value] at h1
  exact h1.symm

/-- Two filter expressions with the same mask are equal only if their values
are. -/
theorem filter_value_unique (m va vb : String)
    (h : "12&" ++ ("0x" ++ m ++ "=0x" ++ va) ++ " && 16&" ++ ("0x" ++ m ++ "=0x" ++ va) =
      "12&" ++ ("0x" ++ m ++ "=0x" ++ vb) ++ " && 16&" ++ ("0x" ++ m ++ "=0x" ++ vb)) :
    va = vb := by
  have hd := congrArg String.data h
  simp only [String.data_append, List.append_assoc] at hd
  have h1 := List.append_cancel_left (List.append_cancel_left (List.append_cancel_left
    (List.append_cancel_left hd)))
  have hl := congrArg List.length h1
  simp only [List.length_append] at hl
  have hlen : va.data.length = vb.data.length := by omega
  exact String.ext (List.append_inj h1 hlen).1

/-- Two numbers have the same bits under a mask exactly when they agree on
every bit of the mask. -/
theorem and_eq_iff_agree (a b M : Nat) :
    a &&& M = b &&& M ↔ ∀ i, M.testBit i = true → a.testBit i = b.testBit i := by
  constructor
  · intro h i hi
    have h1 := congrArg (fun x => x.testBit i) h
    simpa [Nat.testBit_and, hi] using h1
  · intro h
    apply Nat.eq_of_testBit_eq
    intro i
    rw [Nat.testBit_and, Nat.testBit_and]
    cases hM : M.testBit i with
    | false => simp
    | true => rw [h i hM]

/-- The full mask when the accessor succeeds and the mask parses. -/
theorem prepareNetmaskBits_ok (cidr : IPNet) (cfg : NetConfig)
    (hparse : (parseInt (maskString cidr.Mask)).2 = none) :
    (PseudoNetNetmaskInt (Except.ok cidr)).2 = none ∧
    (prepareNetmaskBits (Except.ok cidr) cfg).1 =
      (MaskToInt cidr.Mask).1 ||| prepareTenantSegmentMask cfg := by
  have hm : (MaskToInt cidr.Mask).2 = none := by
    simp only [MaskToInt, hparse]
  refine ⟨by rw [PseudoNetNetmaskInt_err]; exact hparse, ?_⟩
  simp [prepareNetmaskBits, PseudoNetNetmaskInt, hm]

/-- C34, isolation by filter: with a CIDR accessor that succeeds and a mask
that parses, let `a` and `b` be the integers `ipToInt` reads from two
addresses. `prepareU32Rules` succeeds on both, and the two filter expressions
are equal if and only if `a & fullMask = b & fullMask`, with
`fullMask = cidrMask | tenantSegmentMask`; that is, if and only if `a` and `b`
agree on every bit set in the CIDR mask or in the tenant/segment mask. -/
theorem filter_isolation (pnet : Except String IPNet) (cfg : NetConfig)
    (ipA ipB : List Nat) (cidr : IPNet) (a b : Nat)
    (hp : pnet = Except.ok cidr)
    (hparse : (parseInt (maskString cidr.Mask)).2 = none)
    (ha : ipToInt ipA = some a) (hb : ipToInt ipB = some b) :
    ∃ fa pa fb pb,
      prepareU32Rules pnet cfg ipA = some (fa, pa, none) ∧
      prepareU32Rules pnet cfg ipB = some (fb, pb, none) ∧
      (fa = fb ↔
        a &&& ((MaskToInt cidr.Mask).1 ||| prepareTenantSegmentMask cfg) =
          b &&& ((MaskToInt cidr.Mask).1 ||| prepareTenantSegmentMask cfg)) ∧
      (a &&& ((MaskToInt cidr.Mask).1 ||| prepareTenantSegmentMask cfg) =
          b &&& ((MaskToInt cidr.Mask).1 ||| prepareTenantSegmentMask cfg) ↔
        ∀ i, ((MaskToInt cidr.Mask).1.testBit i = true ∨
            (prepareTenantSegmentMask cfg).testBit i = true) →
          a.testBit i = b.testBit i) := by
  subst hp
  obtain ⟨herr, hfull⟩ := prepareNetmaskBits_ok cidr cfg hparse
  refine ⟨_, _, _, _, prepareU32Rules_ok (Except.ok cidr) cfg ipA a herr ha,
    prepareU32Rules_ok (Except.ok cidr) cfg ipB b herr hb, ?_, ?_⟩
  · rw [hfull]
    constructor
    · intro h
      exact hexUpper_injective _ _ (filter_value_unique _ _ _ h)
    · intro h
      rw [h]
  · rw [and_eq_iff_agree]
    constructor
    · intro h i hi
      exact h i (by rw [Nat.testBit_or]; rcases hi with hi | hi <;> simp [hi])
    · intro h i hi
      rw [Nat.testBit_or] at hi
      exact h i (by simpa using hi)

/-- Witness for C34: 10.0.1.4 and 10.0.1.9 in the pseudo network 10.0.0.0/8
with 4 tenant, 4 segment and 8 endpoint bits. -/
theorem filter_isolation_witness :
    ∃ fa pa fb pb,
      prepareU32Rules demoPNet ⟨4, 4, 8⟩ (ipv4 10 0 1 4) = some (fa, pa, none) ∧
      prepareU32Rules demoPNet ⟨4, 4, 8⟩ (ipv4 10 0 1 9) = some (fb, pb, none) ∧
      (fa = fb ↔
        0x0A000104 &&& ((MaskToInt [255, 0, 0, 0]).1 ||| prepareTenantSegmentMask ⟨4, 4, 8⟩) =
          0x0A000109 &&& ((MaskToInt [255, 0, 0, 0]).1 |||
            prepareTenantSegmentMask ⟨4, 4, 8⟩)) :=
  (filter_isolation demoPNet ⟨4, 4, 8⟩ (ipv4 10 0 1 4) (ipv4 10 0 1 9)
    ⟨[10, 0, 0, 0], [255, 0, 0, 0]⟩ 0x0A000104 0x0A000109 rfl (by decide) (by decide)
    (by decide)).imp (fun _ h => h.imp (fun _ h => h.imp (fun _ h => h.imp
      (fun _ h => ⟨h.1, h.2.1, h.2.2.1⟩))))

/-- C35: for widths with `tenantBits + segmentBits + endpointBits ≤ 32` and a
CIDR mask that parses and has none of its low `endpointBits` bits set, two
addresses whose integers differ only in the low `endpointBits` bits get the
same result of `prepareU32Rules`, a success with one filter expression and one
chain prefix, and the same tenant vector chain name; `makeRules` leaves the
same plan for two endpoints of one name with these addresses. -/
theorem endpoint_bits_do_not_influence_plan (pnet : Except String IPNet) (cfg : NetConfig)
    (ipA ipB : List Nat) (cidr : IPNet) (a b : Nat)
    (ht : cfg.tenantBits + cfg.segmentBits + cfg.endpointBits ≤ 32)
    (hp : pnet = Except.ok cidr)
    (hparse : (parseInt (maskString cidr.Mask)).2 = none)
    (hlow : (MaskToInt cidr.Mask).1 % 2 ^ cfg.endpointBits = 0)
    (ha : ipToInt ipA = some a) (hb : ipToInt ipB = some b)
    (hab : a >>> cfg.endpointBits = b >>> cfg.endpointBits) :
    (∃ filter pfx, prepareU32Rules pnet cfg ipA = some (filter, pfx, none) ∧
      prepareU32Rules pnet cfg ipB = some (filter, pfx, none)) ∧
    "ROMANA-T" ++ decimal (extractTenantID cfg a) =
      "ROMANA-T" ++ decimal (extractTenantID cfg b) ∧
    (∀ (σ : Type) (env : Env σ) (w : World σ) (fw : IPtables) (name : String),
      fw.networkConfig = cfg →
      makeRules env w pnet fw (FirewallEndpoint.mk name ipA) =
        makeRules env w pnet fw (FirewallEndpoint.mk name ipB)) := by
  subst hp
  obtain ⟨herr, hfull⟩ := prepareNetmaskBits_ok cidr cfg hparse
  have hts : prepareTenantSegmentMask cfg % 2 ^ cfg.endpointBits = 0 := by
    rw [prepareTenantSegmentMask_eq cfg ht, Nat.shiftLeft_eq]
    exact Nat.mul_mod_left _ _
  have hM : a &&& ((MaskToInt cidr.Mask).1 ||| prepareTenantSegmentMask cfg) =
      b &&& ((MaskToInt cidr.Mask).1 ||| prepareTenantSegmentMask cfg) := by
    rw [and_eq_iff_agree]
    intro i hi
    by_cases hie : i < cfg.endpointBits
    · rw [Nat.testBit_or, testBit_of_mod_pow _ _ _ hlow hie,
        testBit_of_mod_pow _ _ _ hts hie] at hi
      exact absurd hi (by decide)
    · have h1 := congrArg (fun x => x.testBit (i - cfg.endpointBits)) hab
      simp only [Nat.testBit_shiftRight] at h1
      have h2 : cfg.endpointBits + (i - cfg.endpointBits) = i := by omega
      rw [h2] at h1
      exact h1
  have hseg : extractSegmentID cfg a = extractSegmentID cfg b := by
    simp only [extractSegmentID, shr64, hab]
  have hten : extractTenantID cfg a = extractTenantID cfg b := by
    simp only [extractTenantID, shr64]
    rw [add64_small _ _ (by omega), Nat.shiftRight_add, Nat.shiftRight_add, hab]
  have hA := prepareU32Rules_ok (Except.ok cidr) cfg ipA a herr ha
  have hB := prepareU32Rules_ok (Except.ok cidr) cfg ipB b herr hb
  rw [hfull] at hA hB
  rw [← hM, ← hseg, ← hten] at hB
  refine ⟨⟨_, _, hA, hB⟩, by rw [hten], ?_⟩
  intro σ env w fw name hfw
  simp only [makeRules, hfw, hA, hB, ha, hb, hten]

/-- Witness for C35: 10.0.1.4 and 10.0.1.200 in the pseudo network 10.0.0.0/8
with 4 tenant, 4 segment and 8 endpoint bits. -/
theorem endpoint_bits_do_not_influence_plan_witness :
    (∃ filter pfx,
      prepareU32Rules demoPNet ⟨4, 4, 8⟩ (ipv4 10 0 1 4) = some (filter, pfx, none) ∧
      prepareU32Rules demoPNet ⟨4, 4, 8⟩ (ipv4 10 0 1 200) = some (filter, pfx, none)) ∧
    prepareU32Rules demoPNet ⟨4, 4, 8⟩ (ipv4 10 0 1 200) =
      some ("12&0xFF00FF00=0xA000100 && 16&0xFF00FF00=0xA000100", "ROMANA-T0S1-", none) :=
  ⟨(endpoint_bits_do_not_influence_plan demoPNet ⟨4, 4, 8⟩ (ipv4 10 0 1 4) (ipv4 10 0 1 200)
      ⟨[10, 0, 0, 0], [255, 0, 0, 0]⟩ 0x0A000104 0x0A0001C8 (by decide) rfl (by decide)
      (by decide) (by decide) (by decide) (by decide)).1,
    by decide⟩

end Firewall

namespace Common

/-! ## `DbToHttpError` -/

/-- C26 as stated fails at a sqlite3 error with code `SQLITE_CANTOPEN`: it is
neither a constraint violation nor a MySQL error 1062, and `DbToHttpError`
does not return it unchanged but the value of `NewError500("Database
error.")`. -/
theorem DbToHttpError_cannot_open_not_unchanged :
    isUniqueViolation (DbError.sqlite3Error 14 14 "unable to open database file") = false ∧
    DbToHttpError (DbError.sqlite3Error 14 14 "unable to open database file") =
      DbError.newError500 "Database error." ∧
    DbToHttpError (DbError.sqlite3Error 14 14 "unable to open database file") ≠
      DbError.sqlite3Error 14 14 "unable to open database file" := by
  decide

/-- C26, amended: `DbToHttpError` returns `HttpError{StatusCode: 409}` for a
sqlite3 unique or primary-key constraint violation and for a MySQL error with
number 1062, the value of `NewError500("Database error.")` for a sqlite3 error
with code `SQLITE_CANTOPEN`, and for every other error the original error
unchanged. -/
theorem DbToHttpError_cases (err : DbError) :
    DbToHttpError err =
      if isUniqueViolation err then DbError.httpError 409
      else if isCannotOpen err then DbError.newError500 "Database error."
      else err := by
  cases err with
  | sqlite3Error code ext text =>
    simp only [DbToHttpError, isUniqueViolation, isCannotOpen, ErrConstraint, ErrCantOpen,
      ErrConstraintUnique, ErrConstraintPrimaryKey, StatusConflict]
    by_cases h1 : code = 19
    · by_cases h2 : ext = 2067 ∨ ext = 1555
      · simp [h1, h2]
      · have h3 : ¬ ext = 2067 := fun h => h2 (Or.inl h)
        have h4 : ¬ ext = 1555 := fun h => h2 (Or.inr h)
        simp [h1, h3, h4]
    · by_cases h2 : code = 14
      · simp [h2]
      · simp [h1, h2]
  | mysqlError number msg =>
    simp only [DbToHttpError, isUniqueViolation, isCannotOpen, MySQLUniqueConstraintErrorCode,
      StatusConflict]
    by_cases h : number = 1062 <;> simp [h]
  | httpError c => simp [DbToHttpError, isUniqueViolation, isCannotOpen]
  | newError500 d => simp [DbToHttpError, isUniqueViolation, isCannotOpen]
  | other t => simp [DbToHttpError, isUniqueViolation, isCannotOpen]

/-! ## Content negotiation and `wrapHandler` -/

/-- Whatever the `RestHandler` is called with in `respond`, it is called once,
with the value handed in. -/
theorem respond_calls (k : Wiring) (contentType : String) (inData : Value) :
    (respond k contentType inData).calls = [inData] := by
  unfold respond
  simp only
  split
  · rfl
  · split
    · split <;> rfl
    · split <;> rfl

/-- For every route whose `Consumes` type is neither `nil` nor `http.Request`,
when decoding succeeds the `RestHandler` is called with the `nil` interface. -/
theorem wrapHandler_calls_nil (k : Wiring) (t : GoType) (contentType : String)
    (inDataMap : Value) (ht : t ≠ GoType.httpRequest)
    (hd : (k.decode inDataMap (Value.newObject t)).1 = none) :
    (wrapHandler k (some t) contentType inDataMap).calls = [Value.nil] := by
  have h1 : ¬ (some t = some GoType.httpRequest) := fun h => ht (Option.some.inj h)
  simp only [wrapHandler, h1, if_false, hd]
  exact respond_calls k contentType Value.nil

/-- With no marshaller for the content type, a successful `RestHandler` is
answered with 415. -/
theorem respond_unsupported (k : Wiring) (contentType : String) (inData : Value)
    (hok : (k.restHandler inData).2 = none)
    (hm : ContentTypeMarshallers.lookup contentType = none) :
    (respond k contentType inData).writes.head? = some (WriterEvent.writeHeader 415) := by
  unfold respond
  simp only [hok, hm]
  split <;> rfl

/-- C29, at the content type `text/plain`: it is a member of
`supportedContentTypes`, the negotiator selects it for a request that accepts
it, and `ContentTypeMarshallers` has no marshaller for it, so the response of
a successful handler is answered with 415 Unsupported Media Type. The other
three supported types have a marshaller. -/
theorem text_plain_negotiated_without_marshaller :
    "text/plain" ∈ supportedContentTypes ∧
    negotiatedContentType negotiateExact "text/plain" "" = "text/plain" ∧
    ContentTypeMarshallers.lookup "text/plain" = none ∧
    (wrapHandler demoWiring none "text/plain" Value.nil).writes.head? =
      some (WriterEvent.writeHeader 415) ∧
    (∀ ct ∈ supportedContentTypes,
      ct = "text/plain" ∨ (ContentTypeMarshallers.lookup ct).isSome = true) := by
  decide

/-- C30, at a route that consumes the type `Tenant`: decoding the request map
into the new object succeeds, and the `RestHandler` is invoked with the `nil`
interface, not with the decoded object. -/
theorem wrapHandler_invokes_handler_with_nil :
    demoWiring.decode (Value.data "map") (Value.newObject (GoType.named "Tenant")) =
      (none, Value.decodedObject (GoType.named "Tenant") "tenant") ∧
    (wrapHandler demoWiring (some (GoType.named "Tenant")) "application/json"
      (Value.data "map")).calls = [Value.nil] ∧
    (wrapHandler demoWiring (some (GoType.named "Tenant")) "application/json"
      (Value.data "map")).calls ≠ [Value.decodedObject (GoType.named "Tenant") "tenant"] := by
  decide

/-! ## `StoreConfig.String` -/

/-- C37: two `StoreConfig` values that agree on `Host`, `Port`, `Database` and
`Type`, whatever their `Username` and `Password`, render to the same string:
`Host: <Host>, Port: <Port>, Username: ****, Password: ****, Database:
<Database>, Type: <Type>`, with the port in decimal. Replacing the user name
and the password of a configuration leaves its rendering as it is. -/
theorem StoreConfig_String_hides_credentials (a b : StoreConfig)
    (hHost : a.Host = b.Host) (hPort : a.Port = b.Port)
    (hDatabase : a.Database = b.Database) (hType : a.Type_ = b.Type_) :
    a.String = b.String ∧
    a.String = "Host: " ++ a.Host ++ ", Port: " ++ Firewall.decimal a.Port ++
      ", Username: ****, Password: ****, Database: " ++ a.Database ++ ", Type: " ++ a.Type_ ∧
    (∀ u p : String, ({ a with Username := u, Password := p } : StoreConfig).String =
      a.String) := by
  refine ⟨?_, rfl, fun _ _ => rfl⟩
  simp only [StoreConfig.String, hHost, hPort, hDatabase, hType]

/-- Witness for C37: the demonstration configuration and the same store with
other credentials; the rendering holds neither the user name nor the
password. -/
theorem StoreConfig_String_hides_credentials_witness :
    demoStoreConfig.String =
      (StoreConfig.mk "db.example.org" 3306 "admin" "hunter2" "tenants" "mysql").String ∧
    demoStoreConfig.String =
      "Host: db.example.org, Port: 3306, Username: ****, Password: ****, Database: tenants, Type: mysql" ∧
    Firewall.containsChars demoStoreConfig.Password.data demoStoreConfig.String.data = false ∧
    Firewall.containsChars demoStoreConfig.Username.data demoStoreConfig.String.data = false :=
  ⟨(StoreConfig_String_hides_credentials demoStoreConfig
      (StoreConfig.mk "db.example.org" 3306 "admin" "hunter2" "tenants" "mysql")
      rfl rfl rfl rfl).1,
    by decide, by decide, by decide⟩

end Common
